import Mathlib

/-!
QP-spline ST-graph speed optimizer.

A shallow embedding of `modules/planning/optimizer/qp_spline_st_speed/qp_spline_st_graph.cc`
(class `QpSplineStGraph`) together with the properties of it that are proved below.

Modelling conventions.

* `double` values are rational numbers (`ℚ`): all arithmetic is exact.
* `std::vector<T>` is `List T`; `push_back` appends at the end.
* Loop counters declared `uint32_t` are natural numbers.  Every vector of this component
  (the two time grids, the speed-limit breakpoints) is far shorter than `2 ^ 32` entries,
  so incrementing a counter up to a vector size never wraps.  The one unsigned
  computation that wraps at ordinary sizes, `speed_upper_bound->size() - 1` on an empty
  vector, is modelled with its explicit modulus (`sizeMinusOneU32`).
* Collaborators whose sources are not part of this file (`StGraphBoundary`, `SpeedLimit`,
  `Spline1dGenerator` with its constraint and kernel objects, the protobuf configuration)
  are modelled through the operations this file invokes on them.
* Logging (`AERROR`, `ADEBUG`) has no effect on the state and is left out.
-/

namespace Apollo

/-! ## Status -/

/-- Error codes of `apollo::common::ErrorCode` that this file uses. -/
inductive ErrorCode where
  | OK
  | PLANNING_ERROR
deriving DecidableEq

/-- Result of `apollo::common::Status`: an error code with a message. -/
structure Status where
  code : ErrorCode
  msg : String
deriving DecidableEq

/-- Value of `Status::OK()`. -/
def Status.OK : Status := ⟨ErrorCode.OK, ""⟩

/-- Value of `Status::ok()`: true exactly when the code is `OK`. -/
def Status.ok (s : Status) : Bool := decide (s.code = ErrorCode.OK)

/-! ## Inputs -/

/-- Modelled from the spec: `StGraphBoundary::BoundaryType`, whose declaration is not in
this file.  The spec lists STOP, FOLLOW, YIELD and the other (overtake-like) types. -/
inductive BoundaryType where
  | UNKNOWN
  | STOP
  | FOLLOW
  | YIELD
  | OVERTAKE
deriving DecidableEq

/-- Obstacle boundary in the station-time plane, as far as this file uses it.
`GetUnblockSRange t` is `none` when the C++ call returns `false`, and `some (s_upper, s_lower)`
when it returns `true` with these values in its two output parameters (the callers read the
output parameters only after a `true` return). -/
structure StGraphBoundary where
  boundary_type : BoundaryType
  characteristic_length : ℚ
  GetUnblockSRange : ℚ → Option (ℚ × ℚ)

/-- Record of `common::SpeedPoint`: station, time, speed, acceleration and jerk.  It is both
a breakpoint of the speed-limit curve (where `s` and `v` are read) and a sample of the
output trajectory. -/
structure SpeedPoint where
  s : ℚ
  t : ℚ
  v : ℚ
  a : ℚ
  da : ℚ
deriving DecidableEq

/-- Speed-limit curve: its breakpoints and its lookup `get_speed_limit_by_s`, which is
defined outside this file and is taken as given. -/
structure SpeedLimit where
  speed_points : List SpeedPoint
  get_speed_limit_by_s : ℚ → ℚ

/-- Part of `common::TrajectoryPoint` read here: velocity and acceleration. -/
structure TrajectoryPoint where
  v : ℚ
  a : ℚ
deriving DecidableEq

/-- Fields of `QpSplineStSpeedConfig` read by this file. -/
structure QpSplineStSpeedConfig where
  total_path_length : ℚ
  total_time : ℚ
  output_time_resolution : ℚ
  number_of_discrete_graph_t : Nat
  number_of_evaluated_graph_t : Nat
  spline_order : Nat
  speed_kernel_weight : ℚ
  accel_kernel_weight : ℚ
  jerk_kernel_weight : ℚ
  reference_line_kernel_weight : ℚ
  max_speed : ℚ
deriving DecidableEq

/-- Part of `StGraphData` read by `Search`. -/
structure StGraphData where
  init_point : TrajectoryPoint
  speed_limit : SpeedLimit
  st_graph_boundaries : List StGraphBoundary
  path_data_length : ℚ

/-! ## The spline collaborator -/

/-- Calls this file makes on `Spline1dConstraint`, with their arguments. -/
inductive ConstraintCall where
  | AddPointConstraint (x fx : ℚ)
  | AddPointDerivativeConstraint (x dfx : ℚ)
  | AddPointSecondDerivativeConstraint (x ddfx : ℚ)
  | AddMonotoneInequalityConstraintAtKnots
  | AddThirdDerivativeSmoothConstraint
  | AddBoundary (x_coord lower_bound upper_bound : List ℚ)
  | AddDerivativeBoundary (x_coord lower_bound upper_bound : List ℚ)
deriving DecidableEq

/-- Calls this file makes on `Spline1dKernel`, with their arguments. -/
inductive KernelCall where
  | add_derivative_kernel_matrix (weight : ℚ)
  | add_second_order_derivative_matrix (weight : ℚ)
  | add_third_order_derivative_matrix (weight : ℚ)
  | add_reference_line_kernel_matrix (x_coord ref_x : List ℚ) (weight : ℚ)
deriving DecidableEq

/-- Observable state of a `Spline1dGenerator`: the knots and order it was built with, the
calls its constraint and kernel objects have received so far (oldest first), and the
number of times `Solve` was run on it. -/
structure Spline1dGenerator where
  x_knots : List ℚ
  spline_order : Nat
  constraint_log : List ConstraintCall
  kernel_log : List KernelCall
  solve_calls : Nat
deriving DecidableEq

/-- Value of `new Spline1dGenerator(x_knots, order)`: nothing registered yet. -/
def Spline1dGenerator.new (x_knots : List ℚ) (spline_order : Nat) : Spline1dGenerator :=
  ⟨x_knots, spline_order, [], [], 0⟩

/-- Solved spline `Spline1d`: its value and its first three derivatives. -/
structure Spline1d where
  eval : ℚ → ℚ
  Derivative : ℚ → ℚ
  SecondOrderDerivative : ℚ → ℚ
  ThirdOrderDerivative : ℚ → ℚ

/-- Behaviour of the spline library, which is outside this file: whether a constraint call
is accepted (its `bool` result) given the state of the generator it is made on, whether
`Solve` succeeds, and the spline the generator holds afterwards. -/
structure SplineLibrary where
  accepts : Spline1dGenerator → ConstraintCall → Bool
  solves : Spline1dGenerator → Bool
  spline : Spline1dGenerator → Spline1d

/-- One call on `spline_generator_->mutable_spline_constraint()`: the call is recorded and
the library decides its result. -/
def Spline1dGenerator.constrain (lib : SplineLibrary) (gen : Spline1dGenerator)
    (call : ConstraintCall) : Bool × Spline1dGenerator :=
  (lib.accepts gen call, { gen with constraint_log := gen.constraint_log ++ [call] })

/-- One call on `spline_generator_->mutable_spline_kernel()`; these calls return nothing. -/
def Spline1dGenerator.addKernel (gen : Spline1dGenerator) (call : KernelCall) :
    Spline1dGenerator :=
  { gen with kernel_log := gen.kernel_log ++ [call] }

/-! ## The graph -/

/-- Data members of `QpSplineStGraph`.  `spline_generator_` is a `unique_ptr` that is null
until `Init` runs; every method that dereferences it runs after `Init`, and the state
before that is represented by a generator without knots. -/
structure QpSplineStGraph where
  qp_spline_st_speed_config_ : QpSplineStSpeedConfig
  t_knots_resolution_ : ℚ
  t_evaluated_resolution_ : ℚ
  init_point_ : TrajectoryPoint
  t_knots_ : List ℚ
  t_evaluated_ : List ℚ
  spline_generator_ : Spline1dGenerator

/-- Constructor `QpSplineStGraph::QpSplineStGraph`: stores the configuration and the two
grid steps `total_time / count`; the remaining members are default-constructed. -/
def QpSplineStGraph.new (qp_spline_st_speed_config : QpSplineStSpeedConfig) :
    QpSplineStGraph where
  qp_spline_st_speed_config_ := qp_spline_st_speed_config
  t_knots_resolution_ :=
    qp_spline_st_speed_config.total_time /
      (qp_spline_st_speed_config.number_of_discrete_graph_t : ℚ)
  t_evaluated_resolution_ :=
    qp_spline_st_speed_config.total_time /
      (qp_spline_st_speed_config.number_of_evaluated_graph_t : ℚ)
  init_point_ := ⟨0, 0⟩
  t_knots_ := []
  t_evaluated_ := []
  spline_generator_ := Spline1dGenerator.new [] 0

/-- One of the two loops of `Init`:
`for (uint32_t i = 0; i <= count; ++i) { vec.push_back(curr_t); curr_t += resolution; }`,
entered with counter `i`, accumulator `curr_t` and vector `vec`. -/
def Init.fill (count : Nat) (resolution : ℚ) (i : Nat) (curr_t : ℚ) (vec : List ℚ) : List ℚ :=
  if i ≤ count then
    Init.fill count resolution (i + 1) (curr_t + resolution) (vec ++ [curr_t])
  else
    vec
termination_by count + 1 - i

/-- Method `QpSplineStGraph::Init`: pushes the knot times onto `t_knots_` and the evaluation times
onto `t_evaluated_` (neither vector is emptied first), then replaces the spline generator
by a new one over `t_knots_`. -/
def Init (g : QpSplineStGraph) : QpSplineStGraph :=
  let t_knots_ :=
    Init.fill g.qp_spline_st_speed_config_.number_of_discrete_graph_t g.t_knots_resolution_
      0 0 g.t_knots_
  let t_evaluated_ :=
    Init.fill g.qp_spline_st_speed_config_.number_of_evaluated_graph_t
      g.t_evaluated_resolution_ 0 0 g.t_evaluated_
  { g with
    t_knots_ := t_knots_
    t_evaluated_ := t_evaluated_
    spline_generator_ :=
      Spline1dGenerator.new t_knots_ g.qp_spline_st_speed_config_.spline_order }

/-! ## Boundary evaluator -/

/-- Body of the loop of `GetSConstraintByTime` over the boundaries; the state is the pair
`(*s_upper_bound, *s_lower_bound)`. -/
def GetSConstraintByTime.loop (time : ℚ) : List StGraphBoundary → ℚ × ℚ → ℚ × ℚ
  | [], bounds => bounds
  | boundary :: rest, (s_upper_bound, s_lower_bound) =>
    match boundary.GetUnblockSRange time with
    | none => GetSConstraintByTime.loop time rest (s_upper_bound, s_lower_bound)
    | some (s_upper, s_lower) =>
      if boundary.boundary_type = BoundaryType.STOP ∨
          boundary.boundary_type = BoundaryType.FOLLOW ∨
          boundary.boundary_type = BoundaryType.YIELD then
        GetSConstraintByTime.loop time rest (min s_upper_bound s_upper, s_lower_bound)
      else
        GetSConstraintByTime.loop time rest (s_upper_bound, max s_lower_bound s_lower)

/-- Method `QpSplineStGraph::GetSConstraintByTime`.  The two trailing arguments are the values the
output parameters `*s_upper_bound` and `*s_lower_bound` hold on entry; the result is the
returned status with the values they hold on exit.  Only the upper bound is assigned
before the loop. -/
def GetSConstraintByTime (boundaries : List StGraphBoundary) (time total_path_s : ℚ)
    (_s_upper_bound s_lower_bound : ℚ) : Status × ℚ × ℚ :=
  let bounds := GetSConstraintByTime.loop time boundaries (total_path_s, s_lower_bound)
  (Status.OK, bounds.1, bounds.2)

/-! ## Speed-ceiling estimator -/

/-- Constant `kDistanceEpsilon = 1e-6`. -/
def kDistanceEpsilon : ℚ := 1 / 1000000

/-- State of the two-index walk of `EstimateSpeedUpperBound`: the time index `i`, the
breakpoint index `j` and the entries pushed so far. -/
structure WalkState where
  i : Nat
  j : Nat
  speed_upper_bound : List ℚ
deriving DecidableEq

/-- The `while (i < t_evaluated_.size() && j + 1 < speed_points().size())` loop of
`EstimateSpeedUpperBound`, entered in state `st`; the result is the state on exit.  The
natural-number argument bounds the number of iterations and makes the recursion structural: every
iteration increases `i` or `j` by one, so `t_evaluated_.size() + speed_points().size()`
iterations always reach the exit (`EstimateSpeedUpperBound_walk_exit` below). -/
def EstimateSpeedUpperBound.walk (v : ℚ) (t_evaluated_ : List ℚ) (speed_limit : SpeedLimit) :
    Nat → WalkState → WalkState
  | 0, st => st
  | fuel + 1, st =>
    if h : st.i < t_evaluated_.length ∧ st.j + 1 < speed_limit.speed_points.length then
      let distance := v * t_evaluated_[st.i]
      if |distance - speed_limit.speed_points[st.j].s| < kDistanceEpsilon then
        EstimateSpeedUpperBound.walk v t_evaluated_ speed_limit fuel
          ⟨st.i + 1, st.j, st.speed_upper_bound ++ [speed_limit.speed_points[st.j].v]⟩
      else if speed_limit.speed_points[st.j + 1].s < distance then
        EstimateSpeedUpperBound.walk v t_evaluated_ speed_limit fuel
          ⟨st.i, st.j + 1, st.speed_upper_bound⟩
      else
        EstimateSpeedUpperBound.walk v t_evaluated_ speed_limit fuel
          ⟨st.i + 1, st.j,
            st.speed_upper_bound ++ [speed_limit.get_speed_limit_by_s distance]⟩
    else
      st

/-- Start value of the back-fill counter, `uint32_t k = speed_upper_bound->size() - 1`:
the subtraction is done in the 64-bit unsigned `size_t` and the result is then reduced to
32 bits.  For size 0 it is `2 ^ 32 - 1`. -/
def sizeMinusOneU32 (size : Nat) : Nat :=
  ((size + 2 ^ 64 - 1) % 2 ^ 64) % 2 ^ 32

/-- The back-fill loop `for (k = ...; k < t_evaluated_.size(); ++k) push_back(max_speed)`,
entered with counter `k`. -/
def EstimateSpeedUpperBound.backFill (max_speed : ℚ) (size : Nat) (k : Nat)
    (speed_upper_bound : List ℚ) : List ℚ :=
  if k < size then
    EstimateSpeedUpperBound.backFill max_speed size (k + 1) (speed_upper_bound ++ [max_speed])
  else
    speed_upper_bound
termination_by size - k

/-- Method `QpSplineStGraph::EstimateSpeedUpperBound`.  The output vector is cleared on entry, so
its old content is no input; the result is the returned status and the vector on exit. -/
def EstimateSpeedUpperBound (g : QpSplineStGraph) (init_point : TrajectoryPoint)
    (speed_limit : SpeedLimit) : Status × List ℚ :=
  let v := init_point.v
  let walked :=
    EstimateSpeedUpperBound.walk v g.t_evaluated_ speed_limit
      (g.t_evaluated_.length + speed_limit.speed_points.length) ⟨0, 0, []⟩
  let speed_upper_bound :=
    EstimateSpeedUpperBound.backFill g.qp_spline_st_speed_config_.max_speed
      g.t_evaluated_.length (sizeMinusOneU32 walked.speed_upper_bound.length)
      walked.speed_upper_bound
  (Status.OK, speed_upper_bound)

/-! ## Constraint builder -/

/-- The loop of `ApplyConstraint` over `t_evaluated_` that collects the distance window:
the state is `(s_upper_bound, s_lower_bound)`.  Both locals are set to `0.0` before each
call of `GetSConstraintByTime`. -/
def ApplyConstraint.bounds (boundaries : List StGraphBoundary) (total_path_length : ℚ) :
    List ℚ → List ℚ × List ℚ → List ℚ × List ℚ
  | [], acc => acc
  | curr_t :: rest, (s_upper_bound, s_lower_bound) =>
    let r := GetSConstraintByTime boundaries curr_t total_path_length 0 0
    ApplyConstraint.bounds boundaries total_path_length rest
      (s_upper_bound ++ [r.2.1], s_lower_bound ++ [r.2.2])

/-- Status built at every failure site of this file. -/
def planningError (msg : String) : Status := ⟨ErrorCode.PLANNING_ERROR, msg⟩

/-- Method `QpSplineStGraph::ApplyConstraint`: the returned status and the graph afterwards (only
the constraint log of its spline generator changes).  The start velocity and acceleration
are read from the member `init_point_`, the speed ceiling from the argument. -/
def ApplyConstraint (lib : SplineLibrary) (g : QpSplineStGraph) (init_point : TrajectoryPoint)
    (speed_limit : SpeedLimit) (boundaries : List StGraphBoundary) :
    Status × QpSplineStGraph :=
  let c1 := g.spline_generator_.constrain lib (ConstraintCall.AddPointConstraint 0 0)
  if c1.1 = false then
    (planningError "add st start point constraint failed", { g with spline_generator_ := c1.2 })
  else
  let c2 := c1.2.constrain lib (ConstraintCall.AddPointDerivativeConstraint 0 g.init_point_.v)
  if c2.1 = false then
    (planningError "add st start point velocity constraint failed!",
      { g with spline_generator_ := c2.2 })
  else
  let c3 :=
    c2.2.constrain lib (ConstraintCall.AddPointSecondDerivativeConstraint 0 g.init_point_.a)
  if c3.1 = false then
    (planningError "add st start point acceleration constraint failed!",
      { g with spline_generator_ := c3.2 })
  else
  let c4 :=
    c3.2.constrain lib
      (ConstraintCall.AddPointSecondDerivativeConstraint (c3.2.x_knots.getLastD 0) 0)
  if c4.1 = false then
    (planningError "add st end point acceleration constraint failed!",
      { g with spline_generator_ := c4.2 })
  else
  let c5 := c4.2.constrain lib ConstraintCall.AddMonotoneInequalityConstraintAtKnots
  if c5.1 = false then
    (planningError "add monotonicity constraint failed!", { g with spline_generator_ := c5.2 })
  else
  let c6 := c5.2.constrain lib ConstraintCall.AddThirdDerivativeSmoothConstraint
  if c6.1 = false then
    (planningError "add smoothness joint constraint failed!",
      { g with spline_generator_ := c6.2 })
  else
  let s_bounds :=
    ApplyConstraint.bounds boundaries g.qp_spline_st_speed_config_.total_path_length
      g.t_evaluated_ ([], [])
  let c7 := c6.2.constrain lib (ConstraintCall.AddBoundary g.t_evaluated_ s_bounds.2 s_bounds.1)
  if c7.1 = false then
    (planningError "Fail to apply distance constraints.", { g with spline_generator_ := c7.2 })
  else
  let est := EstimateSpeedUpperBound g init_point speed_limit
  if est.1.ok = false then
    (planningError "Fail to estimate speed upper constraints.",
      { g with spline_generator_ := c7.2 })
  else
  let speed_lower_bound := List.replicate g.t_evaluated_.length (0 : ℚ)
  let c8 :=
    c7.2.constrain lib
      (ConstraintCall.AddDerivativeBoundary g.t_evaluated_ speed_lower_bound est.2)
  if c8.1 = false then
    (planningError "Fail to apply speed constraints.", { g with spline_generator_ := c8.2 })
  else
    (Status.OK, { g with spline_generator_ := c8.2 })

/-! ## Kernel builder -/

/-- The loop of `AddCruiseReferenceLineKernel`,
`for (uint32_t i = 1; i < evaluate_t.size(); ++i)`, entered with counter `i`, accumulator
`dist_ref` and vector `s_vec`; the result is `s_vec` on exit. -/
def AddCruiseReferenceLineKernel.loop (evaluate_t : List ℚ) (speed_limit : SpeedLimit)
    (i : Nat) (dist_ref : ℚ) (s_vec : List ℚ) : List ℚ :=
  if h : i < evaluate_t.length then
    AddCruiseReferenceLineKernel.loop evaluate_t speed_limit (i + 1)
      (dist_ref + (evaluate_t[i] - evaluate_t[i - 1]) * speed_limit.get_speed_limit_by_s dist_ref)
      (s_vec ++ [dist_ref])
  else
    s_vec
termination_by evaluate_t.length - i

/-- Method `QpSplineStGraph::AddCruiseReferenceLineKernel`: the returned status and the graph
afterwards (only the kernel log of its spline generator can change). -/
def AddCruiseReferenceLineKernel (g : QpSplineStGraph) (evaluate_t : List ℚ)
    (speed_limit : SpeedLimit) : Status × QpSplineStGraph :=
  if speed_limit.speed_points.length = 0 then
    (planningError "Fail to apply_kernel due to empty speed limits.", g)
  else
    let s_vec := AddCruiseReferenceLineKernel.loop evaluate_t speed_limit 1 0 []
    (Status.OK,
      { g with
        spline_generator_ :=
          g.spline_generator_.addKernel
            (KernelCall.add_reference_line_kernel_matrix evaluate_t s_vec
              g.qp_spline_st_speed_config_.reference_line_kernel_weight) })

/-- The inner loop of `AddFollowReferenceLineKernel` over the boundaries at one time.  The
state stands for the two locals `success` and `s_ref_min`: `none` is `success = false` with
`s_ref_min` still at its start value `+infinity`, and `some m` is `success = true` with
`s_ref_min = m` (the two are only ever assigned together, and `std::min` of `+infinity` and
`x` is `x`).  `GetUnblockSRange` is called for FOLLOW boundaries only. -/
def AddFollowReferenceLineKernel.scan (curr_t : ℚ) :
    List StGraphBoundary → Option ℚ → Option ℚ
  | [], s_ref_min => s_ref_min
  | boundary :: rest, s_ref_min =>
    if boundary.boundary_type = BoundaryType.FOLLOW then
      match boundary.GetUnblockSRange curr_t with
      | some (s_upper, _) =>
        match s_ref_min with
        | none =>
          AddFollowReferenceLineKernel.scan curr_t rest
            (some (s_upper - boundary.characteristic_length))
        | some m =>
          AddFollowReferenceLineKernel.scan curr_t rest
            (some (min m (s_upper - boundary.characteristic_length)))
      | none => AddFollowReferenceLineKernel.scan curr_t rest s_ref_min
    else
      AddFollowReferenceLineKernel.scan curr_t rest s_ref_min

/-- The outer loop of `AddFollowReferenceLineKernel` over `evaluate_t`; the state is
`(filtered_evaluate_t, ref_s)`. -/
def AddFollowReferenceLineKernel.loop (boundaries : List StGraphBoundary) :
    List ℚ → List ℚ × List ℚ → List ℚ × List ℚ
  | [], acc => acc
  | curr_t :: rest, (filtered_evaluate_t, ref_s) =>
    match AddFollowReferenceLineKernel.scan curr_t boundaries none with
    | some s_ref_min =>
      AddFollowReferenceLineKernel.loop boundaries rest
        (filtered_evaluate_t ++ [curr_t], ref_s ++ [s_ref_min])
    | none => AddFollowReferenceLineKernel.loop boundaries rest (filtered_evaluate_t, ref_s)

/-- Method `QpSplineStGraph::AddFollowReferenceLineKernel`: the returned status and the graph
afterwards (only the kernel log of its spline generator changes). -/
def AddFollowReferenceLineKernel (g : QpSplineStGraph) (evaluate_t : List ℚ)
    (boundaries : List StGraphBoundary) (weight : ℚ) : Status × QpSplineStGraph :=
  let r := AddFollowReferenceLineKernel.loop boundaries evaluate_t ([], [])
  (Status.OK,
    { g with
      spline_generator_ :=
        g.spline_generator_.addKernel
          (KernelCall.add_reference_line_kernel_matrix r.1 r.2 weight) })

/-- One of the three weight-guarded derivative kernels of `ApplyKernel`. -/
def ApplyKernel.weighted (weight : ℚ) (call : ℚ → KernelCall) (gen : Spline1dGenerator) :
    Spline1dGenerator :=
  if 0 < weight then gen.addKernel (call weight) else gen

/-- Method `QpSplineStGraph::ApplyKernel`: the returned status and the graph afterwards. -/
def ApplyKernel (g : QpSplineStGraph) (boundaries : List StGraphBoundary)
    (speed_limit : SpeedLimit) : Status × QpSplineStGraph :=
  let gen1 :=
    ApplyKernel.weighted g.qp_spline_st_speed_config_.speed_kernel_weight
      KernelCall.add_derivative_kernel_matrix g.spline_generator_
  let gen2 :=
    ApplyKernel.weighted g.qp_spline_st_speed_config_.accel_kernel_weight
      KernelCall.add_second_order_derivative_matrix gen1
  let gen3 :=
    ApplyKernel.weighted g.qp_spline_st_speed_config_.jerk_kernel_weight
      KernelCall.add_third_order_derivative_matrix gen2
  let g3 : QpSplineStGraph := { g with spline_generator_ := gen3 }
  let cruise := AddCruiseReferenceLineKernel g3 g3.t_evaluated_ speed_limit
  if cruise.1 ≠ Status.OK then
    (planningError "QpSplineStGraph::ApplyKernel", cruise.2)
  else
  let follow := AddFollowReferenceLineKernel cruise.2 cruise.2.t_evaluated_ boundaries 1
  if follow.1 ≠ Status.OK then
    (planningError "QpSplineStGraph::ApplyKernel", follow.2)
  else
    (Status.OK, follow.2)

/-! ## Solve and sample -/

/-- Method `QpSplineStGraph::Solve`: runs the solver of the spline generator once. -/
def Solve (lib : SplineLibrary) (g : QpSplineStGraph) : Status × QpSplineStGraph :=
  let gen : Spline1dGenerator :=
    { g.spline_generator_ with solve_calls := g.spline_generator_.solve_calls + 1 }
  (if lib.solves g.spline_generator_ then Status.OK else planningError "QpSplineStGraph::solve",
    { g with spline_generator_ := gen })

/-- The output loop of `Search`,
`while (time < total_time + t_output_resolution) { add_speed_point(...); time += ...; }`,
entered with accumulator `time` and the points pushed so far.  The loop need not end (it
does not when the resolution is not positive and the condition holds), so it is run for at
most `fuel` iterations: `none` means the loop is still running after `fuel` iterations. -/
def Search.sample (spline : Spline1d) (total_time t_output_resolution : ℚ) :
    Nat → ℚ → List SpeedPoint → Option (List SpeedPoint)
  | 0, time, speed_data =>
    if time < total_time + t_output_resolution then none else some speed_data
  | fuel + 1, time, speed_data =>
    if time < total_time + t_output_resolution then
      Search.sample spline total_time t_output_resolution fuel (time + t_output_resolution)
        (speed_data ++
          [⟨spline.eval time, time, spline.Derivative time, spline.SecondOrderDerivative time,
            spline.ThirdOrderDerivative time⟩])
    else
      some speed_data

/-- The first statements of `Search`, up to and including the call of `Init`: the member
`init_point_` is set, the configured `total_path_length` is overwritten by the path length
when that is smaller, and `Init` runs. -/
def Search.prepare (g : QpSplineStGraph) (st_graph_data : StGraphData) : QpSplineStGraph :=
  let g1 : QpSplineStGraph := { g with init_point_ := st_graph_data.init_point }
  let g2 : QpSplineStGraph :=
    if st_graph_data.path_data_length < g1.qp_spline_st_speed_config_.total_path_length then
      { g1 with
        qp_spline_st_speed_config_ :=
          { g1.qp_spline_st_speed_config_ with
            total_path_length := st_graph_data.path_data_length } }
    else
      g1
  Init g2

/-- Method `QpSplineStGraph::Search` (its `PathData` argument is not read and is left out).  The
last argument is the content of `*speed_data` on entry; the result is the returned status,
the graph afterwards and the content of `*speed_data` on exit, or `none` when the output
loop is still running after `fuel` iterations. -/
def Search (lib : SplineLibrary) (fuel : Nat) (g : QpSplineStGraph)
    (st_graph_data : StGraphData) (speed_data : List SpeedPoint) :
    Option (Status × QpSplineStGraph × List SpeedPoint) :=
  let g0 := Search.prepare g st_graph_data
  let constrained :=
    ApplyConstraint lib g0 st_graph_data.init_point st_graph_data.speed_limit
      st_graph_data.st_graph_boundaries
  if constrained.1.ok = false then
    some (planningError "Apply constraint failed!", constrained.2, speed_data)
  else
  let kernelled :=
    ApplyKernel constrained.2 st_graph_data.st_graph_boundaries st_graph_data.speed_limit
  if kernelled.1.ok = false then
    some (planningError "Apply kernel failed!", kernelled.2, speed_data)
  else
  let solved := Solve lib kernelled.2
  if solved.1.ok = false then
    some (planningError "Solve qp problem failed!", solved.2, speed_data)
  else
  let spline := lib.spline solved.2.spline_generator_
  match
    Search.sample spline solved.2.qp_spline_st_speed_config_.total_time
      solved.2.qp_spline_st_speed_config_.output_time_resolution fuel 0 [] with
  | some sampled => some (Status.OK, solved.2, sampled)
  | none => none


/-! ## Sample inputs -/

/-- A configuration with a one-second horizon, one knot segment and one evaluation
segment: both grids are `[0, 1]`. -/
def sampleConfig : QpSplineStSpeedConfig where
  total_path_length := 100
  total_time := 1
  output_time_resolution := 1 / 2
  number_of_discrete_graph_t := 1
  number_of_evaluated_graph_t := 1
  spline_order := 5
  speed_kernel_weight := 1
  accel_kernel_weight := 1
  jerk_kernel_weight := 1
  reference_line_kernel_weight := 1
  max_speed := 20

/-- The graph built from `sampleConfig`, after its first `Init`. -/
def sampleGraph : QpSplineStGraph := Init (QpSplineStGraph.new sampleConfig)

/-- A constant speed limit of 5 with breakpoints at stations 0 and 10. -/
def sampleSpeedLimit : SpeedLimit where
  speed_points := [⟨0, 0, 5, 0, 0⟩, ⟨10, 0, 5, 0, 0⟩]
  get_speed_limit_by_s := fun _ => 5

/-- A constant speed limit of 5 with the single breakpoint at station 0. -/
def singlePointSpeedLimit : SpeedLimit where
  speed_points := [⟨0, 0, 5, 0, 0⟩]
  get_speed_limit_by_s := fun _ => 5

/-- A spline library that accepts every constraint, solves every problem, and whose
solved spline is constantly 0. -/
def acceptAll : SplineLibrary where
  accepts := fun _ _ => true
  solves := fun _ => true
  spline := fun _ => ⟨fun _ => 0, fun _ => 0, fun _ => 0, fun _ => 0⟩

/-- A planning request: start speed 1, the constant sample speed limit, no obstacle
boundary, 100 of path available. -/
def sampleData : StGraphData where
  init_point := ⟨1, 0⟩
  speed_limit := sampleSpeedLimit
  st_graph_boundaries := []
  path_data_length := 100

/-- The same request with only 50 of path available. -/
def shortPathData : StGraphData where
  init_point := ⟨1, 0⟩
  speed_limit := sampleSpeedLimit
  st_graph_boundaries := []
  path_data_length := 50

/-- A STOP boundary that is active at every time and leaves `[0, s]` free. -/
def stopBoundary (s : ℚ) : StGraphBoundary where
  boundary_type := BoundaryType.STOP
  characteristic_length := 0
  GetUnblockSRange := fun _ => some (s, 0)

/-- An OVERTAKE boundary that is active at every time and leaves `[s, 200]` free. -/
def overtakeBoundary (s : ℚ) : StGraphBoundary where
  boundary_type := BoundaryType.OVERTAKE
  characteristic_length := 0
  GetUnblockSRange := fun _ => some (200, s)

/-- A STOP boundary that is active at no time. -/
def inactiveBoundary : StGraphBoundary where
  boundary_type := BoundaryType.STOP
  characteristic_length := 0
  GetUnblockSRange := fun _ => none

/-- The sample configuration with an output resolution of 2/5, which does not divide the
horizon 1. -/
def unevenOutputConfig : QpSplineStSpeedConfig :=
  { sampleConfig with output_time_resolution := 2 / 5 }

/-- The graph `Search` leaves behind when all three phases succeed: the graph after the
first statements of `Search`, `ApplyConstraint`, `ApplyKernel` and `Solve`, in this order. -/
def Search.solvedGraph (lib : SplineLibrary) (g : QpSplineStGraph)
    (st_graph_data : StGraphData) : QpSplineStGraph :=
  (Solve lib
    (ApplyKernel
      (ApplyConstraint lib (Search.prepare g st_graph_data) st_graph_data.init_point
        st_graph_data.speed_limit st_graph_data.st_graph_boundaries).2
      st_graph_data.st_graph_boundaries st_graph_data.speed_limit).2).2

/-- The result of `Search` on `sampleData` from the graph newly constructed for
`sampleConfig`, with the library `acceptAll`: status OK and the samples at times 0, 1/2, 1
of the constant spline 0. -/
def sampleResult : Status × QpSplineStGraph × List SpeedPoint :=
  (Status.OK, Search.solvedGraph acceptAll (QpSplineStGraph.new sampleConfig) sampleData,
    [⟨0, 0, 0, 0, 0⟩, ⟨0, 1 / 2, 0, 0, 0⟩, ⟨0, 1, 0, 0, 0⟩])

/-- What the walk of `EstimateSpeedUpperBound` pushes for the evaluation time at index `k`
when it starts on that time with breakpoint index `prev` and pushes with breakpoint index
`j`: every index from `prev` up to `j` was stepped over because its station was not within
`kDistanceEpsilon` of the projected distance `v * t[k]` and the station after it was below
that distance; the pushed value `x` is the speed of breakpoint `j` when its station is
within `kDistanceEpsilon` of the distance, and otherwise the station after `j` is not below
the distance and `x` is the looked-up limit.  (Proof device for the invariant of the walk;
list entries are read with a default that the stated bounds make irrelevant.) -/
def EstimateSpeedUpperBound.EntryOf (v : ℚ) (t : List ℚ) (sl : SpeedLimit)
    (prev j k : Nat) (x : ℚ) : Prop :=
  k < t.length ∧ j + 1 < sl.speed_points.length ∧ prev ≤ j ∧
  (∀ j2, prev ≤ j2 → j2 < j →
    ¬ |v * t.getD k 0 - (sl.speed_points.getD j2 ⟨0, 0, 0, 0, 0⟩).s| < kDistanceEpsilon ∧
      (sl.speed_points.getD (j2 + 1) ⟨0, 0, 0, 0, 0⟩).s < v * t.getD k 0) ∧
  (|v * t.getD k 0 - (sl.speed_points.getD j ⟨0, 0, 0, 0, 0⟩).s| < kDistanceEpsilon →
    x = (sl.speed_points.getD j ⟨0, 0, 0, 0, 0⟩).v) ∧
  (¬ |v * t.getD k 0 - (sl.speed_points.getD j ⟨0, 0, 0, 0, 0⟩).s| < kDistanceEpsilon →
    ¬ ((sl.speed_points.getD (j + 1) ⟨0, 0, 0, 0, 0⟩).s < v * t.getD k 0) ∧
      x = sl.get_speed_limit_by_s (v * t.getD k 0))

/-- Invariant of the walk of `EstimateSpeedUpperBound`, with `used k` the breakpoint index
with which the entry for time `k` was pushed: `i` counts the entries, the breakpoint index
never goes back, the indices stepped over for the pending time `i` were stepped over for the
reason the loop gives, and every entry pushed so far satisfies `EntryOf`. -/
def EstimateSpeedUpperBound.Traced (v : ℚ) (t : List ℚ) (sl : SpeedLimit)
    (used : Nat → Nat) (st : WalkState) : Prop :=
  st.speed_upper_bound.length = st.i ∧ st.i ≤ t.length ∧
  (if st.i = 0 then 0 else used (st.i - 1)) ≤ st.j ∧
  (st.i < t.length → ∀ j2, (if st.i = 0 then 0 else used (st.i - 1)) ≤ j2 → j2 < st.j →
    ¬ |v * t.getD st.i 0 - (sl.speed_points.getD j2 ⟨0, 0, 0, 0, 0⟩).s| < kDistanceEpsilon ∧
      (sl.speed_points.getD (j2 + 1) ⟨0, 0, 0, 0, 0⟩).s < v * t.getD st.i 0) ∧
  ∀ k, k < st.i →
    EstimateSpeedUpperBound.EntryOf v t sl (if k = 0 then 0 else used (k - 1)) (used k) k
      (st.speed_upper_bound.getD k 0)

/-- A speed limit with breakpoints at stations 0 and 10, of speeds 5 and 6, whose lookup is
constantly 7: the lookup can be told from both breakpoint speeds. -/
def steppedSpeedLimit : SpeedLimit where
  speed_points := [⟨0, 0, 5, 0, 0⟩, ⟨10, 0, 6, 0, 0⟩]
  get_speed_limit_by_s := fun _ => 7

/-! # Theorems -/

/-! ## Boundary evaluator -/

/-- The boundary loop entered with bounds `(u, l)`: the upper bound on exit is `u` or the
`s_upper` of an active boundary of type STOP, FOLLOW or YIELD and lies below all of these;
the lower bound on exit is `l` or the `s_lower` of an active boundary of another type and
lies above all of these. -/
theorem GetSConstraintByTime_loop_spec (time : ℚ) (boundaries : List StGraphBoundary) :
    ∀ u l : ℚ,
      ((GetSConstraintByTime.loop time boundaries (u, l)).1 = u ∨
        ∃ b ∈ boundaries, ∃ su sl, b.GetUnblockSRange time = some (su, sl) ∧
          (b.boundary_type = BoundaryType.STOP ∨ b.boundary_type = BoundaryType.FOLLOW ∨
            b.boundary_type = BoundaryType.YIELD) ∧
          (GetSConstraintByTime.loop time boundaries (u, l)).1 = su) ∧
      (GetSConstraintByTime.loop time boundaries (u, l)).1 ≤ u ∧
      (∀ b ∈ boundaries, ∀ su sl, b.GetUnblockSRange time = some (su, sl) →
          (b.boundary_type = BoundaryType.STOP ∨ b.boundary_type = BoundaryType.FOLLOW ∨
            b.boundary_type = BoundaryType.YIELD) →
          (GetSConstraintByTime.loop time boundaries (u, l)).1 ≤ su) ∧
      ((GetSConstraintByTime.loop time boundaries (u, l)).2 = l ∨
        ∃ b ∈ boundaries, ∃ su sl, b.GetUnblockSRange time = some (su, sl) ∧
          ¬ (b.boundary_type = BoundaryType.STOP ∨ b.boundary_type = BoundaryType.FOLLOW ∨
            b.boundary_type = BoundaryType.YIELD) ∧
          (GetSConstraintByTime.loop time boundaries (u, l)).2 = sl) ∧
      l ≤ (GetSConstraintByTime.loop time boundaries (u, l)).2 ∧
      (∀ b ∈ boundaries, ∀ su sl, b.GetUnblockSRange time = some (su, sl) →
          ¬ (b.boundary_type = BoundaryType.STOP ∨ b.boundary_type = BoundaryType.FOLLOW ∨
            b.boundary_type = BoundaryType.YIELD) →
          sl ≤ (GetSConstraintByTime.loop time boundaries (u, l)).2) := by
  induction boundaries with
  | nil => intro u l; simp [GetSConstraintByTime.loop]
  | cons b rest ih =>
    intro u l
    cases hb : b.GetUnblockSRange time with
    | none =>
      obtain ⟨h1, h2, h3, h4, h5, h6⟩ := ih u l
      simp only [GetSConstraintByTime.loop, hb, List.mem_cons]
      refine ⟨?_, h2, ?_, ?_, h5, ?_⟩
      · rcases h1 with h | ⟨b', hb', su, sl, e, ty, r⟩
        · exact Or.inl h
        · exact Or.inr ⟨b', Or.inr hb', su, sl, e, ty, r⟩
      · rintro b' (rfl | hb') su sl e ty
        · rw [hb] at e; cases e
        · exact h3 b' hb' su sl e ty
      · rcases h4 with h | ⟨b', hb', su, sl, e, ty, r⟩
        · exact Or.inl h
        · exact Or.inr ⟨b', Or.inr hb', su, sl, e, ty, r⟩
      · rintro b' (rfl | hb') su sl e ty
        · rw [hb] at e; cases e
        · exact h6 b' hb' su sl e ty
    | some p =>
      obtain ⟨su0, sl0⟩ := p
      by_cases hty : b.boundary_type = BoundaryType.STOP ∨
          b.boundary_type = BoundaryType.FOLLOW ∨ b.boundary_type = BoundaryType.YIELD
      · obtain ⟨h1, h2, h3, h4, h5, h6⟩ := ih (min u su0) l
        simp only [GetSConstraintByTime.loop, hb, hty, if_true, List.mem_cons]
        refine ⟨?_, le_trans h2 (min_le_left _ _), ?_, ?_, h5, ?_⟩
        · rcases h1 with h | ⟨b', hb', su, sl, e, ty, r⟩
          · rcases min_choice u su0 with hm | hm
            · exact Or.inl (h.trans hm)
            · exact Or.inr ⟨b, Or.inl rfl, su0, sl0, hb, hty, h.trans hm⟩
          · exact Or.inr ⟨b', Or.inr hb', su, sl, e, ty, r⟩
        · rintro b' (rfl | hb') su sl e ty
          · rw [hb] at e
            cases e
            exact le_trans h2 (min_le_right _ _)
          · exact h3 b' hb' su sl e ty
        · rcases h4 with h | ⟨b', hb', su, sl, e, ty, r⟩
          · exact Or.inl h
          · exact Or.inr ⟨b', Or.inr hb', su, sl, e, ty, r⟩
        · rintro b' (rfl | hb') su sl e ty
          · exact absurd hty ty
          · exact h6 b' hb' su sl e ty
      · obtain ⟨h1, h2, h3, h4, h5, h6⟩ := ih u (max l sl0)
        simp only [GetSConstraintByTime.loop, hb, hty, if_false, List.mem_cons]
        refine ⟨?_, h2, ?_, ?_, le_trans (le_max_left _ _) h5, ?_⟩
        · rcases h1 with h | ⟨b', hb', su, sl, e, ty, r⟩
          · exact Or.inl h
          · exact Or.inr ⟨b', Or.inr hb', su, sl, e, ty, r⟩
        · rintro b' (rfl | hb') su sl e ty
          · exact absurd ty hty
          · exact h3 b' hb' su sl e ty
        · rcases h4 with h | ⟨b', hb', su, sl, e, ty, r⟩
          · rcases max_choice l sl0 with hm | hm
            · exact Or.inl (h.trans hm)
            · exact Or.inr ⟨b, Or.inl rfl, su0, sl0, hb, hty, h.trans hm⟩
          · exact Or.inr ⟨b', Or.inr hb', su, sl, e, ty, r⟩
        · rintro b' (rfl | hb') su sl e ty
          · rw [hb] at e
            cases e
            exact le_trans (le_max_right _ _) h5
          · exact h6 b' hb' su sl e ty

/-- C1: called as `ApplyConstraint` calls it (both output locals pre-set to 0),
`GetSConstraintByTime` returns status OK, an upper bound that is the least element of the
total path length together with the `s_upper` of every boundary that is active at the time
and of type STOP, FOLLOW or YIELD, and a lower bound that is the greatest element of 0
together with the `s_lower` of every active boundary of any other type.  Boundaries that are
inactive at the time occur in neither set. -/
theorem GetSConstraintByTime_spec (boundaries : List StGraphBoundary)
    (time total_path_s : ℚ) :
    (GetSConstraintByTime boundaries time total_path_s 0 0).1 = Status.OK ∧
    IsLeast
      ({total_path_s} ∪
        {x | ∃ b ∈ boundaries, ∃ su sl, b.GetUnblockSRange time = some (su, sl) ∧
          (b.boundary_type = BoundaryType.STOP ∨ b.boundary_type = BoundaryType.FOLLOW ∨
            b.boundary_type = BoundaryType.YIELD) ∧ x = su})
      (GetSConstraintByTime boundaries time total_path_s 0 0).2.1 ∧
    IsGreatest
      ({0} ∪
        {x | ∃ b ∈ boundaries, ∃ su sl, b.GetUnblockSRange time = some (su, sl) ∧
          ¬ (b.boundary_type = BoundaryType.STOP ∨ b.boundary_type = BoundaryType.FOLLOW ∨
            b.boundary_type = BoundaryType.YIELD) ∧ x = sl})
      (GetSConstraintByTime boundaries time total_path_s 0 0).2.2 := by
  obtain ⟨h1, h2, h3, h4, h5, h6⟩ :=
    GetSConstraintByTime_loop_spec time boundaries total_path_s 0
  refine ⟨rfl, ⟨?_, ?_⟩, ⟨?_, ?_⟩⟩
  · rcases h1 with h | ⟨b, hb, su, sl, e, ty, r⟩
    · exact Or.inl h
    · exact Or.inr ⟨b, hb, su, sl, e, ty, r⟩
  · rintro x (hx | ⟨b, hb, su, sl, e, ty, rfl⟩)
    · rw [Set.mem_singleton_iff] at hx
      rw [hx]
      exact h2
    · exact h3 b hb x sl e ty
  · rcases h4 with h | ⟨b, hb, su, sl, e, ty, r⟩
    · exact Or.inl h
    · exact Or.inr ⟨b, hb, su, sl, e, ty, r⟩
  · rintro x (hx | ⟨b, hb, su, sl, e, ty, rfl⟩)
    · rw [Set.mem_singleton_iff] at hx
      rw [hx]
      exact h5
    · exact h6 b hb su x e ty


/-! ## Speed-ceiling estimator -/

/-- The back-fill loop entered with counter `k` pushes `max_speed` once for every counter
value from `k` up to `size - 1`. -/
theorem EstimateSpeedUpperBound_backFill_eq (max_speed : ℚ) (size : Nat) (k : Nat)
    (out : List ℚ) :
    EstimateSpeedUpperBound.backFill max_speed size k out =
      out ++ List.replicate (size - k) max_speed := by
  induction k, out using EstimateSpeedUpperBound.backFill.induct max_speed size with
  | case1 k out h ih =>
    rw [EstimateSpeedUpperBound.backFill, if_pos h, ih]
    have : size - k = (size - (k + 1)) + 1 := by omega
    rw [this, List.replicate_succ, List.append_assoc]
    rfl
  | case2 k out h =>
    rw [EstimateSpeedUpperBound.backFill, if_neg h]
    have : size - k = 0 := by omega
    simp [this]

/-- The walk keeps `i` equal to the number of entries pushed, never moves `i` past the grid
length, and with enough iterations allowed it ends in a state where the loop condition is
false. -/
theorem EstimateSpeedUpperBound_walk_exit (v : ℚ) (t : List ℚ) (sl : SpeedLimit) :
    ∀ (fuel : Nat) (st : WalkState),
      (t.length - st.i) + (sl.speed_points.length - st.j) ≤ fuel →
      st.speed_upper_bound.length = st.i → st.i ≤ t.length →
      (EstimateSpeedUpperBound.walk v t sl fuel st).speed_upper_bound.length =
          (EstimateSpeedUpperBound.walk v t sl fuel st).i ∧
        (EstimateSpeedUpperBound.walk v t sl fuel st).i ≤ t.length ∧
        st.i ≤ (EstimateSpeedUpperBound.walk v t sl fuel st).i ∧
        ¬ ((EstimateSpeedUpperBound.walk v t sl fuel st).i < t.length ∧
            (EstimateSpeedUpperBound.walk v t sl fuel st).j + 1 < sl.speed_points.length) := by
  intro fuel
  induction fuel with
  | zero =>
    intro st hf hl hi
    refine ⟨hl, hi, le_refl _, ?_⟩
    simp only [EstimateSpeedUpperBound.walk]
    omega
  | succ fuel ih =>
    intro st hf hl hi
    rw [EstimateSpeedUpperBound.walk]
    split
    · rename_i h
      simp only
      split
      · obtain ⟨a, b, c, d⟩ :=
          ih ⟨st.i + 1, st.j, st.speed_upper_bound ++ [sl.speed_points[st.j].v]⟩
            (by simp only; omega) (by simp [hl]) (by simp only; omega)
        exact ⟨a, b, by simp only at c; omega, d⟩
      · split
        · obtain ⟨a, b, c, d⟩ := ih ⟨st.i, st.j + 1, st.speed_upper_bound⟩
            (by simp only; omega) hl hi
          exact ⟨a, b, c, d⟩
        · obtain ⟨a, b, c, d⟩ :=
            ih ⟨st.i + 1, st.j,
                st.speed_upper_bound ++ [sl.get_speed_limit_by_s (v * t[st.i])]⟩
              (by simp only; omega) (by simp [hl]) (by simp only; omega)
          exact ⟨a, b, by simp only at c; omega, d⟩
    · rename_i h
      exact ⟨hl, hi, le_refl _, h⟩


/-- The result of `EstimateSpeedUpperBound` is what the walk pushed, followed by
`max_speed` once for every counter value from the 32-bit `size() - 1` up to the grid length. -/
theorem EstimateSpeedUpperBound_eq (g : QpSplineStGraph) (init_point : TrajectoryPoint)
    (speed_limit : SpeedLimit) :
    EstimateSpeedUpperBound g init_point speed_limit =
      (Status.OK,
        (EstimateSpeedUpperBound.walk init_point.v g.t_evaluated_ speed_limit
            (g.t_evaluated_.length + speed_limit.speed_points.length)
            ⟨0, 0, []⟩).speed_upper_bound ++
          List.replicate
            (g.t_evaluated_.length -
              sizeMinusOneU32
                (EstimateSpeedUpperBound.walk init_point.v g.t_evaluated_ speed_limit
                  (g.t_evaluated_.length + speed_limit.speed_points.length)
                  ⟨0, 0, []⟩).speed_upper_bound.length)
            g.qp_spline_st_speed_config_.max_speed) := by
  simp only [EstimateSpeedUpperBound, EstimateSpeedUpperBound_backFill_eq]

/-- Length of the result of `EstimateSpeedUpperBound` on a grid of fewer than `2 ^ 32`
times: nothing at all when the walk pushed nothing, and one entry more than the grid has
times when the walk pushed at least one entry. -/
theorem EstimateSpeedUpperBound_length (g : QpSplineStGraph) (init_point : TrajectoryPoint)
    (speed_limit : SpeedLimit) (hsize : g.t_evaluated_.length < 2 ^ 32) :
    (EstimateSpeedUpperBound g init_point speed_limit).2.length =
      if (EstimateSpeedUpperBound.walk init_point.v g.t_evaluated_ speed_limit
            (g.t_evaluated_.length + speed_limit.speed_points.length)
            ⟨0, 0, []⟩).speed_upper_bound.length = 0
      then 0 else g.t_evaluated_.length + 1 := by
  obtain ⟨h1, h2, -, -⟩ :=
    EstimateSpeedUpperBound_walk_exit init_point.v g.t_evaluated_ speed_limit
      (g.t_evaluated_.length + speed_limit.speed_points.length) ⟨0, 0, []⟩
      (by simp) rfl (Nat.zero_le _)
  rw [EstimateSpeedUpperBound_eq]
  simp only [List.length_append, List.length_replicate]
  rw [← h1] at h2
  split
  · rename_i h0
    rw [h0]
    have : sizeMinusOneU32 0 = 4294967295 := by decide
    rw [this]
    omega
  · rename_i h0
    have : sizeMinusOneU32
        (EstimateSpeedUpperBound.walk init_point.v g.t_evaluated_ speed_limit
          (g.t_evaluated_.length + speed_limit.speed_points.length)
          ⟨0, 0, []⟩).speed_upper_bound.length =
        (EstimateSpeedUpperBound.walk init_point.v g.t_evaluated_ speed_limit
          (g.t_evaluated_.length + speed_limit.speed_points.length)
          ⟨0, 0, []⟩).speed_upper_bound.length - 1 := by
      unfold sizeMinusOneU32
      omega
    rw [this]
    omega

/-- The evaluation grid of `sampleGraph` is `[0, 1]`. -/
theorem sampleGraph_t_evaluated : sampleGraph.t_evaluated_ = [0, 1] := by
  simp [sampleGraph, Init, QpSplineStGraph.new, sampleConfig, Init.fill]

/-- C2 (failing input): on the two-time grid `[0, 1]` with start speed 1 and a two-point
speed limit, the walk pushes one ceiling per time and the back-fill, starting at
`size() - 1`, pushes `max_speed` once more: the result has three entries for two times. -/
theorem EstimateSpeedUpperBound_one_entry_too_many :
    sampleGraph.t_evaluated_.length = 2 ∧
    (EstimateSpeedUpperBound sampleGraph ⟨1, 0⟩ sampleSpeedLimit).2 = [5, 5, 20] := by
  have hm : sampleGraph.qp_spline_st_speed_config_.max_speed = 20 := rfl
  rw [EstimateSpeedUpperBound_eq, sampleGraph_t_evaluated, hm]
  simp [EstimateSpeedUpperBound.walk, sampleSpeedLimit, kDistanceEpsilon, sizeMinusOneU32]

/-- C3 (failing input): on the two-time grid `[0, 1]` with a single-breakpoint speed limit
the walk pushes nothing, the back-fill counter starts at `2 ^ 32 - 1`, and no `max_speed`
entry is pushed: the result is empty instead of `[20, 20]`. -/
theorem EstimateSpeedUpperBound_no_back_fill :
    sampleGraph.t_evaluated_.length = 2 ∧
    sampleGraph.qp_spline_st_speed_config_.max_speed = 20 ∧
    sizeMinusOneU32 0 = 2 ^ 32 - 1 ∧
    (EstimateSpeedUpperBound sampleGraph ⟨1, 0⟩ singlePointSpeedLimit).2 = [] := by
  have hm : sampleGraph.qp_spline_st_speed_config_.max_speed = 20 := rfl
  refine ⟨by rw [sampleGraph_t_evaluated]; rfl, hm, by decide, ?_⟩
  rw [EstimateSpeedUpperBound_eq, sampleGraph_t_evaluated, hm]
  simp [EstimateSpeedUpperBound.walk, singlePointSpeedLimit, sizeMinusOneU32]


/-! ## Cruise reference kernel -/

/-- Invariant of the cruise loop.  Entered with counter `i ≥ 1`, with `s_vec` holding the
first `i - 1` reference stations and `dist_ref` the next one, the loop returns a vector of
`max (i - 1) (length - 1)` entries that starts like `s_vec ++ [dist_ref]` and in which each
later entry is its predecessor advanced by the local speed limit over one grid step. -/
theorem AddCruiseReferenceLineKernel_loop_spec (t : List ℚ) (sl : SpeedLimit) :
    ∀ (i : Nat) (d : ℚ) (acc : List ℚ), 1 ≤ i → acc.length = i - 1 →
      (∀ k, 1 ≤ k → k < (acc ++ [d]).length →
        (acc ++ [d]).getD k 0 = (acc ++ [d]).getD (k - 1) 0 +
          (t.getD k 0 - t.getD (k - 1) 0) * sl.get_speed_limit_by_s ((acc ++ [d]).getD (k - 1) 0)) →
      (AddCruiseReferenceLineKernel.loop t sl i d acc).length = max (i - 1) (t.length - 1) ∧
      (∀ k, k < (AddCruiseReferenceLineKernel.loop t sl i d acc).length →
        k < (acc ++ [d]).length →
        (AddCruiseReferenceLineKernel.loop t sl i d acc).getD k 0 = (acc ++ [d]).getD k 0) ∧
      (∀ k, 1 ≤ k → k < (AddCruiseReferenceLineKernel.loop t sl i d acc).length →
        (AddCruiseReferenceLineKernel.loop t sl i d acc).getD k 0 =
          (AddCruiseReferenceLineKernel.loop t sl i d acc).getD (k - 1) 0 +
            (t.getD k 0 - t.getD (k - 1) 0) *
              sl.get_speed_limit_by_s
                ((AddCruiseReferenceLineKernel.loop t sl i d acc).getD (k - 1) 0)) := by
  intro i d acc
  induction i, d, acc using AddCruiseReferenceLineKernel.loop.induct t sl with
  | case1 i d acc h ih =>
    intro hi hlen hrec
    rw [AddCruiseReferenceLineKernel.loop, dif_pos h]
    have hlen1 : (acc ++ [d]).length = i := by simp [hlen]; omega
    obtain ⟨a, b, c⟩ := ih (by omega) (by simpa using hlen1) (by
      intro k hk1 hk
      simp only [List.length_append, List.length_singleton, hlen1] at hk
      by_cases hki : k < i
      · have e1 : ∀ x : ℚ, ((acc ++ [d]) ++ [x]).getD k 0 = (acc ++ [d]).getD k 0 := by
          intro x
          rw [List.getD_append _ _ _ _ (by omega)]
        have e2 : ∀ x : ℚ, ((acc ++ [d]) ++ [x]).getD (k - 1) 0 = (acc ++ [d]).getD (k - 1) 0 := by
          intro x
          rw [List.getD_append _ _ _ _ (by omega)]
        rw [e1, e2]
        exact hrec k hk1 (by omega)
      · have hk' : k = i := by omega
        subst hk'
        have e1 : ∀ x : ℚ, ((acc ++ [d]) ++ [x]).getD k 0 = x := by
          intro x
          rw [List.getD_append_right _ _ _ _ (by omega)]
          simp [hlen1]
        have e2 : ∀ x : ℚ, ((acc ++ [d]) ++ [x]).getD (k - 1) 0 = d := by
          intro x
          rw [List.getD_append _ _ _ _ (by omega), List.getD_append_right _ _ _ _ (by omega)]
          simp [hlen]
        rw [e1, e2, List.getD_eq_getElem _ _ h,
          List.getD_eq_getElem _ _ (show k - 1 < t.length by omega)])
    refine ⟨by rw [a]; omega, ?_, c⟩
    intro k hk hk2
    rw [b k hk (by simp only [List.length_append, List.length_singleton] at hk2 ⊢; omega),
      List.getD_append _ _ _ _ hk2]
  | case2 i d acc h =>
    intro hi hlen hrec
    rw [AddCruiseReferenceLineKernel.loop, dif_neg h]
    refine ⟨by omega, ?_, ?_⟩
    · intro k hk _
      rw [List.getD_append _ _ _ _ hk]
    · intro k hk1 hk
      have := hrec k hk1 (by simp only [List.length_append]; omega)
      rwa [List.getD_append _ _ _ _ hk, List.getD_append _ _ _ _ (by omega)] at this


/-- C4 (failing input): for the two-time grid `[0, 1]` and a non-empty speed limit the
reference sequence registered with the kernel is `[0]`: one station for two times. -/
theorem AddCruiseReferenceLineKernel_one_entry_short :
    sampleSpeedLimit.speed_points ≠ [] ∧
    (AddCruiseReferenceLineKernel sampleGraph sampleGraph.t_evaluated_
        sampleSpeedLimit).2.spline_generator_.kernel_log =
      [KernelCall.add_reference_line_kernel_matrix [0, 1] [0] 1] := by
  refine ⟨by simp [sampleSpeedLimit], ?_⟩
  rw [sampleGraph_t_evaluated]
  simp [AddCruiseReferenceLineKernel, AddCruiseReferenceLineKernel.loop, sampleSpeedLimit,
    Spline1dGenerator.addKernel, sampleGraph, Init, Spline1dGenerator.new, QpSplineStGraph.new,
    sampleConfig]

/-- C5: for a non-empty speed-limit curve, `AddCruiseReferenceLineKernel` returns OK and
registers one reference-line kernel over the evaluation grid `t` whose reference sequence
`s_vec` has `t.length - 1` entries, starts at 0, and satisfies
`s_vec[i] = s_vec[i-1] + (t[i] - t[i-1]) * get_speed_limit_by_s (s_vec[i-1])` at every
index `i ≥ 1` it contains. -/
theorem AddCruiseReferenceLineKernel_reference (g : QpSplineStGraph) (t : List ℚ)
    (sl : SpeedLimit) (hne : sl.speed_points ≠ []) :
    ∃ s_vec : List ℚ,
      (AddCruiseReferenceLineKernel g t sl).1 = Status.OK ∧
      (AddCruiseReferenceLineKernel g t sl).2.spline_generator_.kernel_log =
        g.spline_generator_.kernel_log ++
          [KernelCall.add_reference_line_kernel_matrix t s_vec
            g.qp_spline_st_speed_config_.reference_line_kernel_weight] ∧
      s_vec.length = t.length - 1 ∧
      (∀ h0 : 0 < s_vec.length, s_vec[0] = 0) ∧
      (∀ (i : Nat) (hi : i < s_vec.length) (ht : i < t.length), 1 ≤ i →
        s_vec[i] = s_vec[i - 1] + (t[i] - t[i - 1]) * sl.get_speed_limit_by_s s_vec[i - 1]) := by
  have hlen : sl.speed_points.length ≠ 0 := by
    intro h
    exact hne (List.length_eq_zero.mp h)
  obtain ⟨a, b, c⟩ :=
    AddCruiseReferenceLineKernel_loop_spec t sl 1 0 [] (le_refl 1) rfl (by
      intro k hk1 hk
      simp only [List.nil_append, List.length_singleton] at hk
      omega)
  refine ⟨AddCruiseReferenceLineKernel.loop t sl 1 0 [], ?_, ?_, ?_, ?_, ?_⟩
  · simp [AddCruiseReferenceLineKernel, hlen]
  · simp [AddCruiseReferenceLineKernel, hlen, Spline1dGenerator.addKernel]
  · rw [a]
    omega
  · intro h0
    have := b 0 h0 (by simp)
    rw [List.getD_eq_getElem _ _ h0] at this
    simpa using this
  · intro i hi ht h1
    have := c i h1 hi
    rwa [List.getD_eq_getElem _ _ hi, List.getD_eq_getElem _ _ (show i - 1 < _ by omega),
      List.getD_eq_getElem _ _ ht, List.getD_eq_getElem _ _ (show i - 1 < _ by omega)] at this

/-- C5 (witness): the theorem applied to the sample graph, the grid `[0, 1, 2]` and the
constant sample speed limit. -/
theorem AddCruiseReferenceLineKernel_reference_witness :
    sampleSpeedLimit.speed_points ≠ [] ∧
    ∃ s_vec : List ℚ,
      (AddCruiseReferenceLineKernel sampleGraph [0, 1, 2] sampleSpeedLimit).1 = Status.OK ∧
      (AddCruiseReferenceLineKernel sampleGraph [0, 1, 2]
          sampleSpeedLimit).2.spline_generator_.kernel_log =
        sampleGraph.spline_generator_.kernel_log ++
          [KernelCall.add_reference_line_kernel_matrix [0, 1, 2] s_vec
            sampleGraph.qp_spline_st_speed_config_.reference_line_kernel_weight] ∧
      s_vec.length = [(0 : ℚ), 1, 2].length - 1 ∧
      (∀ h0 : 0 < s_vec.length, s_vec[0] = 0) ∧
      (∀ (i : Nat) (hi : i < s_vec.length) (ht : i < [(0 : ℚ), 1, 2].length), 1 ≤ i →
        s_vec[i] = s_vec[i - 1] +
          ([(0 : ℚ), 1, 2][i] - [(0 : ℚ), 1, 2][i - 1]) *
            sampleSpeedLimit.get_speed_limit_by_s s_vec[i - 1]) :=
  ⟨by simp [sampleSpeedLimit],
    AddCruiseReferenceLineKernel_reference sampleGraph [0, 1, 2] sampleSpeedLimit
      (by simp [sampleSpeedLimit])⟩


/-! ## Follow reference kernel -/

/-- The boundary scan at one time, entered with running minimum `st`.  It ends without a
reference exactly when it started without one and no FOLLOW boundary is active; otherwise
the reference it ends with is the start value or `s_upper - characteristic_length` of an
active FOLLOW boundary, and lies below the start value and below all of these. -/
theorem AddFollowReferenceLineKernel_scan_spec (curr_t : ℚ) (boundaries : List StGraphBoundary) :
    ∀ st : Option ℚ,
      (AddFollowReferenceLineKernel.scan curr_t boundaries st = none ↔
        st = none ∧ ∀ b ∈ boundaries, b.boundary_type = BoundaryType.FOLLOW →
          b.GetUnblockSRange curr_t = none) ∧
      ∀ m, AddFollowReferenceLineKernel.scan curr_t boundaries st = some m →
        (st = some m ∨ ∃ b ∈ boundaries, b.boundary_type = BoundaryType.FOLLOW ∧
          ∃ su sl, b.GetUnblockSRange curr_t = some (su, sl) ∧
            m = su - b.characteristic_length) ∧
        (∀ m0, st = some m0 → m ≤ m0) ∧
        ∀ b ∈ boundaries, b.boundary_type = BoundaryType.FOLLOW →
          ∀ su sl, b.GetUnblockSRange curr_t = some (su, sl) →
            m ≤ su - b.characteristic_length := by
  induction boundaries with
  | nil =>
    intro st
    simp only [AddFollowReferenceLineKernel.scan, List.not_mem_nil, false_and, exists_false,
      or_false, false_imp_iff, implies_true, and_true, true_and]
    intro m hm
    refine ⟨hm, ?_⟩
    intro m0 e
    rw [hm] at e
    exact le_of_eq (Option.some.inj e)
  | cons b rest ih =>
    intro st
    by_cases hty : b.boundary_type = BoundaryType.FOLLOW
    · cases hb : b.GetUnblockSRange curr_t with
      | none =>
        obtain ⟨h1, h2⟩ := ih st
        simp only [AddFollowReferenceLineKernel.scan, hty, if_true, hb, List.mem_cons]
        refine ⟨?_, ?_⟩
        · rw [h1]
          constructor
          · rintro ⟨e, h⟩
            refine ⟨e, ?_⟩
            rintro b' (rfl | hb') ty
            · exact hb
            · exact h b' hb' ty
          · rintro ⟨e, h⟩
            exact ⟨e, fun b' hb' ty => h b' (Or.inr hb') ty⟩
        · intro m hm
          obtain ⟨a1, a2, a3⟩ := h2 m hm
          refine ⟨?_, a2, ?_⟩
          · rcases a1 with h | ⟨b', hb', ty, su, sl, e, r⟩
            · exact Or.inl h
            · exact Or.inr ⟨b', Or.inr hb', ty, su, sl, e, r⟩
          · rintro b' (rfl | hb') ty su sl e
            · rw [hb] at e
              cases e
            · exact a3 b' hb' ty su sl e
      | some p =>
        obtain ⟨su0, sl0⟩ := p
        cases st with
        | none =>
          obtain ⟨h1, h2⟩ := ih (some (su0 - b.characteristic_length))
          simp only [AddFollowReferenceLineKernel.scan, hty, if_true, hb, List.mem_cons]
          refine ⟨?_, ?_⟩
          · constructor
            · intro h
              exact absurd (h1.mp h).1 (by simp)
            · rintro ⟨-, h⟩
              have := h b (Or.inl rfl) hty
              rw [hb] at this
              cases this
          · intro m hm
            obtain ⟨a1, a2, a3⟩ := h2 m hm
            refine ⟨Or.inr ?_, by simp, ?_⟩
            · rcases a1 with h | ⟨b', hb', ty, su, sl, e, r⟩
              · exact ⟨b, Or.inl rfl, hty, su0, sl0, hb, (Option.some.inj h).symm⟩
              · exact ⟨b', Or.inr hb', ty, su, sl, e, r⟩
            · rintro b' (rfl | hb') ty su sl e
              · rw [hb] at e
                cases e
                exact a2 _ rfl
              · exact a3 b' hb' ty su sl e
        | some m0 =>
          obtain ⟨h1, h2⟩ := ih (some (min m0 (su0 - b.characteristic_length)))
          simp only [AddFollowReferenceLineKernel.scan, hty, if_true, hb, List.mem_cons]
          refine ⟨?_, ?_⟩
          · constructor
            · intro h
              exact absurd (h1.mp h).1 (by simp)
            · rintro ⟨h, -⟩
              cases h
          · intro m hm
            obtain ⟨a1, a2, a3⟩ := h2 m hm
            refine ⟨?_, ?_, ?_⟩
            · rcases a1 with h | ⟨b', hb', ty, su, sl, e, r⟩
              · have hm' := (Option.some.inj h).symm
                rcases min_choice m0 (su0 - b.characteristic_length) with hc | hc
                · exact Or.inl (by rw [hm', hc])
                · exact Or.inr ⟨b, Or.inl rfl, hty, su0, sl0, hb, by rw [hm', hc]⟩
              · exact Or.inr ⟨b', Or.inr hb', ty, su, sl, e, r⟩
            · intro m1 e
              cases e
              exact le_trans (a2 _ rfl) (min_le_left _ _)
            · rintro b' (rfl | hb') ty su sl e
              · rw [hb] at e
                cases e
                exact le_trans (a2 _ rfl) (min_le_right _ _)
              · exact a3 b' hb' ty su sl e
    · obtain ⟨h1, h2⟩ := ih st
      simp only [AddFollowReferenceLineKernel.scan, hty, if_false, List.mem_cons]
      refine ⟨?_, ?_⟩
      · rw [h1]
        constructor
        · rintro ⟨e, h⟩
          refine ⟨e, ?_⟩
          rintro b' (rfl | hb') ty
          · exact absurd ty hty
          · exact h b' hb' ty
        · rintro ⟨e, h⟩
          exact ⟨e, fun b' hb' ty => h b' (Or.inr hb') ty⟩
      · intro m hm
        obtain ⟨a1, a2, a3⟩ := h2 m hm
        refine ⟨?_, a2, ?_⟩
        · rcases a1 with h | ⟨b', hb', ty, su, sl, e, r⟩
          · exact Or.inl h
          · exact Or.inr ⟨b', Or.inr hb', ty, su, sl, e, r⟩
        · rintro b' (rfl | hb') ty su sl e
          · exact absurd ty hty
          · exact a3 b' hb' ty su sl e


/-- Invariant of the loop over the evaluation times: the filtered times grow by exactly the
times with an active FOLLOW boundary, in order; the two vectors keep equal lengths; and each
reference pushed is the least `s_upper - characteristic_length` over the FOLLOW boundaries
active at the time pushed with it. -/
theorem AddFollowReferenceLineKernel_loop_spec (boundaries : List StGraphBoundary) :
    ∀ (ts : List ℚ) (acc : List ℚ × List ℚ),
      (AddFollowReferenceLineKernel.loop boundaries ts acc).1 =
        acc.1 ++ ts.filter (fun t => boundaries.any fun b =>
          decide (b.boundary_type = BoundaryType.FOLLOW) && (b.GetUnblockSRange t).isSome) ∧
      (acc.2.length = acc.1.length →
        (AddFollowReferenceLineKernel.loop boundaries ts acc).2.length =
          (AddFollowReferenceLineKernel.loop boundaries ts acc).1.length) ∧
      (acc.2.length = acc.1.length →
        (∀ p ∈ acc.1.zip acc.2,
          IsLeast {x | ∃ b ∈ boundaries, b.boundary_type = BoundaryType.FOLLOW ∧
            ∃ su sl, b.GetUnblockSRange p.1 = some (su, sl) ∧
              x = su - b.characteristic_length} p.2) →
        ∀ p ∈ (AddFollowReferenceLineKernel.loop boundaries ts acc).1.zip
            (AddFollowReferenceLineKernel.loop boundaries ts acc).2,
          IsLeast {x | ∃ b ∈ boundaries, b.boundary_type = BoundaryType.FOLLOW ∧
            ∃ su sl, b.GetUnblockSRange p.1 = some (su, sl) ∧
              x = su - b.characteristic_length} p.2) := by
  intro ts
  induction ts with
  | nil =>
    intro acc
    obtain ⟨f, r⟩ := acc
    simp only [AddFollowReferenceLineKernel.loop, List.filter_nil, List.append_nil, true_and]
    exact ⟨fun h => h, fun _ h => h⟩
  | cons t rest ih =>
    intro acc
    obtain ⟨f, r⟩ := acc
    obtain ⟨s1, s2⟩ := AddFollowReferenceLineKernel_scan_spec t boundaries none
    cases hs : AddFollowReferenceLineKernel.scan t boundaries none with
    | none =>
      have hno := (s1.mp hs).2
      have hp : (boundaries.any fun b =>
          decide (b.boundary_type = BoundaryType.FOLLOW) &&
            (b.GetUnblockSRange t).isSome) = false := by
        rw [List.any_eq_false]
        intro b hb
        by_cases hty : b.boundary_type = BoundaryType.FOLLOW
        · simp [hno b hb hty]
        · simp [hty]
      obtain ⟨i1, i2, i3⟩ := ih (f, r)
      simp only [AddFollowReferenceLineKernel.loop, hs, List.filter_cons, hp]
      exact ⟨i1, i2, i3⟩
    | some m =>
      obtain ⟨a1, -, a3⟩ := s2 m hs
      have hex : ∃ b ∈ boundaries, b.boundary_type = BoundaryType.FOLLOW ∧
          ∃ su sl, b.GetUnblockSRange t = some (su, sl) ∧ m = su - b.characteristic_length := by
        rcases a1 with h | h
        · cases h
        · exact h
      have hp : (boundaries.any fun b =>
          decide (b.boundary_type = BoundaryType.FOLLOW) &&
            (b.GetUnblockSRange t).isSome) = true := by
        rw [List.any_eq_true]
        obtain ⟨b, hb, ty, su, sl, e, -⟩ := hex
        exact ⟨b, hb, by simp [ty, e]⟩
      obtain ⟨i1, i2, i3⟩ := ih (f ++ [t], r ++ [m])
      simp only [AddFollowReferenceLineKernel.loop, hs, List.filter_cons, hp, if_true]
      simp only [List.append_assoc, List.singleton_append] at i1
      refine ⟨i1, ?_, ?_⟩
      · intro hl
        exact i2 (by simp [hl])
      · intro hl hz
        apply i3 (by simp [hl])
        intro p hp'
        simp only at hp'
        rw [List.zip_append hl.symm] at hp'
        rcases List.mem_append.mp hp' with h | h
        · exact hz p h
        · simp only [List.zip_cons_cons, List.zip_nil_right, List.mem_singleton] at h
          subst h
          refine ⟨hex, ?_⟩
          rintro x ⟨b, hb, ty, su, sl, e, rfl⟩
          exact a3 b hb ty su sl e

/-- C6: `AddFollowReferenceLineKernel` returns OK and registers one reference-line kernel
whose time sequence is the evaluation grid filtered, in order, to the times at which some
FOLLOW boundary is active; the reference sequence has the same length, and the reference at
each position is the least value of `s_upper - characteristic_length` over the FOLLOW
boundaries active at the time at that position.  Boundaries of other types occur nowhere. -/
theorem AddFollowReferenceLineKernel_spec (g : QpSplineStGraph) (evaluate_t : List ℚ)
    (boundaries : List StGraphBoundary) (weight : ℚ) :
    ∃ filtered_evaluate_t ref_s : List ℚ,
      (AddFollowReferenceLineKernel g evaluate_t boundaries weight).1 = Status.OK ∧
      (AddFollowReferenceLineKernel g evaluate_t boundaries
          weight).2.spline_generator_.kernel_log =
        g.spline_generator_.kernel_log ++
          [KernelCall.add_reference_line_kernel_matrix filtered_evaluate_t ref_s weight] ∧
      filtered_evaluate_t =
        evaluate_t.filter (fun t => boundaries.any fun b =>
          decide (b.boundary_type = BoundaryType.FOLLOW) && (b.GetUnblockSRange t).isSome) ∧
      ref_s.length = filtered_evaluate_t.length ∧
      ∀ (k : Nat) (hk : k < filtered_evaluate_t.length) (hr : k < ref_s.length),
        IsLeast {x | ∃ b ∈ boundaries, b.boundary_type = BoundaryType.FOLLOW ∧
          ∃ su sl, b.GetUnblockSRange filtered_evaluate_t[k] = some (su, sl) ∧
            x = su - b.characteristic_length} ref_s[k] := by
  obtain ⟨h1, h2, h3⟩ := AddFollowReferenceLineKernel_loop_spec boundaries evaluate_t ([], [])
  refine ⟨(AddFollowReferenceLineKernel.loop boundaries evaluate_t ([], [])).1,
    (AddFollowReferenceLineKernel.loop boundaries evaluate_t ([], [])).2, rfl, rfl, ?_, h2 rfl, ?_⟩
  · simpa using h1
  · intro k hk hr
    have hmem : ((AddFollowReferenceLineKernel.loop boundaries evaluate_t ([], [])).1[k],
        (AddFollowReferenceLineKernel.loop boundaries evaluate_t ([], [])).2[k]) ∈
        (AddFollowReferenceLineKernel.loop boundaries evaluate_t ([], [])).1.zip
          (AddFollowReferenceLineKernel.loop boundaries evaluate_t ([], [])).2 := by
      rw [List.mem_iff_getElem]
      exact ⟨k, by simp [hk, hr], by simp⟩
    exact h3 rfl (by simp) _ hmem


/-! ## Constraint builder -/

/-- The distance-window loop pushes, for every evaluation time in order, the upper and the
lower bound that `GetSConstraintByTime` returns for it. -/
theorem ApplyConstraint_bounds_eq (boundaries : List StGraphBoundary) (total_path_length : ℚ) :
    ∀ (ts : List ℚ) (acc : List ℚ × List ℚ),
      ApplyConstraint.bounds boundaries total_path_length ts acc =
        (acc.1 ++ ts.map (fun t => (GetSConstraintByTime boundaries t total_path_length 0 0).2.1),
          acc.2 ++
            ts.map (fun t => (GetSConstraintByTime boundaries t total_path_length 0 0).2.2)) := by
  intro ts
  induction ts with
  | nil =>
    intro acc
    simp [ApplyConstraint.bounds]
  | cons t rest ih =>
    intro acc
    obtain ⟨u, l⟩ := acc
    simp [ApplyConstraint.bounds, ih]

/-- Outcome of `ApplyConstraint` in terms of the first registration the library rejects:
the status, the growth of the constraint log, and the rest of the graph, which is unchanged. -/
theorem ApplyConstraint_outcome (lib : SplineLibrary) (g : QpSplineStGraph)
    (init_point : TrajectoryPoint) (speed_limit : SpeedLimit)
    (boundaries : List StGraphBoundary) :
    let regs : List ConstraintCall :=
      [ConstraintCall.AddPointConstraint 0 0,
        ConstraintCall.AddPointDerivativeConstraint 0 g.init_point_.v,
        ConstraintCall.AddPointSecondDerivativeConstraint 0 g.init_point_.a,
        ConstraintCall.AddPointSecondDerivativeConstraint
          (g.spline_generator_.x_knots.getLastD 0) 0,
        ConstraintCall.AddMonotoneInequalityConstraintAtKnots,
        ConstraintCall.AddThirdDerivativeSmoothConstraint,
        ConstraintCall.AddBoundary g.t_evaluated_
          (g.t_evaluated_.map fun t =>
            (GetSConstraintByTime boundaries t
              g.qp_spline_st_speed_config_.total_path_length 0 0).2.2)
          (g.t_evaluated_.map fun t =>
            (GetSConstraintByTime boundaries t
              g.qp_spline_st_speed_config_.total_path_length 0 0).2.1),
        ConstraintCall.AddDerivativeBoundary g.t_evaluated_
          (List.replicate g.t_evaluated_.length 0)
          (EstimateSpeedUpperBound g init_point speed_limit).2]
    let accepted : Nat → Bool := fun k =>
      lib.accepts
        { g.spline_generator_ with
          constraint_log := g.spline_generator_.constraint_log ++ regs.take k }
        (regs.getD k ConstraintCall.AddMonotoneInequalityConstraintAtKnots)
    let out := ApplyConstraint lib g init_point speed_limit boundaries
    (match (List.range 8).find? (fun k => !accepted k) with
      | none =>
        out.1 = Status.OK ∧
          out.2.spline_generator_.constraint_log =
            g.spline_generator_.constraint_log ++ regs
      | some k =>
        out.1.code = ErrorCode.PLANNING_ERROR ∧
          out.2.spline_generator_.constraint_log =
            g.spline_generator_.constraint_log ++ regs.take (k + 1)) ∧
    out.2 =
      { g with
        spline_generator_ :=
          { g.spline_generator_ with
            constraint_log := out.2.spline_generator_.constraint_log } } := by
  intro regs accepted out
  have hr : List.range 8 = [0, 1, 2, 3, 4, 5, 6, 7] := by decide
  have hest : (EstimateSpeedUpperBound g init_point speed_limit).1.ok = true := by
    rw [EstimateSpeedUpperBound_eq]
    rfl
  rw [hr]
  simp only [out, accepted, regs, ApplyConstraint, Spline1dGenerator.constrain,
    ApplyConstraint_bounds_eq, hest]
  simp only [List.find?_cons, List.find?_nil, List.take, List.getD_cons_zero, List.getD_cons_succ,
    List.append_nil, List.nil_append, List.append_assoc, List.singleton_append,
    List.cons_append]
  cases h0 : lib.accepts g.spline_generator_ (ConstraintCall.AddPointConstraint 0 0)
  · simp [h0, planningError]
  simp only [h0, Bool.true_eq_false, if_false, Bool.not_true]
  generalize lib.accepts _ (ConstraintCall.AddPointDerivativeConstraint 0 g.init_point_.v) = b1
  cases b1
  · simp [planningError]
  generalize lib.accepts _ (ConstraintCall.AddPointSecondDerivativeConstraint 0 g.init_point_.a) = b2
  cases b2
  · simp [planningError]
  generalize lib.accepts _ (ConstraintCall.AddPointSecondDerivativeConstraint
    (g.spline_generator_.x_knots.getLastD 0) 0) = b3
  cases b3
  · simp [planningError]
  generalize lib.accepts _ ConstraintCall.AddMonotoneInequalityConstraintAtKnots = b4
  cases b4
  · simp [planningError]
  generalize lib.accepts _ ConstraintCall.AddThirdDerivativeSmoothConstraint = b5
  cases b5
  · simp [planningError]
  generalize lib.accepts _ (ConstraintCall.AddBoundary _ _ _) = b6
  cases b6
  · simp [planningError]
  generalize lib.accepts _ (ConstraintCall.AddDerivativeBoundary _ _ _) = b7
  cases b7
  · simp [planningError]
  · simp [Status.OK]

/-- Frame of `ApplyConstraint`: it changes nothing of the graph but the constraint log of its spline
generator. -/
theorem ApplyConstraint_frame (lib : SplineLibrary) (g : QpSplineStGraph)
    (init_point : TrajectoryPoint) (speed_limit : SpeedLimit)
    (boundaries : List StGraphBoundary) :
    (ApplyConstraint lib g init_point speed_limit boundaries).2 =
      { g with
        spline_generator_ :=
          { g.spline_generator_ with
            constraint_log :=
              (ApplyConstraint lib g init_point speed_limit
                boundaries).2.spline_generator_.constraint_log } } :=
  (ApplyConstraint_outcome lib g init_point speed_limit boundaries).2

/-- C7: `ApplyConstraint` issues its eight registrations in the fixed order start point,
start velocity, start acceleration, end acceleration, monotonicity, joint smoothness,
distance window, speed window.  With `k` the first registration the library rejects (given
the registrations it has received before), the call returns a `PLANNING_ERROR` status and
the constraint log has grown by exactly the first `k + 1` registrations; when the library
rejects none, the call returns OK and the log has grown by all eight.  Nothing else of the
graph changes. -/
theorem ApplyConstraint_registrations (lib : SplineLibrary) (g : QpSplineStGraph)
    (init_point : TrajectoryPoint) (speed_limit : SpeedLimit)
    (boundaries : List StGraphBoundary) :
    let regs : List ConstraintCall :=
      [ConstraintCall.AddPointConstraint 0 0,
        ConstraintCall.AddPointDerivativeConstraint 0 g.init_point_.v,
        ConstraintCall.AddPointSecondDerivativeConstraint 0 g.init_point_.a,
        ConstraintCall.AddPointSecondDerivativeConstraint
          (g.spline_generator_.x_knots.getLastD 0) 0,
        ConstraintCall.AddMonotoneInequalityConstraintAtKnots,
        ConstraintCall.AddThirdDerivativeSmoothConstraint,
        ConstraintCall.AddBoundary g.t_evaluated_
          (g.t_evaluated_.map fun t =>
            (GetSConstraintByTime boundaries t
              g.qp_spline_st_speed_config_.total_path_length 0 0).2.2)
          (g.t_evaluated_.map fun t =>
            (GetSConstraintByTime boundaries t
              g.qp_spline_st_speed_config_.total_path_length 0 0).2.1),
        ConstraintCall.AddDerivativeBoundary g.t_evaluated_
          (List.replicate g.t_evaluated_.length 0)
          (EstimateSpeedUpperBound g init_point speed_limit).2]
    let accepted : Nat → Bool := fun k =>
      lib.accepts
        { g.spline_generator_ with
          constraint_log := g.spline_generator_.constraint_log ++ regs.take k }
        (regs.getD k ConstraintCall.AddMonotoneInequalityConstraintAtKnots)
    let out := ApplyConstraint lib g init_point speed_limit boundaries
    (match (List.range 8).find? (fun k => !accepted k) with
      | none =>
        out.1 = Status.OK ∧
          out.2.spline_generator_.constraint_log =
            g.spline_generator_.constraint_log ++ regs
      | some k =>
        out.1.code = ErrorCode.PLANNING_ERROR ∧
          out.2.spline_generator_.constraint_log =
            g.spline_generator_.constraint_log ++ regs.take (k + 1)) ∧
    out.2 =
      { g with
        spline_generator_ :=
          { g.spline_generator_ with
            constraint_log := out.2.spline_generator_.constraint_log } } :=
  ApplyConstraint_outcome lib g init_point speed_limit boundaries


/-! ## Kernel builder -/

/-- The kernel log after the three weight-guarded derivative kernels of `ApplyKernel`. -/
theorem ApplyKernel_weighted_log (w1 w2 w3 : ℚ) (gen : Spline1dGenerator) :
    ApplyKernel.weighted w3 KernelCall.add_third_order_derivative_matrix
        (ApplyKernel.weighted w2 KernelCall.add_second_order_derivative_matrix
          (ApplyKernel.weighted w1 KernelCall.add_derivative_kernel_matrix gen)) =
      { gen with
        kernel_log :=
          gen.kernel_log ++
            ((if 0 < w1 then [KernelCall.add_derivative_kernel_matrix w1] else []) ++
              ((if 0 < w2 then [KernelCall.add_second_order_derivative_matrix w2] else []) ++
                (if 0 < w3 then [KernelCall.add_third_order_derivative_matrix w3] else []))) } := by
  by_cases h1 : 0 < w1 <;> by_cases h2 : 0 < w2 <;> by_cases h3 : 0 < w3 <;>
    simp [ApplyKernel.weighted, Spline1dGenerator.addKernel, h1, h2, h3]

/-- Outcome of `ApplyKernel` on an empty speed-limit curve: a `PLANNING_ERROR` status, and a
kernel log that has grown by the weight-guarded derivative kernels only. -/
theorem ApplyKernel_outcome_empty (g : QpSplineStGraph) (boundaries : List StGraphBoundary)
    (speed_limit : SpeedLimit) (h : speed_limit.speed_points = []) :
    ApplyKernel g boundaries speed_limit =
      (⟨ErrorCode.PLANNING_ERROR, "QpSplineStGraph::ApplyKernel"⟩,
        { g with
          spline_generator_ :=
            { g.spline_generator_ with
              kernel_log :=
                g.spline_generator_.kernel_log ++
                  ((if 0 < g.qp_spline_st_speed_config_.speed_kernel_weight then
                      [KernelCall.add_derivative_kernel_matrix
                        g.qp_spline_st_speed_config_.speed_kernel_weight]
                    else []) ++
                    ((if 0 < g.qp_spline_st_speed_config_.accel_kernel_weight then
                        [KernelCall.add_second_order_derivative_matrix
                          g.qp_spline_st_speed_config_.accel_kernel_weight]
                      else []) ++
                      (if 0 < g.qp_spline_st_speed_config_.jerk_kernel_weight then
                        [KernelCall.add_third_order_derivative_matrix
                          g.qp_spline_st_speed_config_.jerk_kernel_weight]
                      else []))) } }) := by
  simp only [ApplyKernel, AddCruiseReferenceLineKernel, h, List.length_nil, if_true,
    ApplyKernel_weighted_log]
  simp [planningError, Status.OK]

/-- Outcome of `ApplyKernel` on a non-empty speed-limit curve: status OK. -/
theorem ApplyKernel_outcome_nonempty (g : QpSplineStGraph) (boundaries : List StGraphBoundary)
    (speed_limit : SpeedLimit) (h : speed_limit.speed_points ≠ []) :
    (ApplyKernel g boundaries speed_limit).1 = Status.OK := by
  have hlen : speed_limit.speed_points.length ≠ 0 := by
    intro h0
    exact h (List.length_eq_zero.mp h0)
  simp [ApplyKernel, AddCruiseReferenceLineKernel, AddFollowReferenceLineKernel, hlen]

/-- Frame of `ApplyKernel`: it changes nothing of the graph but the kernel log of its spline generator. -/
theorem ApplyKernel_frame (g : QpSplineStGraph) (boundaries : List StGraphBoundary)
    (speed_limit : SpeedLimit) :
    (ApplyKernel g boundaries speed_limit).2 =
      { g with
        spline_generator_ :=
          { g.spline_generator_ with
            kernel_log :=
              (ApplyKernel g boundaries speed_limit).2.spline_generator_.kernel_log } } := by
  by_cases h : speed_limit.speed_points = []
  · rw [ApplyKernel_outcome_empty g boundaries speed_limit h]
  · have hlen : speed_limit.speed_points.length ≠ 0 := by
      intro h0
      exact h (List.length_eq_zero.mp h0)
    simp only [ApplyKernel, AddCruiseReferenceLineKernel, AddFollowReferenceLineKernel, hlen,
      if_false, ApplyKernel_weighted_log, Spline1dGenerator.addKernel]
    simp


/-! ## Search -/

/-- After the first statements of `Search` the spline generator is a new one: no
constraint, no kernel, never solved. -/
theorem Search_prepare_generator (g : QpSplineStGraph) (st_graph_data : StGraphData) :
    (Search.prepare g st_graph_data).spline_generator_.constraint_log = [] ∧
    (Search.prepare g st_graph_data).spline_generator_.kernel_log = [] ∧
    (Search.prepare g st_graph_data).spline_generator_.solve_calls = 0 := by
  simp [Search.prepare, Init, Spline1dGenerator.new]

/-- The output loop ends when `n` steps of `t_output_resolution` cover the distance from
`time` to `total_time + t_output_resolution`: every allowance of at least `n` iterations
gives the same points. -/
theorem Search_sample_enough (spline : Spline1d) (total_time t_output_resolution : ℚ) :
    ∀ (n : Nat) (time : ℚ) (acc : List SpeedPoint),
      total_time + t_output_resolution - time ≤ n * t_output_resolution →
      ∃ out, ∀ fuel, n ≤ fuel →
        Search.sample spline total_time t_output_resolution fuel time acc = some out := by
  intro n
  induction n with
  | zero =>
    intro time acc h
    have hc : ¬ time < total_time + t_output_resolution := by
      simp only [Nat.cast_zero, zero_mul] at h
      linarith
    refine ⟨acc, ?_⟩
    intro fuel _
    cases fuel <;> simp [Search.sample, hc]
  | succ n ih =>
    intro time acc h
    by_cases hc : time < total_time + t_output_resolution
    · obtain ⟨out, hout⟩ := ih (time + t_output_resolution)
        (acc ++ [⟨spline.eval time, time, spline.Derivative time,
          spline.SecondOrderDerivative time, spline.ThirdOrderDerivative time⟩]) (by
          push_cast at h
          linarith)
      refine ⟨out, ?_⟩
      intro fuel hf
      cases fuel with
      | zero => omega
      | succ f =>
        simp only [Search.sample, hc, if_true]
        exact hout f (by omega)
    · refine ⟨acc, ?_⟩
      intro fuel _
      cases fuel <;> simp [Search.sample, hc]

/-- With a positive output resolution the output loop ends. -/
theorem Search_sample_terminates (spline : Spline1d) (total_time t_output_resolution : ℚ)
    (hr : 0 < t_output_resolution) (time : ℚ) (acc : List SpeedPoint) :
    ∃ n out, ∀ fuel, n ≤ fuel →
      Search.sample spline total_time t_output_resolution fuel time acc = some out := by
  obtain ⟨n, hn⟩ := exists_nat_ge ((total_time + t_output_resolution - time) / t_output_resolution)
  obtain ⟨out, hout⟩ :=
    Search_sample_enough spline total_time t_output_resolution n time acc
      ((div_le_iff₀ hr).mp hn)
  exact ⟨n, out, hout⟩

/-- The three failure exits of `Search` and its success exit, by the outcome of the phases. -/
theorem Search_outcome (lib : SplineLibrary) (fuel : Nat) (g : QpSplineStGraph)
    (st_graph_data : StGraphData) (speed_data : List SpeedPoint) :
    let constrained :=
      ApplyConstraint lib (Search.prepare g st_graph_data) st_graph_data.init_point
        st_graph_data.speed_limit st_graph_data.st_graph_boundaries
    let kernelled :=
      ApplyKernel constrained.2 st_graph_data.st_graph_boundaries st_graph_data.speed_limit
    let solved := Solve lib kernelled.2
    (constrained.1.ok = false →
      Search lib fuel g st_graph_data speed_data =
        some (⟨ErrorCode.PLANNING_ERROR, "Apply constraint failed!"⟩, constrained.2,
          speed_data)) ∧
    (constrained.1.ok = true → kernelled.1.ok = false →
      Search lib fuel g st_graph_data speed_data =
        some (⟨ErrorCode.PLANNING_ERROR, "Apply kernel failed!"⟩, kernelled.2, speed_data)) ∧
    (constrained.1.ok = true → kernelled.1.ok = true → solved.1.ok = false →
      Search lib fuel g st_graph_data speed_data =
        some (⟨ErrorCode.PLANNING_ERROR, "Solve qp problem failed!"⟩, solved.2, speed_data)) ∧
    (constrained.1.ok = true → kernelled.1.ok = true → solved.1.ok = true →
      Search lib fuel g st_graph_data speed_data =
        (Search.sample (lib.spline solved.2.spline_generator_)
            solved.2.qp_spline_st_speed_config_.total_time
            solved.2.qp_spline_st_speed_config_.output_time_resolution fuel 0 []).map
          fun sampled => (Status.OK, solved.2, sampled)) := by
  intro constrained kernelled solved
  refine ⟨?_, ?_, ?_, ?_⟩
  · intro h1
    simp only [Search]
    rw [if_pos h1]
    rfl
  · intro h1 h2
    simp only [Search]
    rw [if_neg (by rw [h1]; simp), if_pos h2]
    rfl
  · intro h1 h2 h3
    simp only [Search]
    rw [if_neg (by rw [h1]; simp), if_neg (by rw [h2]; simp), if_pos h3]
    rfl
  · intro h1 h2 h3
    simp only [Search]
    rw [if_neg (by rw [h1]; simp), if_neg (by rw [h2]; simp), if_neg (by rw [h3]; simp)]
    cases Search.sample (lib.spline solved.2.spline_generator_)
      solved.2.qp_spline_st_speed_config_.total_time
      solved.2.qp_spline_st_speed_config_.output_time_resolution fuel 0 [] <;> rfl


/-- The phases of `Search` leave the configured horizon and output resolution as they were
in the graph `Search` was called on. -/
theorem Search_solved_config (lib : SplineLibrary) (g : QpSplineStGraph)
    (st_graph_data : StGraphData) :
    (Solve lib
        (ApplyKernel
          (ApplyConstraint lib (Search.prepare g st_graph_data) st_graph_data.init_point
            st_graph_data.speed_limit st_graph_data.st_graph_boundaries).2
          st_graph_data.st_graph_boundaries
          st_graph_data.speed_limit).2).2.qp_spline_st_speed_config_.total_time =
      g.qp_spline_st_speed_config_.total_time ∧
    (Solve lib
        (ApplyKernel
          (ApplyConstraint lib (Search.prepare g st_graph_data) st_graph_data.init_point
            st_graph_data.speed_limit st_graph_data.st_graph_boundaries).2
          st_graph_data.st_graph_boundaries
          st_graph_data.speed_limit).2).2.qp_spline_st_speed_config_.output_time_resolution =
      g.qp_spline_st_speed_config_.output_time_resolution := by
  simp only [Solve]
  rw [ApplyKernel_frame, ApplyConstraint_frame]
  simp only [Search.prepare, Init]
  split <;> exact ⟨rfl, rfl⟩

/-- C8: `Search` emits no partial trajectory.  When `ApplyConstraint`, `ApplyKernel` or
`Solve` fails, `Search` returns, whatever the iteration allowance of the output loop, a
`PLANNING_ERROR` status with the message of that phase, and `speed_data` as it was on
entry; no kernel is registered and no solve is run after a constraint failure, and no solve
is run after a kernel failure.  Whenever `Search` returns, its status is OK exactly when all
three phases succeeded, and `speed_data` is then the output of the sampling loop started on
the empty vector.  With a positive output resolution `Search` does return in that case. -/
theorem Search_no_partial_trajectory (lib : SplineLibrary) (g : QpSplineStGraph)
    (st_graph_data : StGraphData) (speed_data : List SpeedPoint) :
    let constrained :=
      ApplyConstraint lib (Search.prepare g st_graph_data) st_graph_data.init_point
        st_graph_data.speed_limit st_graph_data.st_graph_boundaries
    let kernelled :=
      ApplyKernel constrained.2 st_graph_data.st_graph_boundaries st_graph_data.speed_limit
    let solved := Solve lib kernelled.2
    (constrained.1.ok = false →
      (∀ fuel, Search lib fuel g st_graph_data speed_data =
        some (⟨ErrorCode.PLANNING_ERROR, "Apply constraint failed!"⟩, constrained.2,
          speed_data)) ∧
      constrained.2.spline_generator_.kernel_log = [] ∧
      constrained.2.spline_generator_.solve_calls = 0) ∧
    (constrained.1.ok = true → kernelled.1.ok = false →
      (∀ fuel, Search lib fuel g st_graph_data speed_data =
        some (⟨ErrorCode.PLANNING_ERROR, "Apply kernel failed!"⟩, kernelled.2, speed_data)) ∧
      kernelled.2.spline_generator_.solve_calls = 0) ∧
    (constrained.1.ok = true → kernelled.1.ok = true → solved.1.ok = false →
      ∀ fuel, Search lib fuel g st_graph_data speed_data =
        some (⟨ErrorCode.PLANNING_ERROR, "Solve qp problem failed!"⟩, solved.2, speed_data)) ∧
    (∀ fuel result, Search lib fuel g st_graph_data speed_data = some result →
      (result.1 = Status.OK ↔
        constrained.1.ok = true ∧ kernelled.1.ok = true ∧ solved.1.ok = true)) ∧
    (∀ fuel result, Search lib fuel g st_graph_data speed_data = some result →
      result.1 = Status.OK →
      Search.sample (lib.spline solved.2.spline_generator_)
        g.qp_spline_st_speed_config_.total_time
        g.qp_spline_st_speed_config_.output_time_resolution fuel 0 [] = some result.2.2) ∧
    (constrained.1.ok = true → kernelled.1.ok = true → solved.1.ok = true →
      0 < g.qp_spline_st_speed_config_.output_time_resolution →
      ∃ n sampled, ∀ fuel, n ≤ fuel →
        Search lib fuel g st_graph_data speed_data = some (Status.OK, solved.2, sampled)) := by
  intro constrained kernelled solved
  have hcfg := Search_solved_config lib g st_graph_data
  have hout := fun fuel => Search_outcome lib fuel g st_graph_data speed_data
  have hkl : constrained.2.spline_generator_.kernel_log = [] ∧
      constrained.2.spline_generator_.solve_calls = 0 := by
    simp only [constrained]
    rw [ApplyConstraint_frame]
    exact ⟨(Search_prepare_generator g st_graph_data).2.1,
      (Search_prepare_generator g st_graph_data).2.2⟩
  have hsc : kernelled.2.spline_generator_.solve_calls = 0 := by
    simp only [kernelled]
    rw [ApplyKernel_frame]
    exact hkl.2
  have hiff : ∀ fuel result, Search lib fuel g st_graph_data speed_data = some result →
      (result.1 = Status.OK ↔
        constrained.1.ok = true ∧ kernelled.1.ok = true ∧ solved.1.ok = true) := by
    intro fuel result hres
    obtain ⟨o1, o2, o3, o4⟩ := hout fuel
    cases h1 : constrained.1.ok with
    | false =>
      rw [o1 h1] at hres
      cases hres
      simp [Status.OK]
    | true =>
      cases h2 : kernelled.1.ok with
      | false =>
        rw [o2 h1 h2] at hres
        cases hres
        simp [Status.OK]
      | true =>
        cases h3 : solved.1.ok with
        | false =>
          rw [o3 h1 h2 h3] at hres
          cases hres
          simp [Status.OK]
        | true =>
          rw [o4 h1 h2 h3] at hres
          obtain ⟨sampled, -, rfl⟩ := Option.map_eq_some'.mp hres
          simp
  refine ⟨?_, ?_, ?_, hiff, ?_, ?_⟩
  · intro h1
    exact ⟨fun fuel => (hout fuel).1 h1, hkl⟩
  · intro h1 h2
    exact ⟨fun fuel => (hout fuel).2.1 h1 h2, hsc⟩
  · intro h1 h2 h3 fuel
    exact (hout fuel).2.2.1 h1 h2 h3
  · intro fuel result hres hok
    obtain ⟨h1, h2, h3⟩ := (hiff fuel result hres).mp hok
    rw [(hout fuel).2.2.2 h1 h2 h3] at hres
    obtain ⟨sampled, hs, rfl⟩ := Option.map_eq_some'.mp hres
    rw [← hcfg.1, ← hcfg.2]
    exact hs
  · intro h1 h2 h3 hr
    obtain ⟨n, sampled, hs⟩ :=
      Search_sample_terminates (lib.spline solved.2.spline_generator_)
        solved.2.qp_spline_st_speed_config_.total_time
        solved.2.qp_spline_st_speed_config_.output_time_resolution
        (by rw [hcfg.2]; exact hr) 0 []
    refine ⟨n, sampled, ?_⟩
    intro fuel hf
    rw [(hout fuel).2.2.2 h1 h2 h3, hs fuel hf]
    rfl


/-- C9: `ApplyKernel` fails exactly when the speed-limit curve has no breakpoints, whatever
the weights and the boundaries are, and its failure status is `PLANNING_ERROR`; with a
non-empty curve it returns OK.  On the empty curve no reference-line kernel is registered
(the kernel log grows by derivative kernels only), and `Search` on such a curve returns a
`PLANNING_ERROR` status and leaves `speed_data` as it was. -/
theorem ApplyKernel_fails_iff_no_speed_points (lib : SplineLibrary) (g : QpSplineStGraph)
    (boundaries : List StGraphBoundary) (speed_limit : SpeedLimit)
    (init_point : TrajectoryPoint) (path_data_length : ℚ) (speed_data : List SpeedPoint) :
    ((ApplyKernel g boundaries speed_limit).1.code = ErrorCode.PLANNING_ERROR ↔
      speed_limit.speed_points = []) ∧
    ((ApplyKernel g boundaries speed_limit).1 = Status.OK ↔ speed_limit.speed_points ≠ []) ∧
    (speed_limit.speed_points = [] →
      ∀ x_coord ref_x weight,
        KernelCall.add_reference_line_kernel_matrix x_coord ref_x weight ∈
            (ApplyKernel g boundaries speed_limit).2.spline_generator_.kernel_log →
          KernelCall.add_reference_line_kernel_matrix x_coord ref_x weight ∈
            g.spline_generator_.kernel_log) ∧
    (speed_limit.speed_points = [] →
      ∀ fuel, ∃ msg g1,
        Search lib fuel g ⟨init_point, speed_limit, boundaries, path_data_length⟩ speed_data =
          some (⟨ErrorCode.PLANNING_ERROR, msg⟩, g1, speed_data)) := by
  have hcode : (ApplyKernel g boundaries speed_limit).1.code = ErrorCode.PLANNING_ERROR ↔
      speed_limit.speed_points = [] := by
    constructor
    · intro h
      by_contra hne
      rw [ApplyKernel_outcome_nonempty g boundaries speed_limit hne] at h
      cases h
    · intro h
      rw [ApplyKernel_outcome_empty g boundaries speed_limit h]
  refine ⟨hcode, ?_, ?_, ?_⟩
  · constructor
    · intro h he
      have := hcode.mpr he
      rw [h] at this
      cases this
    · exact ApplyKernel_outcome_nonempty g boundaries speed_limit
  · intro h x_coord ref_x weight hmem
    rw [ApplyKernel_outcome_empty g boundaries speed_limit h] at hmem
    simp only [List.mem_append] at hmem
    rcases hmem with hmem | hmem | hmem | hmem
    · exact hmem
    · split at hmem <;> simp at hmem
    · split at hmem <;> simp at hmem
    · split at hmem <;> simp at hmem
  · intro h fuel
    obtain ⟨o1, o2, -, -⟩ :=
      Search_outcome lib fuel g ⟨init_point, speed_limit, boundaries, path_data_length⟩ speed_data
    cases h1 : (ApplyConstraint lib
        (Search.prepare g ⟨init_point, speed_limit, boundaries, path_data_length⟩) init_point
        speed_limit boundaries).1.ok with
    | false => exact ⟨_, _, o1 h1⟩
    | true =>
      refine ⟨_, _, o2 h1 ?_⟩
      simp only
      rw [ApplyKernel_outcome_empty _ boundaries speed_limit h]
      rfl

/-! ## Grid builder -/

/-- One loop of `Init`, entered with counter `i`, accumulator `curr_t` and vector `vec`,
pushes `curr_t`, `curr_t + resolution`, ... once for every counter value up to `count`. -/
theorem Init_fill_eq (count : Nat) (resolution : ℚ) :
    ∀ (i : Nat) (curr_t : ℚ) (vec : List ℚ),
      Init.fill count resolution i curr_t vec =
        vec ++ (List.range (count + 1 - i)).map (fun k : Nat => curr_t + (k : ℚ) * resolution) := by
  intro i curr_t vec
  induction i, curr_t, vec using Init.fill.induct count resolution with
  | case1 i curr_t vec h ih =>
    rw [Init.fill, if_pos h, ih]
    have hn : count + 1 - i = (count + 1 - (i + 1)) + 1 := by omega
    rw [hn, List.range_succ_eq_map, List.map_cons, List.map_map, List.append_assoc,
      List.singleton_append]
    congr 2
    · simp
    · apply List.map_congr_left
      intro k _
      simp only [Function.comp_apply, Nat.succ_eq_add_one, Nat.cast_add, Nat.cast_one]
      ring
  | case2 i curr_t vec h =>
    rw [Init.fill, if_neg h]
    have hn : count + 1 - i = 0 := by omega
    simp [hn]

/-- Properties of the grid `0, step, 2 * step, ..., n * step` with `step = total / n`. -/
theorem Init_grid_spec (total : ℚ) (n : Nat) (ht : 0 < total) (hn : 0 < n) :
    ((List.range (n + 1)).map (fun k : Nat => 0 + (k : ℚ) * (total / n))).length = n + 1 ∧
    (∀ i, i ≤ n →
      ((List.range (n + 1)).map (fun k : Nat => 0 + (k : ℚ) * (total / n)))[i]? =
        some ((i : ℚ) * (total / n))) ∧
    List.Pairwise (fun a b => a < b)
      ((List.range (n + 1)).map (fun k : Nat => 0 + (k : ℚ) * (total / n))) ∧
    ((List.range (n + 1)).map (fun k : Nat => 0 + (k : ℚ) * (total / n))).head? = some 0 ∧
    ((List.range (n + 1)).map (fun k : Nat => 0 + (k : ℚ) * (total / n))).getLast? = some total := by
  have hnq : (0 : ℚ) < n := by exact_mod_cast hn
  have hstep : 0 < total / n := div_pos ht hnq
  refine ⟨by simp, ?_, ?_, ?_, ?_⟩
  · intro i hi
    rw [List.getElem?_map, List.getElem?_range (by omega)]
    simp
  · apply List.Pairwise.map _ _ (List.pairwise_lt_range (n + 1))
    intro a b hab
    have : (a : ℚ) < b := by exact_mod_cast hab
    nlinarith
  · rw [List.head?_map, List.head?_range]
    simp
  · rw [List.getLast?_map, List.getLast?_range]
    simp only [Nat.add_one_ne_zero, if_false, Nat.add_sub_cancel, Option.map_some']
    congr 1
    field_simp

/-- C10: for a configuration with positive horizon and positive counts `K` and `M`, `Init`
on a newly constructed graph produces a knot grid of exactly `K + 1` times whose `i`-th
entry is `i * (total_time / K)` and an evaluation grid of exactly `M + 1` times whose
`i`-th entry is `i * (total_time / M)`; each grid is strictly increasing, starts at 0 and
ends at `total_time`. -/
theorem Init_grids (config : QpSplineStSpeedConfig) (hT : 0 < config.total_time)
    (hK : 0 < config.number_of_discrete_graph_t)
    (hM : 0 < config.number_of_evaluated_graph_t) :
    ((Init (QpSplineStGraph.new config)).t_knots_.length =
        config.number_of_discrete_graph_t + 1 ∧
      (∀ i, i ≤ config.number_of_discrete_graph_t →
        (Init (QpSplineStGraph.new config)).t_knots_[i]? =
          some ((i : ℚ) * (config.total_time / config.number_of_discrete_graph_t))) ∧
      List.Pairwise (fun a b => a < b) (Init (QpSplineStGraph.new config)).t_knots_ ∧
      (Init (QpSplineStGraph.new config)).t_knots_.head? = some 0 ∧
      (Init (QpSplineStGraph.new config)).t_knots_.getLast? = some config.total_time) ∧
    ((Init (QpSplineStGraph.new config)).t_evaluated_.length =
        config.number_of_evaluated_graph_t + 1 ∧
      (∀ i, i ≤ config.number_of_evaluated_graph_t →
        (Init (QpSplineStGraph.new config)).t_evaluated_[i]? =
          some ((i : ℚ) * (config.total_time / config.number_of_evaluated_graph_t))) ∧
      List.Pairwise (fun a b => a < b) (Init (QpSplineStGraph.new config)).t_evaluated_ ∧
      (Init (QpSplineStGraph.new config)).t_evaluated_.head? = some 0 ∧
      (Init (QpSplineStGraph.new config)).t_evaluated_.getLast? = some config.total_time) := by
  have hk : (Init (QpSplineStGraph.new config)).t_knots_ =
      (List.range (config.number_of_discrete_graph_t + 1)).map
        (fun k : Nat => 0 + (k : ℚ) * (config.total_time / config.number_of_discrete_graph_t)) := by
    simp only [Init, QpSplineStGraph.new, Init_fill_eq, List.nil_append, Nat.sub_zero]
  have he : (Init (QpSplineStGraph.new config)).t_evaluated_ =
      (List.range (config.number_of_evaluated_graph_t + 1)).map
        (fun k : Nat => 0 + (k : ℚ) * (config.total_time / config.number_of_evaluated_graph_t)) := by
    simp only [Init, QpSplineStGraph.new, Init_fill_eq, List.nil_append, Nat.sub_zero]
  rw [hk, he]
  exact ⟨Init_grid_spec config.total_time config.number_of_discrete_graph_t hT hK,
    Init_grid_spec config.total_time config.number_of_evaluated_graph_t hT hM⟩

/-- C10 (witness): the theorem applied to `sampleConfig` (horizon 1, one knot segment, one
evaluation segment). -/
theorem Init_grids_witness :
    ((Init (QpSplineStGraph.new sampleConfig)).t_knots_.length =
        sampleConfig.number_of_discrete_graph_t + 1 ∧
      (∀ i, i ≤ sampleConfig.number_of_discrete_graph_t →
        (Init (QpSplineStGraph.new sampleConfig)).t_knots_[i]? =
          some ((i : ℚ) * (sampleConfig.total_time / sampleConfig.number_of_discrete_graph_t))) ∧
      List.Pairwise (fun a b => a < b) (Init (QpSplineStGraph.new sampleConfig)).t_knots_ ∧
      (Init (QpSplineStGraph.new sampleConfig)).t_knots_.head? = some 0 ∧
      (Init (QpSplineStGraph.new sampleConfig)).t_knots_.getLast? =
        some sampleConfig.total_time) ∧
    ((Init (QpSplineStGraph.new sampleConfig)).t_evaluated_.length =
        sampleConfig.number_of_evaluated_graph_t + 1 ∧
      (∀ i, i ≤ sampleConfig.number_of_evaluated_graph_t →
        (Init (QpSplineStGraph.new sampleConfig)).t_evaluated_[i]? =
          some ((i : ℚ) *
            (sampleConfig.total_time / sampleConfig.number_of_evaluated_graph_t))) ∧
      List.Pairwise (fun a b => a < b) (Init (QpSplineStGraph.new sampleConfig)).t_evaluated_ ∧
      (Init (QpSplineStGraph.new sampleConfig)).t_evaluated_.head? = some 0 ∧
      (Init (QpSplineStGraph.new sampleConfig)).t_evaluated_.getLast? =
        some sampleConfig.total_time) :=
  Init_grids sampleConfig (by simp [sampleConfig]) (by simp [sampleConfig])
    (by simp [sampleConfig])

/-! ## Boundary evaluator: frame, consistency, order -/

/-- The whole result of `GetSConstraintByTime` in terms of its loop. -/
theorem GetSConstraintByTime_eq (boundaries : List StGraphBoundary) (time total_path_s u0 l0 : ℚ) :
    GetSConstraintByTime boundaries time total_path_s u0 l0 =
      (Status.OK, (GetSConstraintByTime.loop time boundaries (total_path_s, l0)).1,
        (GetSConstraintByTime.loop time boundaries (total_path_s, l0)).2) := rfl

/-- C16 (counterexample): on the empty boundary list, entered with the lower-bound output
holding 7, `GetSConstraintByTime` returns the lower bound 7, not 0. -/
theorem GetSConstraintByTime_lower_not_initialised :
    (∀ b ∈ ([] : List StGraphBoundary), b.GetUnblockSRange 0 = none) ∧
    ¬ ((GetSConstraintByTime [] 0 100 0 7).2.1 = 100 ∧
        (GetSConstraintByTime [] 0 100 0 7).2.2 = 0) := by
  refine ⟨by simp, ?_⟩
  simp [GetSConstraintByTime, GetSConstraintByTime.loop]

/-- C16 (amended): when no boundary is active at the time, `GetSConstraintByTime` returns
status OK, the upper bound `total_path_s` whatever the upper-bound output held on entry,
and the lower bound that the lower-bound output held on entry; it is 0 when the caller has
set it to 0, as `ApplyConstraint` does. -/
theorem GetSConstraintByTime_no_active (boundaries : List StGraphBoundary)
    (time total_path_s u0 l0 : ℚ)
    (hinactive : ∀ b ∈ boundaries, b.GetUnblockSRange time = none) :
    GetSConstraintByTime boundaries time total_path_s u0 l0 = (Status.OK, total_path_s, l0) ∧
    GetSConstraintByTime boundaries time total_path_s 0 0 = (Status.OK, total_path_s, 0) := by
  have key : ∀ l : ℚ, GetSConstraintByTime.loop time boundaries (total_path_s, l) =
      (total_path_s, l) := by
    intro l
    induction boundaries with
    | nil => rfl
    | cons b rest ih =>
      have hb := hinactive b (List.mem_cons_self _ _)
      simp only [GetSConstraintByTime.loop, hb]
      exact ih (fun b' hb' => hinactive b' (List.mem_cons_of_mem _ hb'))
  rw [GetSConstraintByTime_eq, GetSConstraintByTime_eq, key, key]
  exact ⟨rfl, rfl⟩

/-- C16 (witness): the amended statement applied to a list of one boundary that is never
active, entered with the lower-bound output holding 7. -/
theorem GetSConstraintByTime_no_active_witness :
    (∀ b ∈ [inactiveBoundary], b.GetUnblockSRange 3 = none) ∧
    GetSConstraintByTime [inactiveBoundary] 3 100 0 7 = (Status.OK, 100, 7) ∧
    GetSConstraintByTime [inactiveBoundary] 3 100 0 0 = (Status.OK, 100, 0) :=
  ⟨by simp [inactiveBoundary],
    GetSConstraintByTime_no_active [inactiveBoundary] 3 100 0 7 (by simp [inactiveBoundary])⟩

/-- Enlarging the set of boundaries tightens the window: when every boundary of `bs` also
occurs in `bs2`, the loop over `bs2` ends with an upper bound at most, and a lower bound at
least, that of the loop over `bs` entered with the same bounds. -/
theorem GetSConstraintByTime_loop_subset (time : ℚ) (bs bs2 : List StGraphBoundary)
    (hsub : ∀ b ∈ bs, b ∈ bs2) (u l : ℚ) :
    (GetSConstraintByTime.loop time bs2 (u, l)).1 ≤ (GetSConstraintByTime.loop time bs (u, l)).1 ∧
    (GetSConstraintByTime.loop time bs (u, l)).2 ≤ (GetSConstraintByTime.loop time bs2 (u, l)).2 := by
  obtain ⟨a1, -, -, a4, -, -⟩ := GetSConstraintByTime_loop_spec time bs u l
  obtain ⟨-, b2, b3, -, b5, b6⟩ := GetSConstraintByTime_loop_spec time bs2 u l
  constructor
  · rcases a1 with h | ⟨b, hb, su, sl, e, ty, r⟩
    · rw [h]
      exact b2
    · rw [r]
      exact b3 b (hsub b hb) su sl e ty
  · rcases a4 with h | ⟨b, hb, su, sl, e, ty, r⟩
    · rw [h]
      exact b5
    · rw [r]
      exact b6 b (hsub b hb) su sl e ty

/-- C18: the window returned by `GetSConstraintByTime` is the same for every permutation
of the boundary list, and inserting one more boundary anywhere in the list can only tighten
it: the new upper bound is at most the old one, which is at most the total path length, and
the new lower bound is at least the old one, which is at least the value the lower-bound
output held on entry. -/
theorem GetSConstraintByTime_order_and_tightening (boundaries : List StGraphBoundary)
    (time total_path_s u0 l0 : ℚ) :
    (∀ permuted : List StGraphBoundary, boundaries.Perm permuted →
      GetSConstraintByTime permuted time total_path_s u0 l0 =
        GetSConstraintByTime boundaries time total_path_s u0 l0) ∧
    (∀ (before after : List StGraphBoundary) (b : StGraphBoundary),
      boundaries = before ++ after →
      (GetSConstraintByTime (before ++ b :: after) time total_path_s u0 l0).2.1 ≤
          (GetSConstraintByTime boundaries time total_path_s u0 l0).2.1 ∧
        (GetSConstraintByTime boundaries time total_path_s u0 l0).2.1 ≤ total_path_s ∧
        (GetSConstraintByTime boundaries time total_path_s u0 l0).2.2 ≤
          (GetSConstraintByTime (before ++ b :: after) time total_path_s u0 l0).2.2 ∧
        l0 ≤ (GetSConstraintByTime boundaries time total_path_s u0 l0).2.2) := by
  constructor
  · intro permuted hperm
    obtain ⟨h1, h2⟩ := GetSConstraintByTime_loop_subset time boundaries permuted
      (fun b hb => hperm.subset hb) total_path_s l0
    obtain ⟨h3, h4⟩ := GetSConstraintByTime_loop_subset time permuted boundaries
      (fun b hb => hperm.symm.subset hb) total_path_s l0
    rw [GetSConstraintByTime_eq, GetSConstraintByTime_eq, le_antisymm h1 h3, le_antisymm h4 h2]
  · intro before after b hb
    obtain ⟨h1, h2⟩ := GetSConstraintByTime_loop_subset time boundaries (before ++ b :: after)
      (by
        intro x hx
        rw [hb] at hx
        rcases List.mem_append.mp hx with h | h
        · exact List.mem_append_left _ h
        · exact List.mem_append_right _ (List.mem_cons_of_mem _ h)) total_path_s l0
    obtain ⟨-, a2, -, -, a5, -⟩ := GetSConstraintByTime_loop_spec time boundaries total_path_s l0
    rw [GetSConstraintByTime_eq, GetSConstraintByTime_eq]
    exact ⟨h1, a2, h2, a5⟩

/-- C14 (counterexample): a STOP boundary that leaves `[0, 2]` free and an OVERTAKE boundary
that leaves `[5, 200]` free are each well-formed for a path of length 200, and the window
`GetSConstraintByTime` returns for them has lower bound 5 above upper bound 2. -/
theorem GetSConstraintByTime_crossing_window :
    (∀ b ∈ [stopBoundary 2, overtakeBoundary 5], ∀ su sl,
      b.GetUnblockSRange 0 = some (su, sl) → 0 ≤ sl ∧ sl ≤ su ∧ su ≤ 200) ∧
    ¬ ((GetSConstraintByTime [stopBoundary 2, overtakeBoundary 5] 0 200 0 0).2.2 ≤
        (GetSConstraintByTime [stopBoundary 2, overtakeBoundary 5] 0 200 0 0).2.1) := by
  constructor
  · intro b hb su sl e
    simp only [List.mem_cons, List.mem_singleton, List.not_mem_nil, or_false] at hb
    rcases hb with rfl | rfl
    · simp only [stopBoundary, Option.some.injEq, Prod.mk.injEq] at e
      obtain ⟨rfl, rfl⟩ := e
      norm_num
    · simp only [overtakeBoundary, Option.some.injEq, Prod.mk.injEq] at e
      obtain ⟨rfl, rfl⟩ := e
      norm_num
  · simp [GetSConstraintByTime, GetSConstraintByTime.loop, stopBoundary, overtakeBoundary]
    norm_num

/-- C14 (amended): when the total path length is not negative, every boundary active at
the time reports `0 ≤ s_lower ≤ s_upper ≤ total_path_s`, and no active boundary of another
type reports an `s_lower` above the `s_upper` of an active STOP, FOLLOW or YIELD boundary,
the bounds `GetSConstraintByTime` returns to `ApplyConstraint` satisfy `lower ≤ upper`. -/
theorem GetSConstraintByTime_consistent (boundaries : List StGraphBoundary)
    (time total_path_s : ℚ) (hlen : 0 ≤ total_path_s)
    (hwf : ∀ b ∈ boundaries, ∀ su sl, b.GetUnblockSRange time = some (su, sl) →
      0 ≤ sl ∧ sl ≤ su ∧ su ≤ total_path_s)
    (hcross : ∀ b ∈ boundaries, ∀ c ∈ boundaries, ∀ su sl cu cl,
      b.GetUnblockSRange time = some (su, sl) → c.GetUnblockSRange time = some (cu, cl) →
      (b.boundary_type = BoundaryType.STOP ∨ b.boundary_type = BoundaryType.FOLLOW ∨
        b.boundary_type = BoundaryType.YIELD) →
      ¬ (c.boundary_type = BoundaryType.STOP ∨ c.boundary_type = BoundaryType.FOLLOW ∨
        c.boundary_type = BoundaryType.YIELD) →
      cl ≤ su) :
    (GetSConstraintByTime boundaries time total_path_s 0 0).2.2 ≤
      (GetSConstraintByTime boundaries time total_path_s 0 0).2.1 := by
  obtain ⟨a1, -, -, a4, -, -⟩ := GetSConstraintByTime_loop_spec time boundaries total_path_s 0
  rw [GetSConstraintByTime_eq]
  simp only
  rcases a1 with hu | ⟨b, hb, su, sl, e, ty, ru⟩
  · rcases a4 with hl | ⟨c, hc, cu, cl, e2, ty2, rl⟩
    · rw [hu, hl]
      exact hlen
    · rw [hu, rl]
      obtain ⟨-, w2, w3⟩ := hwf c hc cu cl e2
      exact le_trans w2 w3
  · rcases a4 with hl | ⟨c, hc, cu, cl, e2, ty2, rl⟩
    · rw [ru, hl]
      obtain ⟨w1, w2, -⟩ := hwf b hb su sl e
      exact le_trans w1 w2
    · rw [ru, rl]
      exact hcross b hb c hc su sl cu cl e e2 ty ty2

/-- C14 (witness): the amended statement applied to a STOP boundary that leaves `[0, 8]`
free and an OVERTAKE boundary that leaves `[5, 200]` free, on a path of length 200. -/
theorem GetSConstraintByTime_consistent_witness :
    (GetSConstraintByTime [stopBoundary 8, overtakeBoundary 5] 0 200 0 0).2.2 ≤
      (GetSConstraintByTime [stopBoundary 8, overtakeBoundary 5] 0 200 0 0).2.1 :=
  GetSConstraintByTime_consistent [stopBoundary 8, overtakeBoundary 5] 0 200 (by norm_num)
    (by
      intro b hb su sl e
      simp only [List.mem_cons, List.mem_singleton, List.not_mem_nil, or_false] at hb
      rcases hb with rfl | rfl
      · simp only [stopBoundary, Option.some.injEq, Prod.mk.injEq] at e
        obtain ⟨rfl, rfl⟩ := e
        norm_num
      · simp only [overtakeBoundary, Option.some.injEq, Prod.mk.injEq] at e
        obtain ⟨rfl, rfl⟩ := e
        norm_num)
    (by
      intro b hb c hc su sl cu cl e e2 ty ty2
      simp only [List.mem_cons, List.mem_singleton, List.not_mem_nil, or_false] at hb hc
      rcases hb with rfl | rfl
      · rcases hc with rfl | rfl
        · exact absurd ty ty2
        · simp only [stopBoundary, Option.some.injEq, Prod.mk.injEq] at e
          simp only [overtakeBoundary, Option.some.injEq, Prod.mk.injEq] at e2
          obtain ⟨rfl, rfl⟩ := e
          obtain ⟨rfl, rfl⟩ := e2
          norm_num
      · simp [overtakeBoundary] at ty)

/-! ## Speed-ceiling estimator: the walk -/

/-- A walk entered in a state where the loop condition is false does nothing, whatever the
number of iterations allowed. -/
theorem EstimateSpeedUpperBound_walk_done (v : ℚ) (t : List ℚ) (sl : SpeedLimit)
    (fuel : Nat) (st : WalkState)
    (h : ¬ (st.i < t.length ∧ st.j + 1 < sl.speed_points.length)) :
    EstimateSpeedUpperBound.walk v t sl fuel st = st := by
  cases fuel with
  | zero => rfl
  | succ n => rw [EstimateSpeedUpperBound.walk, dif_neg h]

/-- Allowing one more iteration is the same as running one iteration first: the walk with
`n` iterations allowed is the `n`-fold repetition of the walk with one iteration allowed. -/
theorem EstimateSpeedUpperBound_walk_succ (v : ℚ) (t : List ℚ) (sl : SpeedLimit)
    (n : Nat) (st : WalkState) :
    EstimateSpeedUpperBound.walk v t sl (n + 1) st =
      EstimateSpeedUpperBound.walk v t sl n (EstimateSpeedUpperBound.walk v t sl 1 st) := by
  by_cases h : st.i < t.length ∧ st.j + 1 < sl.speed_points.length
  · rw [EstimateSpeedUpperBound.walk, dif_pos h]
    rw [show EstimateSpeedUpperBound.walk v t sl 1 st =
        EstimateSpeedUpperBound.walk v t sl (0 + 1) st from rfl,
      EstimateSpeedUpperBound.walk, dif_pos h]
    simp only
    split
    · rfl
    · split <;> rfl
  · rw [EstimateSpeedUpperBound_walk_done v t sl (n + 1) st h,
      EstimateSpeedUpperBound_walk_done v t sl 1 st h,
      EstimateSpeedUpperBound_walk_done v t sl n st h]

/-- Shape of one iteration of the walk, entered with the loop condition true: either it
pushes one entry for the time at index `i` and increases `i`, the entry being the speed of
a breakpoint whose station is within `kDistanceEpsilon` of the projected distance or the
looked-up limit, or it pushes nothing and increases `j`.  Which of the cases applies is
stated by `EstimateSpeedUpperBound_walk_step`. -/
theorem EstimateSpeedUpperBound_walk_one (v : ℚ) (t : List ℚ) (sl : SpeedLimit)
    (st : WalkState) (hi : st.i < t.length) (hj : st.j + 1 < sl.speed_points.length) :
    (∃ x, EstimateSpeedUpperBound.walk v t sl 1 st =
          ⟨st.i + 1, st.j, st.speed_upper_bound ++ [x]⟩ ∧
        ((∃ p ∈ sl.speed_points, |v * t[st.i] - p.s| < kDistanceEpsilon ∧ x = p.v) ∨
          x = sl.get_speed_limit_by_s (v * t[st.i]))) ∨
    EstimateSpeedUpperBound.walk v t sl 1 st = ⟨st.i, st.j + 1, st.speed_upper_bound⟩ := by
  rw [show EstimateSpeedUpperBound.walk v t sl 1 st =
      EstimateSpeedUpperBound.walk v t sl (0 + 1) st from rfl,
    EstimateSpeedUpperBound.walk, dif_pos ⟨hi, hj⟩]
  simp only
  split
  · rename_i hclose
    left
    exact ⟨_, rfl, Or.inl ⟨sl.speed_points[st.j], List.getElem_mem _, hclose, rfl⟩⟩
  · split
    · right
      rfl
    · left
      exact ⟨_, rfl, Or.inr rfl⟩

/-- Iterations compose: allowing `m + n` iterations is allowing `n` and then `m` more. -/
theorem EstimateSpeedUpperBound_walk_add (v : ℚ) (t : List ℚ) (sl : SpeedLimit) (m : Nat) :
    ∀ (n : Nat) (st : WalkState),
      EstimateSpeedUpperBound.walk v t sl (m + n) st =
        EstimateSpeedUpperBound.walk v t sl m (EstimateSpeedUpperBound.walk v t sl n st) := by
  intro n
  induction n with
  | zero =>
    intro st
    rfl
  | succ n ih =>
    intro st
    rw [show m + (n + 1) = (m + n) + 1 from rfl, EstimateSpeedUpperBound_walk_succ, ih,
      ← EstimateSpeedUpperBound_walk_succ]

/-- The walk has left its loop once the number of iterations allowed covers the distance of
`i` from the grid length plus the distance of `j + 1` from the number of breakpoints. -/
theorem EstimateSpeedUpperBound_walk_bound (v : ℚ) (t : List ℚ) (sl : SpeedLimit) :
    ∀ (fuel : Nat) (st : WalkState),
      (t.length - st.i) + (sl.speed_points.length - (st.j + 1)) ≤ fuel →
      ¬ ((EstimateSpeedUpperBound.walk v t sl fuel st).i < t.length ∧
          (EstimateSpeedUpperBound.walk v t sl fuel st).j + 1 < sl.speed_points.length) := by
  intro fuel
  induction fuel with
  | zero =>
    intro st hf
    simp only [EstimateSpeedUpperBound.walk]
    omega
  | succ n ih =>
    intro st hf
    by_cases h : st.i < t.length ∧ st.j + 1 < sl.speed_points.length
    · rw [EstimateSpeedUpperBound_walk_succ]
      apply ih
      rcases EstimateSpeedUpperBound_walk_one v t sl st h.1 h.2 with ⟨x, e, -⟩ | e
      · rw [e]
        simp only
        omega
      · rw [e]
        simp only
        omega
    · rw [EstimateSpeedUpperBound_walk_done v t sl (n + 1) st h]
      exact h

/-- Invariant of the walk: `i` is the number of entries pushed and does not exceed the grid
length, and the entry at each index `k` is the ceiling for the time at index `k`, namely the
speed of a breakpoint whose station is within `kDistanceEpsilon` of `v * t[k]`, or the
looked-up limit at `v * t[k]`. -/
theorem EstimateSpeedUpperBound_walk_entries (v : ℚ) (t : List ℚ) (sl : SpeedLimit) :
    ∀ (fuel : Nat) (st : WalkState),
      st.speed_upper_bound.length = st.i → st.i ≤ t.length →
      (∀ (k : Nat) (x : ℚ), st.speed_upper_bound[k]? = some x → ∃ tk, t[k]? = some tk ∧
        ((∃ p ∈ sl.speed_points, |v * tk - p.s| < kDistanceEpsilon ∧ x = p.v) ∨
          x = sl.get_speed_limit_by_s (v * tk))) →
      (EstimateSpeedUpperBound.walk v t sl fuel st).speed_upper_bound.length =
          (EstimateSpeedUpperBound.walk v t sl fuel st).i ∧
        (EstimateSpeedUpperBound.walk v t sl fuel st).i ≤ t.length ∧
        ∀ (k : Nat) (x : ℚ),
          (EstimateSpeedUpperBound.walk v t sl fuel st).speed_upper_bound[k]? = some x →
          ∃ tk, t[k]? = some tk ∧
            ((∃ p ∈ sl.speed_points, |v * tk - p.s| < kDistanceEpsilon ∧ x = p.v) ∨
              x = sl.get_speed_limit_by_s (v * tk)) := by
  intro fuel
  induction fuel with
  | zero =>
    intro st h1 h2 h3
    exact ⟨h1, h2, h3⟩
  | succ n ih =>
    intro st h1 h2 h3
    by_cases h : st.i < t.length ∧ st.j + 1 < sl.speed_points.length
    · rw [EstimateSpeedUpperBound_walk_succ]
      rcases EstimateSpeedUpperBound_walk_one v t sl st h.1 h.2 with ⟨x, e, hx⟩ | e
      · rw [e]
        apply ih
        · simp [h1]
        · simp only
          omega
        · intro k y hk
          simp only at hk
          by_cases hlt : k < st.speed_upper_bound.length
          · rw [List.getElem?_append_left hlt] at hk
            exact h3 k y hk
          · have hge : st.speed_upper_bound.length ≤ k := by omega
            rw [List.getElem?_append_right hge] at hk
            have hk0 : k - st.speed_upper_bound.length = 0 := by
              by_contra hne
              have hpos : 1 ≤ k - st.speed_upper_bound.length := by omega
              rw [List.getElem?_eq_none (by simpa using hpos)] at hk
              cases hk
            rw [hk0] at hk
            simp only [List.getElem?_cons_zero, Option.some.injEq] at hk
            have hki : k = st.i := by omega
            subst hk
            subst hki
            exact ⟨t[st.i], List.getElem?_eq_getElem h.1, hx⟩
      · rw [e]
        exact ih ⟨st.i, st.j + 1, st.speed_upper_bound⟩ h1 h2 h3
    · rw [EstimateSpeedUpperBound_walk_done v t sl (n + 1) st h]
      exact ⟨h1, h2, h3⟩

/-- One iteration of the walk, entered with the loop condition true, is the three-way
choice of the source: when the station of the current breakpoint is within
`kDistanceEpsilon` of the projected distance, push the speed of that breakpoint and increase
`i`; else when the station of the next breakpoint is below the distance, increase `j` and
push nothing; else push the looked-up limit and increase `i`. -/
theorem EstimateSpeedUpperBound_walk_step (v : ℚ) (t : List ℚ) (sl : SpeedLimit)
    (st : WalkState) (hi : st.i < t.length) (hj : st.j + 1 < sl.speed_points.length) :
    EstimateSpeedUpperBound.walk v t sl 1 st =
      if |v * t[st.i] - sl.speed_points[st.j].s| < kDistanceEpsilon then
        ⟨st.i + 1, st.j, st.speed_upper_bound ++ [sl.speed_points[st.j].v]⟩
      else if sl.speed_points[st.j + 1].s < v * t[st.i] then
        ⟨st.i, st.j + 1, st.speed_upper_bound⟩
      else
        ⟨st.i + 1, st.j, st.speed_upper_bound ++ [sl.get_speed_limit_by_s (v * t[st.i])]⟩ := by
  rw [show EstimateSpeedUpperBound.walk v t sl 1 st =
      EstimateSpeedUpperBound.walk v t sl (0 + 1) st from rfl,
    EstimateSpeedUpperBound.walk, dif_pos ⟨hi, hj⟩]
  simp only
  split
  · rfl
  · split <;> rfl

/-- One iteration preserves the invariant of the walk. -/
theorem EstimateSpeedUpperBound_trace_step (v : ℚ) (t : List ℚ) (sl : SpeedLimit)
    (used : Nat → Nat) (st : WalkState)
    (hinv : EstimateSpeedUpperBound.Traced v t sl used st) :
    ∃ used2, EstimateSpeedUpperBound.Traced v t sl used2
      (EstimateSpeedUpperBound.walk v t sl 1 st) := by
  by_cases h : st.i < t.length ∧ st.j + 1 < sl.speed_points.length
  · obtain ⟨hi, hj⟩ := h
    obtain ⟨i1, i2, i3, i4, i5⟩ := hinv
    have ht : t.getD st.i 0 = t[st.i] := List.getD_eq_getElem _ _ hi
    have hp : sl.speed_points.getD st.j ⟨0, 0, 0, 0, 0⟩ = sl.speed_points[st.j] :=
      List.getD_eq_getElem _ _ (by omega)
    have hq : sl.speed_points.getD (st.j + 1) ⟨0, 0, 0, 0, 0⟩ = sl.speed_points[st.j + 1] :=
      List.getD_eq_getElem _ _ hj
    have hemit : ∀ x : ℚ,
        EstimateSpeedUpperBound.EntryOf v t sl (if st.i = 0 then 0 else used (st.i - 1))
          st.j st.i x →
        EstimateSpeedUpperBound.Traced v t sl (Function.update used st.i st.j)
          ⟨st.i + 1, st.j, st.speed_upper_bound ++ [x]⟩ := by
      intro x hx
      have hup : ∀ k, k < st.i → Function.update used st.i st.j k = used k := by
        intro k hk
        exact Function.update_noteq (by omega) _ _
      have hprev : ∀ k, k ≤ st.i →
          (if k = 0 then 0 else Function.update used st.i st.j (k - 1)) =
            (if k = 0 then 0 else used (k - 1)) := by
        intro k hk
        by_cases hk0 : k = 0
        · simp [hk0]
        · rw [if_neg hk0, if_neg hk0, hup (k - 1) (by omega)]
      have hnew : (if st.i + 1 = 0 then 0 else Function.update used st.i st.j (st.i + 1 - 1)) =
          st.j := by
        rw [if_neg (Nat.succ_ne_zero _), Nat.add_sub_cancel, Function.update_same]
      refine ⟨by simp [i1], by simp only; omega, ?_, ?_, ?_⟩
      · show (if st.i + 1 = 0 then 0 else Function.update used st.i st.j (st.i + 1 - 1)) ≤ st.j
        rw [hnew]
      · intro _ j2 h1 h2
        have h1b : (if st.i + 1 = 0 then 0 else Function.update used st.i st.j (st.i + 1 - 1)) ≤
            j2 := h1
        have h2b : j2 < st.j := h2
        rw [hnew] at h1b
        omega
      · intro k hk
        have hkb : k < st.i + 1 := hk
        show EstimateSpeedUpperBound.EntryOf v t sl
          (if k = 0 then 0 else Function.update used st.i st.j (k - 1))
          (Function.update used st.i st.j k) k ((st.speed_upper_bound ++ [x]).getD k 0)
        by_cases hlt : k < st.i
        · rw [hprev k (by omega), hup k hlt,
            List.getD_append _ _ _ _ (by omega)]
          exact i5 k hlt
        · have hki : k = st.i := by omega
          rw [hki, hprev st.i (le_refl _), Function.update_same,
            List.getD_append_right _ _ _ _ (by omega)]
          simpa [i1] using hx
    rw [EstimateSpeedUpperBound_walk_step v t sl st hi hj]
    split
    · rename_i hclose
      refine ⟨_, hemit _ ⟨hi, hj, i3, i4 hi, ?_, ?_⟩⟩
      · intro _
        rw [hp]
      · intro hn
        rw [ht, hp] at hn
        exact absurd hclose hn
    · rename_i hclose
      split
      · rename_i hnext
        refine ⟨used, i1, i2, by simp only; omega, ?_, i5⟩
        intro _ j2 h1 h2
        simp only at h1 h2
        by_cases hj2 : j2 < st.j
        · exact i4 hi j2 h1 hj2
        · have : j2 = st.j := by omega
          subst this
          rw [ht, hp, hq]
          exact ⟨hclose, hnext⟩
      · rename_i hnext
        refine ⟨_, hemit _ ⟨hi, hj, i3, i4 hi, ?_, ?_⟩⟩
        · intro hc
          rw [ht, hp] at hc
          exact absurd hc hclose
        · intro _
          rw [ht, hq]
          exact ⟨hnext, rfl⟩
  · rw [EstimateSpeedUpperBound_walk_done v t sl 1 st h]
    exact ⟨used, hinv⟩

/-- The walk preserves its invariant, whatever the number of iterations allowed. -/
theorem EstimateSpeedUpperBound_trace_walk (v : ℚ) (t : List ℚ) (sl : SpeedLimit) :
    ∀ (fuel : Nat) (used : Nat → Nat) (st : WalkState),
      EstimateSpeedUpperBound.Traced v t sl used st →
      ∃ used2, EstimateSpeedUpperBound.Traced v t sl used2
        (EstimateSpeedUpperBound.walk v t sl fuel st) := by
  intro fuel
  induction fuel with
  | zero =>
    intro used st h
    exact ⟨used, h⟩
  | succ n ih =>
    intro used st h
    obtain ⟨used1, h1⟩ := EstimateSpeedUpperBound_trace_step v t sl used st h
    rw [EstimateSpeedUpperBound_walk_succ]
    exact ih used1 _ h1

/-- The breakpoint the walk compares with the projected distance is the one its index stands
on.  On the grid `[0, 1]` with start speed 10 the projected distances are 0 and 10; entry 0
is the speed 5 of breakpoint 0, whose station 0 matches, and entry 1 is the looked-up limit
7: breakpoint 0 does not match, the station of breakpoint 1 is not below 10, so the index
stays on breakpoint 0 and the speed 6 of breakpoint 1, whose station equals the distance,
is not read.  The third entry is the back-fill of `max_speed`. -/
theorem EstimateSpeedUpperBound_tests_current_breakpoint :
    sampleGraph.t_evaluated_ = [0, 1] ∧
    (EstimateSpeedUpperBound sampleGraph ⟨10, 0⟩ steppedSpeedLimit).2 = [5, 7, 20] := by
  have hm : sampleGraph.qp_spline_st_speed_config_.max_speed = 20 := rfl
  refine ⟨sampleGraph_t_evaluated, ?_⟩
  rw [EstimateSpeedUpperBound_eq, sampleGraph_t_evaluated, hm]
  norm_num [EstimateSpeedUpperBound.walk, steppedSpeedLimit, kDistanceEpsilon, sizeMinusOneU32]

/-- C15: with `walked` the entries the walk of `EstimateSpeedUpperBound` emits, entry `k` of
the result for every `k` below the number of walked entries is the ceiling for the
evaluation time `t[k]` computed from the projection `d = v * t[k]`.  One iteration of the
walk is the three-way choice of the source.  There are breakpoint indices `used k`, never
decreasing from one entry to the next and starting from 0, such that the walk stepped over
every index between the previous one and `used k` because its station was not within
`kDistanceEpsilon` of `d` and the next station was below `d`, and entry `k` is the speed of
breakpoint `used k` when its station is within `kDistanceEpsilon` of `d`, and otherwise
(the next station then being not below `d`) it is `get_speed_limit_by_s d`.  In particular
every such entry is the speed of a breakpoint whose station is within `kDistanceEpsilon` of
`d`, or `get_speed_limit_by_s d`.  Every entry of the result after the walked ones equals
`max_speed`, and an iteration of the walk that changes the breakpoint index pushes nothing
and leaves the time index alone. -/
theorem EstimateSpeedUpperBound_entries (g : QpSplineStGraph) (init_point : TrajectoryPoint)
    (speed_limit : SpeedLimit) :
    let walked :=
      (EstimateSpeedUpperBound.walk init_point.v g.t_evaluated_ speed_limit
        (g.t_evaluated_.length + speed_limit.speed_points.length) ⟨0, 0, []⟩).speed_upper_bound
    (∀ (st : WalkState) (hi : st.i < g.t_evaluated_.length)
        (hj : st.j + 1 < speed_limit.speed_points.length),
      EstimateSpeedUpperBound.walk init_point.v g.t_evaluated_ speed_limit 1 st =
        if |init_point.v * g.t_evaluated_[st.i] - speed_limit.speed_points[st.j].s| <
            kDistanceEpsilon then
          ⟨st.i + 1, st.j, st.speed_upper_bound ++ [speed_limit.speed_points[st.j].v]⟩
        else if speed_limit.speed_points[st.j + 1].s < init_point.v * g.t_evaluated_[st.i] then
          ⟨st.i, st.j + 1, st.speed_upper_bound⟩
        else
          ⟨st.i + 1, st.j,
            st.speed_upper_bound ++
              [speed_limit.get_speed_limit_by_s (init_point.v * g.t_evaluated_[st.i])]⟩) ∧
    (∃ used : Nat → Nat, ∀ k : Nat, k < walked.length →
      ∃ (hk : k < g.t_evaluated_.length)
        (hj : used k + 1 < speed_limit.speed_points.length),
        (if k = 0 then 0 else used (k - 1)) ≤ used k ∧
        (∀ (j2 : Nat) (_ : (if k = 0 then 0 else used (k - 1)) ≤ j2) (h2 : j2 < used k),
          ¬ |init_point.v * g.t_evaluated_[k] - speed_limit.speed_points[j2].s| <
              kDistanceEpsilon ∧
            speed_limit.speed_points[j2 + 1].s < init_point.v * g.t_evaluated_[k]) ∧
        (|init_point.v * g.t_evaluated_[k] - speed_limit.speed_points[used k].s| <
            kDistanceEpsilon →
          (EstimateSpeedUpperBound g init_point speed_limit).2[k]? =
            some speed_limit.speed_points[used k].v) ∧
        (¬ |init_point.v * g.t_evaluated_[k] - speed_limit.speed_points[used k].s| <
            kDistanceEpsilon →
          ¬ (speed_limit.speed_points[used k + 1].s < init_point.v * g.t_evaluated_[k]) ∧
            (EstimateSpeedUpperBound g init_point speed_limit).2[k]? =
              some (speed_limit.get_speed_limit_by_s (init_point.v * g.t_evaluated_[k])))) ∧
    (∀ k : Nat, k < walked.length →
      ∃ tk x, g.t_evaluated_[k]? = some tk ∧
        (EstimateSpeedUpperBound g init_point speed_limit).2[k]? = some x ∧
        ((∃ p ∈ speed_limit.speed_points,
            |init_point.v * tk - p.s| < kDistanceEpsilon ∧ x = p.v) ∨
          x = speed_limit.get_speed_limit_by_s (init_point.v * tk))) ∧
    (∀ (k : Nat) (x : ℚ), walked.length ≤ k →
      (EstimateSpeedUpperBound g init_point speed_limit).2[k]? = some x →
      x = g.qp_spline_st_speed_config_.max_speed) ∧
    (∀ st : WalkState,
      (EstimateSpeedUpperBound.walk init_point.v g.t_evaluated_ speed_limit 1 st).j ≠ st.j →
      (EstimateSpeedUpperBound.walk init_point.v g.t_evaluated_ speed_limit 1
          st).speed_upper_bound = st.speed_upper_bound ∧
        (EstimateSpeedUpperBound.walk init_point.v g.t_evaluated_ speed_limit 1 st).i = st.i) := by
  intro walked
  obtain ⟨-, -, hent⟩ :=
    EstimateSpeedUpperBound_walk_entries init_point.v g.t_evaluated_ speed_limit
      (g.t_evaluated_.length + speed_limit.speed_points.length) ⟨0, 0, []⟩ rfl (Nat.zero_le _)
      (by
        intro k x hk
        simp at hk)
  have hres : ∀ (k : Nat) (hk : k < walked.length),
      (EstimateSpeedUpperBound g init_point speed_limit).2[k]? = some walked[k] := by
    intro k hk
    rw [EstimateSpeedUpperBound_eq]
    simp only
    rw [List.getElem?_append_left hk]
    exact List.getElem?_eq_getElem hk
  refine ⟨?_, ?_, ?_, ?_, ?_⟩
  · intro st hi hj
    exact EstimateSpeedUpperBound_walk_step init_point.v g.t_evaluated_ speed_limit st hi hj
  · obtain ⟨used, t1, -, -, -, t5⟩ :=
      EstimateSpeedUpperBound_trace_walk init_point.v g.t_evaluated_ speed_limit
        (g.t_evaluated_.length + speed_limit.speed_points.length) (fun _ => 0) ⟨0, 0, []⟩
        ⟨rfl, Nat.zero_le _, le_refl _, by
          intro _ j2 _ h2
          simp only at h2
          omega, by
          intro k hk
          simp only at hk
          omega⟩
    refine ⟨used, ?_⟩
    intro k hk
    have hki : k < (EstimateSpeedUpperBound.walk init_point.v g.t_evaluated_ speed_limit
        (g.t_evaluated_.length + speed_limit.speed_points.length) ⟨0, 0, []⟩).i := by
      rw [← t1]
      exact hk
    obtain ⟨e1, e2, e3, e4, e5, e6⟩ := t5 k hki
    have hx : (EstimateSpeedUpperBound.walk init_point.v g.t_evaluated_ speed_limit
        (g.t_evaluated_.length + speed_limit.speed_points.length)
        ⟨0, 0, []⟩).speed_upper_bound.getD k 0 = walked[k] := List.getD_eq_getElem _ _ hk
    rw [hx] at e5 e6
    have ht : g.t_evaluated_.getD k 0 = g.t_evaluated_[k] := List.getD_eq_getElem _ _ e1
    have hp : speed_limit.speed_points.getD (used k) ⟨0, 0, 0, 0, 0⟩ =
        speed_limit.speed_points[used k] := List.getD_eq_getElem _ _ (by omega)
    have hq : speed_limit.speed_points.getD (used k + 1) ⟨0, 0, 0, 0, 0⟩ =
        speed_limit.speed_points[used k + 1] := List.getD_eq_getElem _ _ e2
    rw [ht] at e4 e5 e6
    rw [hp] at e5 e6
    rw [hq] at e6
    refine ⟨e1, e2, e3, ?_, ?_, ?_⟩
    · intro j2 h1 h2
      have := e4 j2 h1 h2
      rwa [List.getD_eq_getElem _ _ (show j2 < speed_limit.speed_points.length by omega),
        List.getD_eq_getElem _ _ (show j2 + 1 < speed_limit.speed_points.length by omega)]
        at this
    · intro hc
      rw [hres k hk, e5 hc]
    · intro hc
      obtain ⟨n1, n2⟩ := e6 hc
      exact ⟨n1, by rw [hres k hk, n2]⟩
  · intro k hk
    obtain ⟨tk, htk, hx⟩ := hent k walked[k] (List.getElem?_eq_getElem hk)
    exact ⟨tk, walked[k], htk, hres k hk, hx⟩
  · intro k x hk hx
    rw [EstimateSpeedUpperBound_eq] at hx
    simp only at hx
    rw [List.getElem?_append_right hk] at hx
    have hmem : x ∈ List.replicate
        (g.t_evaluated_.length - sizeMinusOneU32 walked.length)
        g.qp_spline_st_speed_config_.max_speed := List.getElem?_mem hx
    exact (List.mem_replicate.mp hmem).2
  · intro st hj
    by_cases h : st.i < g.t_evaluated_.length ∧ st.j + 1 < speed_limit.speed_points.length
    · rcases EstimateSpeedUpperBound_walk_one init_point.v g.t_evaluated_ speed_limit st h.1 h.2
        with ⟨x, e, -⟩ | e
      · rw [e] at hj
        exact absurd rfl hj
      · rw [e]
        exact ⟨rfl, rfl⟩
    · rw [EstimateSpeedUpperBound_walk_done init_point.v g.t_evaluated_ speed_limit 1 st h] at hj
      exact absurd rfl hj

/-- C17: the two-index walk of `EstimateSpeedUpperBound` terminates.  One iteration entered
with the loop condition true increases exactly one of `i` and `j` by one; an iteration
changes the state exactly when the loop condition holds; the walk with `n` iterations
allowed is the `n`-fold repetition of one iteration; and from the start state the walk has
left its loop after at most `|t_evaluated_| + |speed_points| - 1` iterations, in a state
where `i` has reached the grid length or `j + 1` the number of breakpoints, with at most
`|t_evaluated_|` entries emitted. -/
theorem EstimateSpeedUpperBound_walk_terminates (v : ℚ) (t_evaluated_ : List ℚ)
    (speed_limit : SpeedLimit) :
    (∀ st : WalkState,
      st.i < t_evaluated_.length ∧ st.j + 1 < speed_limit.speed_points.length →
      ((EstimateSpeedUpperBound.walk v t_evaluated_ speed_limit 1 st).i = st.i + 1 ∧
          (EstimateSpeedUpperBound.walk v t_evaluated_ speed_limit 1 st).j = st.j) ∨
        ((EstimateSpeedUpperBound.walk v t_evaluated_ speed_limit 1 st).i = st.i ∧
          (EstimateSpeedUpperBound.walk v t_evaluated_ speed_limit 1 st).j = st.j + 1)) ∧
    (∀ st : WalkState,
      EstimateSpeedUpperBound.walk v t_evaluated_ speed_limit 1 st = st ↔
        ¬ (st.i < t_evaluated_.length ∧ st.j + 1 < speed_limit.speed_points.length)) ∧
    (∀ (n : Nat) (st : WalkState),
      EstimateSpeedUpperBound.walk v t_evaluated_ speed_limit n st =
        (EstimateSpeedUpperBound.walk v t_evaluated_ speed_limit 1)^[n] st) ∧
    (∀ fuel : Nat, t_evaluated_.length + speed_limit.speed_points.length - 1 ≤ fuel →
      EstimateSpeedUpperBound.walk v t_evaluated_ speed_limit fuel ⟨0, 0, []⟩ =
        EstimateSpeedUpperBound.walk v t_evaluated_ speed_limit
          (t_evaluated_.length + speed_limit.speed_points.length - 1) ⟨0, 0, []⟩) ∧
    (t_evaluated_.length ≤
        (EstimateSpeedUpperBound.walk v t_evaluated_ speed_limit
          (t_evaluated_.length + speed_limit.speed_points.length - 1) ⟨0, 0, []⟩).i ∨
      speed_limit.speed_points.length ≤
        (EstimateSpeedUpperBound.walk v t_evaluated_ speed_limit
          (t_evaluated_.length + speed_limit.speed_points.length - 1) ⟨0, 0, []⟩).j + 1) ∧
    (EstimateSpeedUpperBound.walk v t_evaluated_ speed_limit
        (t_evaluated_.length + speed_limit.speed_points.length - 1)
        ⟨0, 0, []⟩).speed_upper_bound.length ≤ t_evaluated_.length := by
  have hexit : ¬ ((EstimateSpeedUpperBound.walk v t_evaluated_ speed_limit
        (t_evaluated_.length + speed_limit.speed_points.length - 1) ⟨0, 0, []⟩).i <
          t_evaluated_.length ∧
      (EstimateSpeedUpperBound.walk v t_evaluated_ speed_limit
        (t_evaluated_.length + speed_limit.speed_points.length - 1) ⟨0, 0, []⟩).j + 1 <
          speed_limit.speed_points.length) := by
    by_cases h0 : (0 : Nat) < t_evaluated_.length ∧ 0 + 1 < speed_limit.speed_points.length
    · exact EstimateSpeedUpperBound_walk_bound v t_evaluated_ speed_limit _ ⟨0, 0, []⟩
        (by simp only; omega)
    · rw [EstimateSpeedUpperBound_walk_done v t_evaluated_ speed_limit _ ⟨0, 0, []⟩ h0]
      exact h0
  refine ⟨?_, ?_, ?_, ?_, ?_, ?_⟩
  · intro st h
    rcases EstimateSpeedUpperBound_walk_one v t_evaluated_ speed_limit st h.1 h.2
      with ⟨x, e, -⟩ | e
    · rw [e]
      exact Or.inl ⟨rfl, rfl⟩
    · rw [e]
      exact Or.inr ⟨rfl, rfl⟩
  · intro st
    constructor
    · intro hfix h
      rcases EstimateSpeedUpperBound_walk_one v t_evaluated_ speed_limit st h.1 h.2
        with ⟨x, e, -⟩ | e
      · rw [e] at hfix
        have := congrArg WalkState.i hfix
        simp only at this
        omega
      · rw [e] at hfix
        have := congrArg WalkState.j hfix
        simp only at this
        omega
    · intro h
      exact EstimateSpeedUpperBound_walk_done v t_evaluated_ speed_limit 1 st h
  · intro n
    induction n with
    | zero =>
      intro st
      rfl
    | succ n ih =>
      intro st
      rw [EstimateSpeedUpperBound_walk_succ, ih, Function.iterate_succ_apply]
  · intro fuel hf
    obtain ⟨m, rfl⟩ := Nat.exists_eq_add_of_le hf
    rw [Nat.add_comm, EstimateSpeedUpperBound_walk_add,
      EstimateSpeedUpperBound_walk_done v t_evaluated_ speed_limit m _ hexit]
  · omega
  · obtain ⟨a, b, -⟩ :=
      EstimateSpeedUpperBound_walk_entries v t_evaluated_ speed_limit
        (t_evaluated_.length + speed_limit.speed_points.length - 1) ⟨0, 0, []⟩ rfl
        (Nat.zero_le _) (by
          intro k x hk
          simp at hk)
    rw [a]
    exact b

/-! ## Cruise reference kernel: monotonicity -/

/-- C19: for a non-decreasing evaluation grid `t` and a speed-limit curve that is not empty
and whose lookup `get_speed_limit_by_s` returns no negative value, the reference sequence
that `AddCruiseReferenceLineKernel` registers starts at 0, is non-decreasing, and has no
negative entry. -/
theorem AddCruiseReferenceLineKernel_reference_monotone (g : QpSplineStGraph) (t : List ℚ)
    (sl : SpeedLimit) (hne : sl.speed_points ≠ [])
    (hsorted : List.Pairwise (fun a b => a ≤ b) t)
    (hnonneg : ∀ s, 0 ≤ sl.get_speed_limit_by_s s) :
    ∃ s_vec : List ℚ,
      (AddCruiseReferenceLineKernel g t sl).2.spline_generator_.kernel_log =
        g.spline_generator_.kernel_log ++
          [KernelCall.add_reference_line_kernel_matrix t s_vec
            g.qp_spline_st_speed_config_.reference_line_kernel_weight] ∧
      (∀ h0 : 0 < s_vec.length, s_vec[0] = 0) ∧
      (∀ (i : Nat) (hi : i + 1 < s_vec.length), s_vec[i] ≤ s_vec[i + 1]) ∧
      List.Pairwise (fun a b => a ≤ b) s_vec ∧
      (∀ x ∈ s_vec, 0 ≤ x) := by
  have hlen : sl.speed_points.length ≠ 0 := by
    intro h
    exact hne (List.length_eq_zero.mp h)
  obtain ⟨a, b, c⟩ :=
    AddCruiseReferenceLineKernel_loop_spec t sl 1 0 [] (le_refl 1) rfl (by
      intro k hk1 hk
      simp only [List.nil_append, List.length_singleton] at hk
      omega)
  have hstep : ∀ (i : Nat) (hi : i + 1 < (AddCruiseReferenceLineKernel.loop t sl 1 0 []).length),
      (AddCruiseReferenceLineKernel.loop t sl 1 0 [])[i] ≤
        (AddCruiseReferenceLineKernel.loop t sl 1 0 [])[i + 1] := by
    intro i hi
    have hrec := c (i + 1) (by omega) hi
    have hti : i + 1 < t.length := by
      rw [a] at hi
      omega
    rw [List.getD_eq_getElem _ _ hi, Nat.add_sub_cancel,
      List.getD_eq_getElem _ _ (show i < _ by omega), List.getD_eq_getElem _ _ hti,
      List.getD_eq_getElem _ _ (show i < t.length by omega)] at hrec
    rw [hrec]
    have hdt : t[i] ≤ t[i + 1] :=
      List.pairwise_iff_getElem.mp hsorted i (i + 1) (by omega) hti (by omega)
    have := mul_nonneg (sub_nonneg.mpr hdt)
      (hnonneg (AddCruiseReferenceLineKernel.loop t sl 1 0 [])[i])
    linarith
  have hzero : ∀ h0 : 0 < (AddCruiseReferenceLineKernel.loop t sl 1 0 []).length,
      (AddCruiseReferenceLineKernel.loop t sl 1 0 [])[0] = 0 := by
    intro h0
    have := b 0 h0 (by simp)
    rw [List.getD_eq_getElem _ _ h0] at this
    simpa using this
  have hmono : ∀ (j : Nat) (i : Nat)
      (hj : j < (AddCruiseReferenceLineKernel.loop t sl 1 0 []).length)
      (hi : i < (AddCruiseReferenceLineKernel.loop t sl 1 0 []).length),
      i ≤ j → (AddCruiseReferenceLineKernel.loop t sl 1 0 [])[i] ≤
        (AddCruiseReferenceLineKernel.loop t sl 1 0 [])[j] := by
    intro j
    induction j with
    | zero =>
      intro i hj hi hij
      have : i = 0 := by omega
      subst this
      exact le_refl _
    | succ j ih =>
      intro i hj hi hij
      by_cases hlast : i = j + 1
      · subst hlast
        exact le_refl _
      · exact le_trans (ih i (by omega) hi (by omega)) (hstep j hj)
  refine ⟨AddCruiseReferenceLineKernel.loop t sl 1 0 [], ?_, hzero, hstep, ?_, ?_⟩
  · simp [AddCruiseReferenceLineKernel, hlen, Spline1dGenerator.addKernel]
  · rw [List.pairwise_iff_getElem]
    intro i j hi hj hij
    exact hmono j i hj hi (by omega)
  · intro x hx
    obtain ⟨k, hk, rfl⟩ := List.getElem_of_mem hx
    have h0 := hzero (by omega)
    have hk0 := hmono k 0 hk (by omega) (Nat.zero_le _)
    rw [h0] at hk0
    exact hk0

/-- C19 (witness): the theorem applied to the sample graph, the non-decreasing grid
`[0, 1, 2]` and the constant sample speed limit 5. -/
theorem AddCruiseReferenceLineKernel_reference_monotone_witness :
    ∃ s_vec : List ℚ,
      (AddCruiseReferenceLineKernel sampleGraph [0, 1, 2]
          sampleSpeedLimit).2.spline_generator_.kernel_log =
        sampleGraph.spline_generator_.kernel_log ++
          [KernelCall.add_reference_line_kernel_matrix [0, 1, 2] s_vec
            sampleGraph.qp_spline_st_speed_config_.reference_line_kernel_weight] ∧
      (∀ h0 : 0 < s_vec.length, s_vec[0] = 0) ∧
      (∀ (i : Nat) (hi : i + 1 < s_vec.length), s_vec[i] ≤ s_vec[i + 1]) ∧
      List.Pairwise (fun a b => a ≤ b) s_vec ∧
      (∀ x ∈ s_vec, 0 ≤ x) :=
  AddCruiseReferenceLineKernel_reference_monotone sampleGraph [0, 1, 2] sampleSpeedLimit
    (by simp [sampleSpeedLimit]) (by norm_num)
    (by
      intro s
      norm_num [sampleSpeedLimit])

/-! ## Search: what a call leaves behind -/

/-- A library that accepts every constraint makes `ApplyConstraint` return OK. -/
theorem ApplyConstraint_ok_of_accepts (lib : SplineLibrary) (g : QpSplineStGraph)
    (init_point : TrajectoryPoint) (speed_limit : SpeedLimit)
    (boundaries : List StGraphBoundary) (hacc : ∀ gen call, lib.accepts gen call = true) :
    (ApplyConstraint lib g init_point speed_limit boundaries).1 = Status.OK := by
  have h := (ApplyConstraint_outcome lib g init_point speed_limit boundaries).1
  have hr : List.range 8 = [0, 1, 2, 3, 4, 5, 6, 7] := by decide
  simp only [hr, hacc, Bool.not_true, List.find?_cons, List.find?_nil] at h
  exact h.1

/-- Every distance-window registration in the constraint log after `ApplyConstraint` was
either there before or is the one over the evaluation grid of the graph, with the bounds
that `GetSConstraintByTime` returns for the configured total path length. -/
theorem ApplyConstraint_AddBoundary_mem (lib : SplineLibrary) (g : QpSplineStGraph)
    (init_point : TrajectoryPoint) (speed_limit : SpeedLimit)
    (boundaries : List StGraphBoundary) (x lo up : List ℚ)
    (hmem : ConstraintCall.AddBoundary x lo up ∈
      (ApplyConstraint lib g init_point speed_limit
        boundaries).2.spline_generator_.constraint_log) :
    ConstraintCall.AddBoundary x lo up ∈ g.spline_generator_.constraint_log ∨
      (x = g.t_evaluated_ ∧
        lo = g.t_evaluated_.map (fun t =>
          (GetSConstraintByTime boundaries t
            g.qp_spline_st_speed_config_.total_path_length 0 0).2.2) ∧
        up = g.t_evaluated_.map (fun t =>
          (GetSConstraintByTime boundaries t
            g.qp_spline_st_speed_config_.total_path_length 0 0).2.1)) := by
  have h := (ApplyConstraint_outcome lib g init_point speed_limit boundaries).1
  simp only at h
  split at h
  · rw [h.2] at hmem
    rcases List.mem_append.mp hmem with hm | hm
    · exact Or.inl hm
    · simp only [List.mem_cons, List.mem_singleton, List.not_mem_nil, or_false,
        ConstraintCall.AddBoundary.injEq, false_or, reduceCtorEq] at hm
      exact Or.inr hm
  · rw [h.2] at hmem
    rcases List.mem_append.mp hmem with hm | hm
    · exact Or.inl hm
    · have hm2 := List.mem_of_mem_take hm
      simp only [List.mem_cons, List.mem_singleton, List.not_mem_nil, or_false,
        ConstraintCall.AddBoundary.injEq, false_or, reduceCtorEq] at hm2
      exact Or.inr hm2

/-- The graph a returning `Search` leaves behind: its grids and its configuration are those
built by the first statements of `Search`, and its constraint log is the one
`ApplyConstraint` left. -/
theorem Search_frame (lib : SplineLibrary) (fuel : Nat) (g : QpSplineStGraph)
    (st_graph_data : StGraphData) (speed_data : List SpeedPoint)
    (result : Status × QpSplineStGraph × List SpeedPoint)
    (hres : Search lib fuel g st_graph_data speed_data = some result) :
    result.2.1.t_knots_ = (Search.prepare g st_graph_data).t_knots_ ∧
    result.2.1.t_evaluated_ = (Search.prepare g st_graph_data).t_evaluated_ ∧
    result.2.1.qp_spline_st_speed_config_ =
      (Search.prepare g st_graph_data).qp_spline_st_speed_config_ ∧
    result.2.1.spline_generator_.constraint_log =
      (ApplyConstraint lib (Search.prepare g st_graph_data) st_graph_data.init_point
        st_graph_data.speed_limit
        st_graph_data.st_graph_boundaries).2.spline_generator_.constraint_log := by
  obtain ⟨o1, o2, o3, o4⟩ := Search_outcome lib fuel g st_graph_data speed_data
  have hc := ApplyConstraint_frame lib (Search.prepare g st_graph_data)
    st_graph_data.init_point st_graph_data.speed_limit st_graph_data.st_graph_boundaries
  have hk := ApplyKernel_frame
    (ApplyConstraint lib (Search.prepare g st_graph_data) st_graph_data.init_point
      st_graph_data.speed_limit st_graph_data.st_graph_boundaries).2
    st_graph_data.st_graph_boundaries st_graph_data.speed_limit
  have fc : ∀ gc : QpSplineStGraph,
      gc = (ApplyConstraint lib (Search.prepare g st_graph_data) st_graph_data.init_point
        st_graph_data.speed_limit st_graph_data.st_graph_boundaries).2 →
      gc.t_knots_ = (Search.prepare g st_graph_data).t_knots_ ∧
      gc.t_evaluated_ = (Search.prepare g st_graph_data).t_evaluated_ ∧
      gc.qp_spline_st_speed_config_ =
        (Search.prepare g st_graph_data).qp_spline_st_speed_config_ := by
    intro gc e
    rw [e, hc]
    exact ⟨rfl, rfl, rfl⟩
  have fk : ∀ gk : QpSplineStGraph,
      gk = (ApplyKernel
        (ApplyConstraint lib (Search.prepare g st_graph_data) st_graph_data.init_point
          st_graph_data.speed_limit st_graph_data.st_graph_boundaries).2
        st_graph_data.st_graph_boundaries st_graph_data.speed_limit).2 →
      gk.t_knots_ = (Search.prepare g st_graph_data).t_knots_ ∧
      gk.t_evaluated_ = (Search.prepare g st_graph_data).t_evaluated_ ∧
      gk.qp_spline_st_speed_config_ =
        (Search.prepare g st_graph_data).qp_spline_st_speed_config_ ∧
      gk.spline_generator_.constraint_log =
        (ApplyConstraint lib (Search.prepare g st_graph_data) st_graph_data.init_point
          st_graph_data.speed_limit
          st_graph_data.st_graph_boundaries).2.spline_generator_.constraint_log := by
    intro gk e
    obtain ⟨c1, c2, c3⟩ := fc _ rfl
    rw [e, hk]
    exact ⟨c1, c2, c3, rfl⟩
  cases h1 : (ApplyConstraint lib (Search.prepare g st_graph_data) st_graph_data.init_point
      st_graph_data.speed_limit st_graph_data.st_graph_boundaries).1.ok with
  | false =>
    rw [o1 h1] at hres
    cases hres
    obtain ⟨c1, c2, c3⟩ := fc _ rfl
    exact ⟨c1, c2, c3, rfl⟩
  | true =>
    cases h2 : (ApplyKernel
        (ApplyConstraint lib (Search.prepare g st_graph_data) st_graph_data.init_point
          st_graph_data.speed_limit st_graph_data.st_graph_boundaries).2
        st_graph_data.st_graph_boundaries st_graph_data.speed_limit).1.ok with
    | false =>
      rw [o2 h1 h2] at hres
      cases hres
      exact fk _ rfl
    | true =>
      cases h3 : (Solve lib (ApplyKernel
          (ApplyConstraint lib (Search.prepare g st_graph_data) st_graph_data.init_point
            st_graph_data.speed_limit st_graph_data.st_graph_boundaries).2
          st_graph_data.st_graph_boundaries st_graph_data.speed_limit).2).1.ok with
      | false =>
        rw [o3 h1 h2 h3] at hres
        cases hres
        obtain ⟨k1, k2, k3, k4⟩ := fk _ rfl
        exact ⟨k1, k2, k3, k4⟩
      | true =>
        rw [o4 h1 h2 h3] at hres
        obtain ⟨sampled, -, rfl⟩ := Option.map_eq_some'.mp hres
        obtain ⟨k1, k2, k3, k4⟩ := fk _ rfl
        exact ⟨k1, k2, k3, k4⟩

/-- The total path length in the configuration after the first statements of `Search` is
the smaller of the configured one and the available path length. -/
theorem Search_prepare_total_path_length (g : QpSplineStGraph) (st_graph_data : StGraphData) :
    (Search.prepare g st_graph_data).qp_spline_st_speed_config_.total_path_length =
      min g.qp_spline_st_speed_config_.total_path_length st_graph_data.path_data_length := by
  simp only [Search.prepare, Init]
  by_cases h : st_graph_data.path_data_length < g.qp_spline_st_speed_config_.total_path_length
  · rw [if_pos h]
    exact (min_eq_right (le_of_lt h)).symm
  · rw [if_neg h]
    exact (min_eq_left (not_lt.mp h)).symm

/-- C12: with `P` the total path length configured in the graph and `A` the available path
length of the request, the total path length `Search` works with is `min P A`: it is `A`
when `A < P`, it is `P` otherwise, and it never exceeds `P`.  Every distance window that a
returning `Search` has registered is over the evaluation grid and holds the bounds that
`GetSConstraintByTime` returns for the total path length `min P A`. -/
theorem Search_total_path_length (lib : SplineLibrary) (fuel : Nat) (g : QpSplineStGraph)
    (st_graph_data : StGraphData) (speed_data : List SpeedPoint) :
    let P := g.qp_spline_st_speed_config_.total_path_length
    let A := st_graph_data.path_data_length
    let used := (Search.prepare g st_graph_data).qp_spline_st_speed_config_.total_path_length
    used = min P A ∧ used ≤ P ∧ (A < P → used = A) ∧ (P ≤ A → used = P) ∧
    ∀ result, Search lib fuel g st_graph_data speed_data = some result →
      result.2.1.qp_spline_st_speed_config_.total_path_length = min P A ∧
      ∀ x lo up,
        ConstraintCall.AddBoundary x lo up ∈ result.2.1.spline_generator_.constraint_log →
        x = (Search.prepare g st_graph_data).t_evaluated_ ∧
          lo = x.map (fun t =>
            (GetSConstraintByTime st_graph_data.st_graph_boundaries t (min P A) 0 0).2.2) ∧
          up = x.map (fun t =>
            (GetSConstraintByTime st_graph_data.st_graph_boundaries t (min P A) 0 0).2.1) := by
  intro P A used
  have hused : used = min P A := Search_prepare_total_path_length g st_graph_data
  refine ⟨hused, ?_, ?_, ?_, ?_⟩
  · rw [hused]
    exact min_le_left _ _
  · intro h
    rw [hused]
    exact min_eq_right (le_of_lt h)
  · intro h
    rw [hused]
    exact min_eq_left h
  · intro result hres
    obtain ⟨-, -, f3, f4⟩ := Search_frame lib fuel g st_graph_data speed_data result hres
    refine ⟨?_, ?_⟩
    · rw [f3]
      exact hused
    · intro x lo up hmem
      rw [f4] at hmem
      rcases ApplyConstraint_AddBoundary_mem lib (Search.prepare g st_graph_data)
        st_graph_data.init_point st_graph_data.speed_limit st_graph_data.st_graph_boundaries
        x lo up hmem with h | ⟨hx, hlo, hup⟩
      · rw [(Search_prepare_generator g st_graph_data).1] at h
        cases h
      · rw [show (Search.prepare g st_graph_data).qp_spline_st_speed_config_.total_path_length =
          min P A from hused] at hlo hup
        rw [hx]
        exact ⟨rfl, hlo, hup⟩

/-! ## Search: the output samples -/

/-- With a library that accepts every constraint and solves every problem, and a speed
limit that is not empty, `Search` reaches its output loop: its result is that of the loop. -/
theorem Search_of_accepting (lib : SplineLibrary) (fuel : Nat) (g : QpSplineStGraph)
    (st_graph_data : StGraphData) (speed_data : List SpeedPoint)
    (hacc : ∀ gen call, lib.accepts gen call = true) (hsol : ∀ gen, lib.solves gen = true)
    (hne : st_graph_data.speed_limit.speed_points ≠ []) :
    Search lib fuel g st_graph_data speed_data =
      (Search.sample (lib.spline (Search.solvedGraph lib g st_graph_data).spline_generator_)
          g.qp_spline_st_speed_config_.total_time
          g.qp_spline_st_speed_config_.output_time_resolution fuel 0 []).map
        fun sampled => (Status.OK, Search.solvedGraph lib g st_graph_data, sampled) := by
  obtain ⟨-, -, -, o4⟩ := Search_outcome lib fuel g st_graph_data speed_data
  have hcfg := Search_solved_config lib g st_graph_data
  rw [hcfg.1, hcfg.2] at o4
  apply o4
  · rw [ApplyConstraint_ok_of_accepts lib _ _ _ _ hacc]
    rfl
  · rw [ApplyKernel_outcome_nonempty _ _ _ hne]
    rfl
  · simp [Solve, hsol, Status.OK, Status.ok]

/-- Closed form of the output loop: entered at `time` with the points `acc`, a loop that
ends returns `acc` followed by the points at `time`, `time + r`, ..., `time + (n - 1) * r`,
where `n` is the first count with `time + n * r` not below `total_time + r`. -/
theorem Search_sample_spec (spline : Spline1d) (total_time r : ℚ) :
    ∀ (fuel : Nat) (time : ℚ) (acc out : List SpeedPoint),
      Search.sample spline total_time r fuel time acc = some out →
      ∃ n : Nat,
        out = acc ++ (List.range n).map (fun k : Nat =>
          (⟨spline.eval (time + k * r), time + k * r, spline.Derivative (time + k * r),
            spline.SecondOrderDerivative (time + k * r),
            spline.ThirdOrderDerivative (time + k * r)⟩ : SpeedPoint)) ∧
        (∀ k : Nat, k < n → time + k * r < total_time + r) ∧
        ¬ (time + n * r < total_time + r) := by
  intro fuel
  induction fuel with
  | zero =>
    intro time acc out h
    by_cases hc : time < total_time + r
    · simp [Search.sample, hc] at h
    · simp only [Search.sample, hc, if_false, Option.some.injEq] at h
      refine ⟨0, by simp [h], by simp, by simpa using hc⟩
  | succ f ih =>
    intro time acc out h
    by_cases hc : time < total_time + r
    · simp only [Search.sample, hc, if_true] at h
      obtain ⟨n, e, hlt, hge⟩ := ih _ _ _ h
      refine ⟨n + 1, ?_, ?_, ?_⟩
      · rw [e, List.range_succ_eq_map, List.map_cons, List.map_map, List.append_assoc,
          List.singleton_append]
        congr 2
        · simp
        · apply List.map_congr_left
          intro k _
          simp only [Function.comp_apply, Nat.succ_eq_add_one, Nat.cast_add, Nat.cast_one]
          have hk : time + r + (k : ℚ) * r = time + ((k : ℚ) + 1) * r := by ring
          rw [hk]
      · intro k hk
        cases k with
        | zero => simpa using hc
        | succ k =>
          have := hlt k (by omega)
          push_cast
          linarith
      · push_cast
        intro hcontra
        apply hge
        linarith
    · simp only [Search.sample, hc, if_false, Option.some.injEq] at h
      refine ⟨0, by simp [h], by simp, by simpa using hc⟩

/-- The sample run: `Search` on `sampleData` from the newly constructed sample graph, with
the library `acceptAll` and three iterations of the output loop allowed, returns
`sampleResult`. -/
theorem Search_sample_run :
    Search acceptAll 3 (QpSplineStGraph.new sampleConfig) sampleData [] = some sampleResult := by
  rw [Search_of_accepting acceptAll 3 (QpSplineStGraph.new sampleConfig) sampleData []
    (fun _ _ => rfl) (fun _ => rfl) (by simp [sampleData, sampleSpeedLimit])]
  norm_num [Search.sample, QpSplineStGraph.new, sampleConfig, acceptAll, sampleResult]

/-- C13 (counterexample): with horizon 1 and output resolution 2/5 a successful `Search`
emits samples at the times 0, 2/5, 4/5 and 6/5; the last one lies beyond the horizon. -/
theorem Search_sample_beyond_horizon :
    0 < unevenOutputConfig.output_time_resolution ∧ unevenOutputConfig.total_time = 1 ∧
    ∃ g1 samples,
      Search acceptAll 4 (QpSplineStGraph.new unevenOutputConfig) sampleData [] =
        some (Status.OK, g1, samples) ∧
      samples.map (fun p => p.t) = [0, 2 / 5, 4 / 5, 6 / 5] ∧
      ¬ (∀ p ∈ samples, p.t ≤ 1) := by
  refine ⟨by norm_num [unevenOutputConfig], rfl,
    Search.solvedGraph acceptAll (QpSplineStGraph.new unevenOutputConfig) sampleData,
    [⟨0, 0, 0, 0, 0⟩, ⟨0, 2 / 5, 0, 0, 0⟩, ⟨0, 4 / 5, 0, 0, 0⟩, ⟨0, 6 / 5, 0, 0, 0⟩], ?_, ?_, ?_⟩
  · rw [Search_of_accepting acceptAll 4 (QpSplineStGraph.new unevenOutputConfig) sampleData []
      (fun _ _ => rfl) (fun _ => rfl) (by simp [sampleData, sampleSpeedLimit])]
    norm_num [Search.sample, QpSplineStGraph.new, unevenOutputConfig, sampleConfig, acceptAll]
  · simp
  · intro h
    have := h ⟨0, 6 / 5, 0, 0, 0⟩ (by simp)
    norm_num at this

/-- A `Search` that returns status OK has run all three phases with success and returns the
graph after `Solve` together with the output of the sampling loop. -/
theorem Search_ok_result (lib : SplineLibrary) (fuel : Nat) (g : QpSplineStGraph)
    (st_graph_data : StGraphData) (speed_data : List SpeedPoint)
    (result : Status × QpSplineStGraph × List SpeedPoint)
    (hres : Search lib fuel g st_graph_data speed_data = some result)
    (hok : result.1 = Status.OK) :
    result.2.1 = Search.solvedGraph lib g st_graph_data ∧
    Search.sample (lib.spline (Search.solvedGraph lib g st_graph_data).spline_generator_)
      g.qp_spline_st_speed_config_.total_time
      g.qp_spline_st_speed_config_.output_time_resolution fuel 0 [] = some result.2.2 := by
  obtain ⟨o1, o2, o3, o4⟩ := Search_outcome lib fuel g st_graph_data speed_data
  have hcfg := Search_solved_config lib g st_graph_data
  rw [hcfg.1, hcfg.2] at o4
  cases h1 : (ApplyConstraint lib (Search.prepare g st_graph_data) st_graph_data.init_point
      st_graph_data.speed_limit st_graph_data.st_graph_boundaries).1.ok with
  | false =>
    rw [o1 h1] at hres
    cases hres
    simp [Status.OK] at hok
  | true =>
    cases h2 : (ApplyKernel
        (ApplyConstraint lib (Search.prepare g st_graph_data) st_graph_data.init_point
          st_graph_data.speed_limit st_graph_data.st_graph_boundaries).2
        st_graph_data.st_graph_boundaries st_graph_data.speed_limit).1.ok with
    | false =>
      rw [o2 h1 h2] at hres
      cases hres
      simp [Status.OK] at hok
    | true =>
      cases h3 : (Solve lib (ApplyKernel
          (ApplyConstraint lib (Search.prepare g st_graph_data) st_graph_data.init_point
            st_graph_data.speed_limit st_graph_data.st_graph_boundaries).2
          st_graph_data.st_graph_boundaries st_graph_data.speed_limit).2).1.ok with
      | false =>
        rw [o3 h1 h2 h3] at hres
        cases hres
        simp [Status.OK] at hok
      | true =>
        rw [o4 h1 h2 h3] at hres
        obtain ⟨sampled, hs, rfl⟩ := Option.map_eq_some'.mp hres
        exact ⟨rfl, hs⟩

/-- C13 (amended): for a `Search` that returns OK, with output resolution `r > 0` and
horizon `T ≥ 0`, the samples are the points `(spline t, t, spline' t, spline'' t,
spline''' t)` at the times `0, r, 2r, ..., (n - 1) r` for some `n ≥ 1`, in strictly
increasing order of time; the first time is 0, every time is below `T + r`, and the last
time is at least `T`.  When `T` is a whole multiple `m * r` of the resolution there are
exactly `m + 1` samples, every time is at most `T`, and the last time is `T`. -/
theorem Search_samples (lib : SplineLibrary) (fuel : Nat) (g : QpSplineStGraph)
    (st_graph_data : StGraphData) (speed_data : List SpeedPoint)
    (result : Status × QpSplineStGraph × List SpeedPoint)
    (hr : 0 < g.qp_spline_st_speed_config_.output_time_resolution)
    (hT : 0 ≤ g.qp_spline_st_speed_config_.total_time)
    (hres : Search lib fuel g st_graph_data speed_data = some result)
    (hok : result.1 = Status.OK) :
    ∃ n : Nat, 1 ≤ n ∧
      result.2.2 = (List.range n).map (fun k : Nat =>
        (⟨(lib.spline result.2.1.spline_generator_).eval
            (k * g.qp_spline_st_speed_config_.output_time_resolution),
          k * g.qp_spline_st_speed_config_.output_time_resolution,
          (lib.spline result.2.1.spline_generator_).Derivative
            (k * g.qp_spline_st_speed_config_.output_time_resolution),
          (lib.spline result.2.1.spline_generator_).SecondOrderDerivative
            (k * g.qp_spline_st_speed_config_.output_time_resolution),
          (lib.spline result.2.1.spline_generator_).ThirdOrderDerivative
            (k * g.qp_spline_st_speed_config_.output_time_resolution)⟩ : SpeedPoint)) ∧
      List.Pairwise (fun a b : SpeedPoint => a.t < b.t) result.2.2 ∧
      (∀ p ∈ result.2.2, 0 ≤ p.t ∧
        p.t < g.qp_spline_st_speed_config_.total_time +
          g.qp_spline_st_speed_config_.output_time_resolution) ∧
      (result.2.2.head?.map fun p => p.t) = some 0 ∧
      (result.2.2.getLast?.map fun p => p.t) =
        some (((n - 1 : Nat) : ℚ) * g.qp_spline_st_speed_config_.output_time_resolution) ∧
      g.qp_spline_st_speed_config_.total_time ≤
        ((n - 1 : Nat) : ℚ) * g.qp_spline_st_speed_config_.output_time_resolution ∧
      (∀ m : Nat,
        g.qp_spline_st_speed_config_.total_time =
          m * g.qp_spline_st_speed_config_.output_time_resolution →
        n = m + 1 ∧ (∀ p ∈ result.2.2, p.t ≤ g.qp_spline_st_speed_config_.total_time) ∧
          (result.2.2.getLast?.map fun p => p.t) =
            some g.qp_spline_st_speed_config_.total_time) := by
  obtain ⟨hg, hs⟩ := Search_ok_result lib fuel g st_graph_data speed_data result hres hok
  obtain ⟨n, e, hlt, hge⟩ := Search_sample_spec _ _ _ fuel 0 [] result.2.2 hs
  simp only [zero_add, List.nil_append] at e hlt hge
  rw [← hg] at e
  generalize g.qp_spline_st_speed_config_.output_time_resolution = r at *
  generalize g.qp_spline_st_speed_config_.total_time = T at *
  have hn : 1 ≤ n := by
    by_contra hn0
    have h0 : n = 0 := by omega
    apply hge
    rw [h0]
    simp only [Nat.cast_zero, zero_mul]
    linarith
  have hcast : ((n - 1 : Nat) : ℚ) = (n : ℚ) - 1 := by
    rw [Nat.cast_sub hn]
    simp
  have hlast : T ≤ ((n - 1 : Nat) : ℚ) * r := by
    rw [hcast]
    have := not_lt.mp hge
    linarith
  have hlastlt : ((n - 1 : Nat) : ℚ) * r < T + r := hlt (n - 1) (by omega)
  have hgl : (result.2.2.getLast?.map fun p => p.t) = some (((n - 1 : Nat) : ℚ) * r) := by
    rw [e, List.getLast?_map, List.getLast?_range]
    simp only [show n ≠ 0 by omega, if_false, Option.map_some']
  have hmem : ∀ p ∈ result.2.2, ∃ k : Nat, k < n ∧ p.t = (k : ℚ) * r := by
    intro p hp
    rw [e] at hp
    obtain ⟨k, hk, rfl⟩ := List.mem_map.mp hp
    exact ⟨k, List.mem_range.mp hk, rfl⟩
  refine ⟨n, hn, e, ?_, ?_, ?_, hgl, hlast, ?_⟩
  · rw [e]
    apply List.Pairwise.map _ _ (List.pairwise_lt_range n)
    intro a b hab
    simp only
    have : (a : ℚ) < b := by exact_mod_cast hab
    nlinarith
  · intro p hp
    obtain ⟨k, hk, hpt⟩ := hmem p hp
    rw [hpt]
    exact ⟨mul_nonneg (Nat.cast_nonneg k) (le_of_lt hr), hlt k hk⟩
  · rw [e, List.head?_map, List.head?_range]
    simp [show n ≠ 0 by omega]
  · intro m hm
    have hnm : n = m + 1 := by
      rw [hm, hcast] at hlast
      rw [hm, hcast] at hlastlt
      have h1 : (m : ℚ) ≤ (n : ℚ) - 1 := le_of_mul_le_mul_right hlast hr
      have h2 : (n : ℚ) - 1 < (m : ℚ) + 1 := by
        have : ((n : ℚ) - 1) * r < ((m : ℚ) + 1) * r := by linarith
        exact lt_of_mul_lt_mul_right this (le_of_lt hr)
      have h3 : (m : ℚ) + 1 ≤ n := by linarith
      have h4 : (n : ℚ) < (m : ℚ) + 2 := by linarith
      have h5 : m + 1 ≤ n := by exact_mod_cast h3
      have h6 : n < m + 2 := by exact_mod_cast h4
      omega
    refine ⟨hnm, ?_, ?_⟩
    · intro p hp
      obtain ⟨k, hk, hpt⟩ := hmem p hp
      rw [hpt, hm]
      have : (k : ℚ) ≤ m := by
        have : k ≤ m := by omega
        exact_mod_cast this
      exact mul_le_mul_of_nonneg_right this (le_of_lt hr)
    · rw [hgl, hm, hnm]
      simp

/-- C13 (witness): the amended statement applied to the sample run, whose horizon 1 is
twice the output resolution 1/2. -/
theorem Search_samples_witness :
    ∃ n : Nat, 1 ≤ n ∧
      sampleResult.2.2 = (List.range n).map (fun k : Nat =>
        (⟨(acceptAll.spline sampleResult.2.1.spline_generator_).eval
            (k * (QpSplineStGraph.new sampleConfig).qp_spline_st_speed_config_.output_time_resolution),
          k * (QpSplineStGraph.new sampleConfig).qp_spline_st_speed_config_.output_time_resolution,
          (acceptAll.spline sampleResult.2.1.spline_generator_).Derivative
            (k * (QpSplineStGraph.new sampleConfig).qp_spline_st_speed_config_.output_time_resolution),
          (acceptAll.spline sampleResult.2.1.spline_generator_).SecondOrderDerivative
            (k * (QpSplineStGraph.new sampleConfig).qp_spline_st_speed_config_.output_time_resolution),
          (acceptAll.spline sampleResult.2.1.spline_generator_).ThirdOrderDerivative
            (k * (QpSplineStGraph.new sampleConfig).qp_spline_st_speed_config_.output_time_resolution)⟩ :
          SpeedPoint)) ∧
      List.Pairwise (fun a b : SpeedPoint => a.t < b.t) sampleResult.2.2 ∧
      (∀ p ∈ sampleResult.2.2, 0 ≤ p.t ∧
        p.t < (QpSplineStGraph.new sampleConfig).qp_spline_st_speed_config_.total_time +
          (QpSplineStGraph.new sampleConfig).qp_spline_st_speed_config_.output_time_resolution) ∧
      (sampleResult.2.2.head?.map fun p => p.t) = some 0 ∧
      (sampleResult.2.2.getLast?.map fun p => p.t) =
        some (((n - 1 : Nat) : ℚ) *
          (QpSplineStGraph.new sampleConfig).qp_spline_st_speed_config_.output_time_resolution) ∧
      (QpSplineStGraph.new sampleConfig).qp_spline_st_speed_config_.total_time ≤
        ((n - 1 : Nat) : ℚ) *
          (QpSplineStGraph.new sampleConfig).qp_spline_st_speed_config_.output_time_resolution ∧
      (∀ m : Nat,
        (QpSplineStGraph.new sampleConfig).qp_spline_st_speed_config_.total_time =
          m * (QpSplineStGraph.new sampleConfig).qp_spline_st_speed_config_.output_time_resolution →
        n = m + 1 ∧
          (∀ p ∈ sampleResult.2.2,
            p.t ≤ (QpSplineStGraph.new sampleConfig).qp_spline_st_speed_config_.total_time) ∧
          (sampleResult.2.2.getLast?.map fun p => p.t) =
            some (QpSplineStGraph.new sampleConfig).qp_spline_st_speed_config_.total_time) :=
  Search_samples acceptAll 3 (QpSplineStGraph.new sampleConfig) sampleData [] sampleResult
    (by norm_num [QpSplineStGraph.new, sampleConfig])
    (by norm_num [QpSplineStGraph.new, sampleConfig]) Search_sample_run rfl

/-! ## Search: repeated calls -/

/-- The grids after the first statements of `Search` are the grids the graph held before,
followed by the newly pushed times: `Init` appends and never empties. -/
theorem Search_prepare_grids (g : QpSplineStGraph) (st_graph_data : StGraphData) :
    (Search.prepare g st_graph_data).t_knots_ =
      g.t_knots_ ++
        (List.range (g.qp_spline_st_speed_config_.number_of_discrete_graph_t + 1)).map
          (fun k : Nat => 0 + (k : ℚ) * g.t_knots_resolution_) ∧
    (Search.prepare g st_graph_data).t_evaluated_ =
      g.t_evaluated_ ++
        (List.range (g.qp_spline_st_speed_config_.number_of_evaluated_graph_t + 1)).map
          (fun k : Nat => 0 + (k : ℚ) * g.t_evaluated_resolution_) ∧
    (Search.prepare g st_graph_data).t_knots_resolution_ = g.t_knots_resolution_ ∧
    (Search.prepare g st_graph_data).t_evaluated_resolution_ = g.t_evaluated_resolution_ ∧
    (Search.prepare g st_graph_data).qp_spline_st_speed_config_.number_of_discrete_graph_t =
      g.qp_spline_st_speed_config_.number_of_discrete_graph_t ∧
    (Search.prepare g st_graph_data).qp_spline_st_speed_config_.number_of_evaluated_graph_t =
      g.qp_spline_st_speed_config_.number_of_evaluated_graph_t := by
  simp only [Search.prepare, Init, Init_fill_eq, Nat.sub_zero]
  split <;> exact ⟨rfl, rfl, rfl, rfl, rfl, rfl⟩

/-- Two graphs that agree in every member but the spline generator. -/
theorem QpSplineStGraph_eq_of_members (a b : QpSplineStGraph)
    (h1 : a.qp_spline_st_speed_config_ = b.qp_spline_st_speed_config_)
    (h2 : a.t_knots_resolution_ = b.t_knots_resolution_)
    (h3 : a.t_evaluated_resolution_ = b.t_evaluated_resolution_)
    (h4 : a.init_point_ = b.init_point_) (h5 : a.t_knots_ = b.t_knots_)
    (h6 : a.t_evaluated_ = b.t_evaluated_) :
    a = { b with spline_generator_ := a.spline_generator_ } := by
  cases a
  cases b
  simp only at h1 h2 h3 h4 h5 h6
  simp only [h1, h2, h3, h4, h5, h6]

/-- The graph a returning `Search` leaves behind differs from the graph after its first
statements in the spline generator only. -/
theorem Search_frame_graph (lib : SplineLibrary) (fuel : Nat) (g : QpSplineStGraph)
    (st_graph_data : StGraphData) (speed_data : List SpeedPoint)
    (result : Status × QpSplineStGraph × List SpeedPoint)
    (hres : Search lib fuel g st_graph_data speed_data = some result) :
    result.2.1 =
      { Search.prepare g st_graph_data with spline_generator_ := result.2.1.spline_generator_ } := by
  obtain ⟨o1, o2, o3, o4⟩ := Search_outcome lib fuel g st_graph_data speed_data
  have hc := ApplyConstraint_frame lib (Search.prepare g st_graph_data)
    st_graph_data.init_point st_graph_data.speed_limit st_graph_data.st_graph_boundaries
  have hk := ApplyKernel_frame
    (ApplyConstraint lib (Search.prepare g st_graph_data) st_graph_data.init_point
      st_graph_data.speed_limit st_graph_data.st_graph_boundaries).2
    st_graph_data.st_graph_boundaries st_graph_data.speed_limit
  have fc := QpSplineStGraph_eq_of_members
    (ApplyConstraint lib (Search.prepare g st_graph_data) st_graph_data.init_point
      st_graph_data.speed_limit st_graph_data.st_graph_boundaries).2
    (Search.prepare g st_graph_data)
    (by rw [hc]) (by rw [hc]) (by rw [hc]) (by rw [hc]) (by rw [hc]) (by rw [hc])
  have fk := QpSplineStGraph_eq_of_members
    (ApplyKernel
      (ApplyConstraint lib (Search.prepare g st_graph_data) st_graph_data.init_point
        st_graph_data.speed_limit st_graph_data.st_graph_boundaries).2
      st_graph_data.st_graph_boundaries st_graph_data.speed_limit).2
    (Search.prepare g st_graph_data)
    (by rw [hk, hc]) (by rw [hk, hc]) (by rw [hk, hc]) (by rw [hk, hc]) (by rw [hk, hc])
    (by rw [hk, hc])
  have fs := QpSplineStGraph_eq_of_members
    (Solve lib (ApplyKernel
      (ApplyConstraint lib (Search.prepare g st_graph_data) st_graph_data.init_point
        st_graph_data.speed_limit st_graph_data.st_graph_boundaries).2
      st_graph_data.st_graph_boundaries st_graph_data.speed_limit).2).2
    (Search.prepare g st_graph_data)
    (by simp only [Solve]; rw [hk, hc]) (by simp only [Solve]; rw [hk, hc])
    (by simp only [Solve]; rw [hk, hc]) (by simp only [Solve]; rw [hk, hc])
    (by simp only [Solve]; rw [hk, hc]) (by simp only [Solve]; rw [hk, hc])
  cases h1 : (ApplyConstraint lib (Search.prepare g st_graph_data) st_graph_data.init_point
      st_graph_data.speed_limit st_graph_data.st_graph_boundaries).1.ok with
  | false =>
    rw [o1 h1] at hres
    cases hres
    exact fc
  | true =>
    cases h2 : (ApplyKernel
        (ApplyConstraint lib (Search.prepare g st_graph_data) st_graph_data.init_point
          st_graph_data.speed_limit st_graph_data.st_graph_boundaries).2
        st_graph_data.st_graph_boundaries st_graph_data.speed_limit).1.ok with
    | false =>
      rw [o2 h1 h2] at hres
      cases hres
      exact fk
    | true =>
      cases h3 : (Solve lib (ApplyKernel
          (ApplyConstraint lib (Search.prepare g st_graph_data) st_graph_data.init_point
            st_graph_data.speed_limit st_graph_data.st_graph_boundaries).2
          st_graph_data.st_graph_boundaries st_graph_data.speed_limit).2).1.ok with
      | false =>
        rw [o3 h1 h2 h3] at hres
        cases hres
        exact fs
      | true =>
        rw [o4 h1 h2 h3] at hres
        obtain ⟨sampled, -, rfl⟩ := Option.map_eq_some'.mp hres
        exact fs

/-- Members of the graph after the first statements of `Search` on the newly constructed
sample graph: both grids are `[0, 1]`, both grid steps are 1 and both counts are 1. -/
theorem Search_prepare_sample (st_graph_data : StGraphData) :
    (Search.prepare (QpSplineStGraph.new sampleConfig) st_graph_data).t_knots_ = [0, 1] ∧
    (Search.prepare (QpSplineStGraph.new sampleConfig) st_graph_data).t_evaluated_ = [0, 1] ∧
    (Search.prepare (QpSplineStGraph.new sampleConfig) st_graph_data).t_knots_resolution_ = 1 ∧
    (Search.prepare (QpSplineStGraph.new sampleConfig)
      st_graph_data).t_evaluated_resolution_ = 1 ∧
    (Search.prepare (QpSplineStGraph.new sampleConfig)
      st_graph_data).qp_spline_st_speed_config_.number_of_discrete_graph_t = 1 ∧
    (Search.prepare (QpSplineStGraph.new sampleConfig)
      st_graph_data).qp_spline_st_speed_config_.number_of_evaluated_graph_t = 1 := by
  obtain ⟨h1, h2, h3, h4, h5, h6⟩ :=
    Search_prepare_grids (QpSplineStGraph.new sampleConfig) st_graph_data
  rw [h1, h2, h3, h4, h5, h6]
  norm_num [QpSplineStGraph.new, sampleConfig, List.range_succ]

/-- C11 (failing input): a second `Search` on the graph the sample run has left behind, with
the same request, works on grids that hold the times of both calls, `[0, 1, 0, 1]`, instead
of the newly built `[0, 1]`; they are not increasing.  And after a `Search` with 50 of path
available, a `Search` with 100 available still works with the total path length 50, not
with the 100 the graph was constructed with. -/
theorem Search_second_call_state_leak :
    Search acceptAll 3 (QpSplineStGraph.new sampleConfig) sampleData [] = some sampleResult ∧
    sampleResult.1 = Status.OK ∧
    (Search.prepare (QpSplineStGraph.new sampleConfig) sampleData).t_knots_ = [0, 1] ∧
    (Search.prepare (QpSplineStGraph.new sampleConfig) sampleData).t_evaluated_ = [0, 1] ∧
    (Search.prepare sampleResult.2.1 sampleData).t_knots_ = [0, 1, 0, 1] ∧
    (Search.prepare sampleResult.2.1 sampleData).t_evaluated_ = [0, 1, 0, 1] ∧
    ¬ List.Pairwise (fun a b => a < b) (Search.prepare sampleResult.2.1 sampleData).t_knots_ ∧
    ¬ List.Pairwise (fun a b => a < b)
      (Search.prepare sampleResult.2.1 sampleData).t_evaluated_ ∧
    sampleConfig.total_path_length = 100 ∧ sampleData.path_data_length = 100 ∧
    ∃ shortResult,
      Search acceptAll 3 (QpSplineStGraph.new sampleConfig) shortPathData [] =
        some shortResult ∧
      shortResult.1 = Status.OK ∧
      (Search.prepare shortResult.2.1
        sampleData).qp_spline_st_speed_config_.total_path_length = 50 := by
  obtain ⟨p1, p2, p3, p4, p5, p6⟩ := Search_prepare_sample sampleData
  have hg := Search_frame_graph acceptAll 3 _ sampleData [] sampleResult Search_sample_run
  obtain ⟨q1, q2, -, -, -, -⟩ := Search_prepare_grids sampleResult.2.1 sampleData
  have e1 : sampleResult.2.1.t_knots_ = [0, 1] := by rw [hg]; exact p1
  have e2 : sampleResult.2.1.t_evaluated_ = [0, 1] := by rw [hg]; exact p2
  have e3 : sampleResult.2.1.t_knots_resolution_ = 1 := by rw [hg]; exact p3
  have e4 : sampleResult.2.1.t_evaluated_resolution_ = 1 := by rw [hg]; exact p4
  have e5 : sampleResult.2.1.qp_spline_st_speed_config_.number_of_discrete_graph_t = 1 := by
    rw [hg]; exact p5
  have e6 : sampleResult.2.1.qp_spline_st_speed_config_.number_of_evaluated_graph_t = 1 := by
    rw [hg]; exact p6
  rw [e1, e3, e5] at q1
  rw [e2, e4, e6] at q2
  have k1 : (Search.prepare sampleResult.2.1 sampleData).t_knots_ = [0, 1, 0, 1] := by
    rw [q1]
    norm_num [List.range_succ]
  have k2 : (Search.prepare sampleResult.2.1 sampleData).t_evaluated_ = [0, 1, 0, 1] := by
    rw [q2]
    norm_num [List.range_succ]
  refine ⟨Search_sample_run, rfl, p1, p2, k1, k2, ?_, ?_, rfl, rfl, ?_⟩
  · rw [k1]
    norm_num
  · rw [k2]
    norm_num
  · have hrun : Search acceptAll 3 (QpSplineStGraph.new sampleConfig) shortPathData [] =
        some (Status.OK,
          Search.solvedGraph acceptAll (QpSplineStGraph.new sampleConfig) shortPathData,
          [⟨0, 0, 0, 0, 0⟩, ⟨0, 1 / 2, 0, 0, 0⟩, ⟨0, 1, 0, 0, 0⟩]) := by
      rw [Search_of_accepting acceptAll 3 (QpSplineStGraph.new sampleConfig) shortPathData []
        (fun _ _ => rfl) (fun _ => rfl) (by simp [shortPathData, sampleSpeedLimit])]
      norm_num [Search.sample, QpSplineStGraph.new, sampleConfig, acceptAll]
    refine ⟨_, hrun, rfl, ?_⟩
    obtain ⟨-, -, f3, -⟩ := Search_frame acceptAll 3 _ shortPathData [] _ hrun
    rw [Search_prepare_total_path_length, f3, Search_prepare_total_path_length]
    norm_num [QpSplineStGraph.new, sampleConfig, shortPathData, sampleData]

end Apollo
